import Mathlib

/-!
Verification of the metadata-client core (kernel MDS client) of this
repository against its natural-language specification.

The development shallowly embeds the relevant C sources:

* `src/kernel/inode.c` (capability array per inode, `ceph_add_cap`,
  `ceph_handle_cap_grant`) in the `OldInode` namespace;
* `src/kernel/mds_client.c` (request pipeline, sessions, reply, forward,
  lease and session handlers, reconnect buffer sizing) in the `MdsClient`
  namespace.

Machine integers are modelled as `Nat`/`Int`; bitmasks use the bitwise
operations on `Nat`, which agree with the 32-bit C operations on the
values that occur (all masks are below 2 to the 32).  Kernel allocation
is assumed to succeed (allocation failure is environment nondeterminism
that no claim is about).  Locking is not modelled: every handler runs
atomically, matching the lock discipline described by the specification.
Functions of the repository that are referenced from the sources but are
not under `src/` are modelled from the specification and carry a doc
comment starting with "Modelled from the spec:".
-/

namespace OldInode

/-- Modelled from the spec: the capability bitmask constants live in the
shared protocol header, which is not under `src/`.  Only distinctness of
the bits matters for the claims.  Read-cache bit. -/
def CAP_RD : Nat := 1

/-- Modelled from the spec: write-exclusive bit of the cap mask. -/
def CAP_WR : Nat := 2

/-- Modelled from the spec: write-buffer bit of the cap mask. -/
def CAP_BUFFER : Nat := 4

/-- One entry of the per-inode capability array `ci->i_caps`
(`struct ceph_inode_cap` in `src/kernel/inode.c`): granting MDS rank,
issued mask, sequence number and flags. -/
structure Cap where
  mds : Nat
  caps : Nat
  seq : Nat
  flags : Nat
  deriving DecidableEq, Repr

/-- The caps-relevant state of `struct ceph_inode_info` as used by
`src/kernel/inode.c`: the capability array (the list models the dynamic
array `i_caps` with its `i_nr_caps` length) and the wanted mask. -/
structure InodeInfo where
  caps : List Cap
  capWanted : Nat
  deriving DecidableEq, Repr

/-- Modelled from the spec: `ceph_caps_wanted` is not under `src/`; the
spec describes it as the OR of per-open-mode wanted masks.  We model the
resulting mask as the stored field `capWanted`. -/
def capsWanted (ci : InodeInfo) : Nat := ci.capWanted

/-- `get_cap_for_mds` from `src/kernel/inode.c`: the first entry of the
capability array whose `mds` field matches; `0` (here `none`) if there is
no such entry. -/
def getCapForMds (ci : InodeInfo) (mds : Nat) : Option Cap :=
  ci.caps.find? (fun c => c.mds = mds)

/-- Core of `ceph_add_cap` from `src/kernel/inode.c` on the capability
array: find the entry for `mds`; if none exists, a zeroed entry is
appended at index `i_nr_caps` (the `realloc` of the backing array is
invisible in the list model, and allocation is assumed to succeed); then
`caps[i].caps |= cap; caps[i].seq = seq`. -/
def addCapEntry (l : List Cap) (mds cap seq : Nat) : List Cap :=
  match l with
  | [] => [⟨mds, 0 ||| cap, seq, 0⟩]
  | c :: rest =>
      if c.mds = mds then ⟨c.mds, c.caps ||| cap, seq, c.flags⟩ :: rest
      else c :: addCapEntry rest mds cap seq

/-- `ceph_add_cap` from `src/kernel/inode.c` at the inode level. -/
def addCap (ci : InodeInfo) (mds cap seq : Nat) : InodeInfo :=
  { ci with caps := addCapEntry ci.caps mds cap seq }

/-- `ceph_get_caps` from `src/kernel/inode.c`: OR of all issued masks. -/
def getCaps (ci : InodeInfo) : Nat :=
  ci.caps.foldr (fun c acc => c.caps ||| acc) 0

/-- Replace the issued mask of the entry for `mds` (the assignment
`cap->caps = newcaps` in `ceph_handle_cap_grant`); `seq` and `flags` of
the entry are untouched, other entries are untouched. -/
def setCapMask (ci : InodeInfo) (mds newcaps : Nat) : InodeInfo :=
  { ci with
    caps := ci.caps.map (fun c => if c.mds = mds then { c with caps := newcaps } else c) }

/-- Return value of `ceph_handle_cap_grant`: `ok` is `0`, `ack` is `1`
("send the msg back to mds"). -/
inductive GrantReturn
  | ok
  | ack
  deriving DecidableEq, Repr

/-- `ceph_handle_cap_grant` from `src/kernel/inode.c`.  Branches in
source order: no wanted caps replies ack; an unknown MDS adds the cap; a
mask that removes bits we have is a revocation, and the source carries a
FIXME there and blindly replaces the mask and acks, performing no flush
of dirty data (this embedding is faithful to that: there is no flush
state in this version of the inode at all); otherwise the mask is
replaced (grant) or kept (no-op). -/
def handleCapGrant (ci : InodeInfo) (mds grantCaps grantSeq : Nat) :
    InodeInfo × GrantReturn :=
  if capsWanted ci = 0 then (ci, .ack)
  else
    match getCapForMds ci mds with
    | none => (addCap ci mds grantCaps grantSeq, .ok)
    | some c =>
        if Nat.ldiff c.caps grantCaps ≠ 0 then
          (setCapMask ci mds grantCaps, .ack)
        else if c.caps = grantCaps then (ci, .ok)
        else (setCapMask ci mds grantCaps, .ok)

end OldInode

namespace MdsClient

/-! ## Reconnect message sizing (`send_mds_reconnect` in `src/kernel/mds_client.c`)

The encoder is modelled as a byte-count simulation: a cap contributes
`8 + (4 + pathlen) + capRecSize` bytes (ino, length-prefixed path,
`struct ceph_mds_cap_reconnect`), a snap realm contributes
`realmRecSize` bytes, and every `ceph_decode_need` bounds check of the
source is reproduced.  The record sizes are parameters because the
protocol header with the struct definitions is not under `src/`. -/

/-- Outcome of encoding the caps of a session into a buffer of `len`
bytes: either out of space after `done` fully encoded caps
(`encode_caps_cb` returns `-ENOSPC` at its `needmore` label), or done at
write position `p` with `n` caps encoded. -/
inductive CapEncode
  | enospc (done : Nat)
  | done (p : Nat) (n : Nat)
  deriving DecidableEq, Repr

/-- `encode_caps_cb` from `src/kernel/mds_client.c` iterated over the
caps of the session, counting bytes.  `paths` holds the dentry path
length of each cap in iteration order.  Each cap checks and writes the
8-byte ino, the `4 + pathlen` string and the `capRec`-byte record, and
bumps `num_caps` only after a full record. -/
def encodeCapsSim (len capRec : Nat) : List Nat → Nat → Nat → CapEncode
  | [], p, n => .done p n
  | pl :: rest, p, n =>
      if len < p + 8 then .enospc n
      else if len < p + 8 + (pl + 4) then .enospc n
      else if len < p + 8 + (pl + 4) + capRec then .enospc n
      else encodeCapsSim len capRec rest (p + 8 + (pl + 4) + capRec) (n + 1)

/-- Outcome of the snap-realm loop of `send_mds_reconnect`: out of space
after `done` realm records, or finished at write position `p`. -/
inductive RealmEncode
  | enospc (done : Nat)
  | done (p : Nat)
  deriving DecidableEq, Repr

/-- The snap-realm loop of `send_mds_reconnect`: each realm checks and
writes a `realmRec`-byte `struct ceph_mds_snaprealm_reconnect`. -/
def encodeRealmsSim (len realmRec : Nat) : Nat → Nat → Nat → RealmEncode
  | 0, p, _ => .done p
  | k + 1, p, done =>
      if len < p + realmRec then .enospc done
      else encodeRealmsSim len realmRec k (p + realmRec) (done + 1)

/-- Outcome of one whole encoding attempt of the reconnect body. -/
inductive ReconnectEncode
  | enospc (capsDone realmsDone : Nat)
  | ok (finalLen : Nat)
  deriving DecidableEq, Repr

/-- One attempt of `send_mds_reconnect` (session present) at buffer size
`len`: the unchecked `ceph_encode_8` (not closed) and `ceph_encode_32`
(cap count placeholder) take 5 bytes, then the caps, then the 4-byte
realm-count placeholder (whose `ceph_decode_need` failure leaves
`num_realms = 0`), then the realms. -/
def encodeAttempt (len capRec realmRec : Nat) (paths : List Nat)
    (nrealms : Nat) : ReconnectEncode :=
  match encodeCapsSim len capRec paths (1 + 4) 0 with
  | .enospc n => .enospc n 0
  | .done p n =>
      if len < p + 4 then .enospc n 0
      else
        match encodeRealmsSim len realmRec nrealms (p + 4) 0 with
        | .enospc r => .enospc n r
        | .done pfinal => .ok pfinal

/-- The initial buffer estimate of `send_mds_reconnect` when a session
exists: `len = 4 + 1` then `len += s_nr_caps * (100 + sizeof(struct
ceph_mds_cap_reconnect))`. -/
def reconnectInitLen (nrCaps capRec : Nat) : Nat :=
  4 + 1 + nrCaps * (100 + capRec)

/-- The `needmore` recomputation of `send_mds_reconnect`:
`num_caps += num_realms; newlen = len * ((100 * (s_nr_caps + 3)) /
(num_caps + 1)) / 100`, in integer arithmetic.  `numDone` is the sum of
caps and realms encoded before running out of space. -/
def reconnectNextLen (len nrCaps numDone : Nat) : Nat :=
  len * ((100 * (nrCaps + 3)) / (numDone + 1)) / 100

/-- The `retry` loop of `send_mds_reconnect`: attempt to encode, on
`-ENOSPC` recompute the length and retry.  The C loop has no bound; the
`fuel` argument makes the recursion structural, and a `none` result
means the loop was still retrying after `fuel` attempts. -/
def reconnectLoop (capRec realmRec : Nat) (paths : List Nat)
    (nrealms : Nat) : Nat → Nat → Option Nat
  | _, 0 => none
  | len, fuel + 1 =>
      match encodeAttempt len capRec realmRec paths nrealms with
      | .ok _ => some len
      | .enospc c r =>
          reconnectLoop capRec realmRec paths nrealms
            (reconnectNextLen len paths.length (c + r)) fuel

/-- `send_mds_reconnect` with a session: start from the initial estimate
and run the retry loop; the result is the buffer size that succeeded, or
`none` if `fuel` retries did not suffice. -/
def sendMdsReconnectLens (capRec realmRec : Nat) (paths : List Nat)
    (nrealms fuel : Nat) : Option Nat :=
  reconnectLoop capRec realmRec paths nrealms
    (reconnectInitLen paths.length capRec) fuel

/-! ## Core state model of `src/kernel/mds_client.c`

Requests live in a `pool` of request objects (C objects kept alive by
reference counting, which the model does not track); the radix tree
`request_tree` is the set of pool entries whose `registered` flag is
set, keyed by `tid`.  Sessions live in a rank-indexed array of optional
entries, exactly like `mdsc->sessions` / `max_sessions`.  Outgoing
messages and wakeups that leave the subsystem are recorded in the
`sent` list, and entries into `__do_request`, `put_request_sessions`,
`complete_request` and other externally visible completions are logged
in an `events` list so that claims about them are statable. -/

/-- Session states from `mds_client.h` (not under `src/`, but the state
names appear throughout `src/kernel/mds_client.c`).  `opened` is
`CEPH_MDS_SESSION_OPEN` (`open` is a Lean keyword). -/
inductive SessState
  | snew
  | opening
  | opened
  | hung
  | closing
  | reconnecting
  deriving DecidableEq, Repr

/-- Modelled from the spec: the numeric MDS-map states of the cluster
map header are not under `src/`.  The code only compares them:
`> 0` (up), `>= RECONNECT`, `< ACTIVE`, `== RECONNECT`, `>= ACTIVE`.
The values keep the documented order with reconnect below active. -/
def MDS_STATE_RECONNECT : Int := 10

/-- Modelled from the spec: the active MDS-map state, see
`MDS_STATE_RECONNECT`. -/
def MDS_STATE_ACTIVE : Int := 13

/-- Modelled from the spec: session-message opcodes from the protocol
header (not under `src/`); only distinctness matters. -/
def SESSION_OPEN : Nat := 0

/-- Modelled from the spec: inbound renew-caps acknowledgement opcode. -/
def SESSION_RENEWCAPS : Nat := 1

/-- Modelled from the spec: inbound session-close opcode. -/
def SESSION_CLOSE : Nat := 2

/-- Modelled from the spec: inbound stale-session opcode. -/
def SESSION_STALE : Nat := 3

/-- Modelled from the spec: inbound recall-state opcode. -/
def SESSION_RECALL_STATE : Nat := 4

/-- Modelled from the spec: outbound request-open opcode. -/
def SESSION_REQUEST_OPEN : Nat := 5

/-- Modelled from the spec: outbound request-renewcaps opcode. -/
def SESSION_REQUEST_RENEWCAPS : Nat := 6

/-- Modelled from the spec: outbound request-close opcode. -/
def SESSION_REQUEST_CLOSE : Nat := 7

/-- Modelled from the spec: lease actions from the protocol header. -/
def LEASE_REVOKE : Nat := 0

/-- Modelled from the spec: lease renew action. -/
def LEASE_RENEW : Nat := 1

/-- Modelled from the spec: lease release action. -/
def LEASE_RELEASE : Nat := 2

/-- Modelled from the spec: lease revoke-ack action. -/
def LEASE_REVOKE_ACK : Nat := 3

/-- The errno value `ESTALE` (standard Linux errno, header not under
`src/`). -/
def ESTALE : Int := 116

/-- The errno value `EIO`. -/
def EIO : Int := 5

/-- The kernel jiffies-per-second constant; only relative comparisons
and products with it occur, so its value is irrelevant to the claims. -/
def HZ : Nat := 100

/-- Modelled from the spec: `CEPH_CAPS_PER_RELEASE` from the protocol
header (slots per cap-release message); any positive value works. -/
def CAPS_PER_RELEASE : Nat := 26

/-- `mount_args.cap_release_safety` (mount option default; the mount
header is not under `src/`). -/
def capReleaseSafety : Nat := 5

/-- Request targeting modes `USE_ANY_MDS` / `USE_RANDOM_MDS` /
`USE_AUTH_MDS` from `mds_client.h`. -/
inductive DirectMode
  | anyMds
  | randomMds
  | authMds
  deriving DecidableEq, Repr

/-- A dentry as far as `__choose_mds` consults it: the attached inode
(if positive), the parent directory inode and the name hash. -/
structure DentryRef where
  ino : Option Nat
  parentIno : Nat
  nameHash : Nat
  deriving DecidableEq, Repr

/-- The parsed body of an inbound MDS reply as `handle_reply` consumes
it.  `parseOk` stands for `parse_reply_info` succeeding;
`trace` is an opaque tag for the dentry/inode trace payload. -/
structure ReplyMsg where
  srcMds : Nat
  tid : Nat
  safe : Bool
  parseOk : Bool
  result : Int
  op : Nat
  snapBlobLen : Nat
  dirNr : Nat
  trace : Nat
  deriving DecidableEq, Repr

/-- The stored value of `req->r_reply`: either an `ERR_PTR` error or a
reply message. -/
inductive ReplyVal
  | errPtr (e : Int)
  | rmsg (m : ReplyMsg)
  deriving DecidableEq, Repr

/-- Field-level model of an outgoing `CEPH_MSG_CLIENT_REQUEST` header as
built by `create_request_message` and `__prepare_send_request`.  The
byte encoding of paths and releases (out of scope of all claims) is not
modelled. -/
structure ReqMsgOut where
  mds : Nat
  tid : Nat
  oldestClientTid : Nat
  epoch : Nat
  replayFlag : Bool
  wantDentryFlag : Bool
  numFwd : Nat
  numRetry : Nat
  hintIno : Nat
  deriving DecidableEq, Repr

/-- Messages the client hands to the messenger. -/
inductive OutMsg
  | request (m : ReqMsgOut)
  | session (mds op : Nat) (seq : Nat)
  | leaseAck (mds action ino seq : Nat)
  | capRelease (mds num : Nat)
  deriving DecidableEq, Repr

/-- Ghost log of internal transitions that the claims quantify over:
entries into `__do_request`, `put_request_sessions`, completions, the
monitor map request, and the cache-population steps whose bodies are
outside `src/`. -/
inductive REvent
  | doReq (tid : Nat)
  | putSessions (tid : Nat)
  | completeReq (tid : Nat)
  | completeSafe (tid : Nat)
  | umountSafeComplete
  | sessionCloseComplete
  | snapTrace (tid : Nat)
  | fillTrace (tid : Nat)
  | readdirPrepop (tid : Nat)
  | moncRequestMap (epoch : Nat)
  | capWaitersWoken (ino : Nat)
  | prunedAliases (ino : Nat)
  deriving DecidableEq, Repr

/-- `struct ceph_mds_request` as far as the claims reach.  `sessionMds`
and `fwdSessionMds` model `r_session` / `r_fwd_session` by the rank of
the referenced session (`s_mds` never changes in the source);
`resendMds` is `r_resend_mds` with `none` for `-1`; `registered` is
membership in the radix tree. -/
structure Request where
  tid : Nat
  registered : Bool
  op : Nat
  gotUnsafe : Bool
  gotSafe : Bool
  sessionMds : Option Nat
  fwdSessionMds : Option Nat
  resendMds : Option Nat
  numFwd : Nat
  numStale : Nat
  attempts : Nat
  mds : Int
  directMode : DirectMode
  directHash : Nat
  directIsHash : Bool
  inode : Option Nat
  dentry : Option DentryRef
  targetInode : Option Nat
  lockedDir : Bool
  unsafeDir : Option Nat
  timeout : Nat
  started : Nat
  requestStarted : Nat
  reply : Option ReplyVal
  err : Int
  numCapsReserved : Nat
  lastMsg : Option ReqMsgOut
  deriving DecidableEq, Repr

/-- A default-initialised request object, as `ceph_mdsc_create_request`
builds it (`kzalloc` plus the explicit initialisations: `resend_mds`
is `-1`, the op and mode are the arguments). -/
def Request.create (op : Nat) (mode : DirectMode) (now : Nat) : Request where
  tid := 0
  registered := false
  op := op
  gotUnsafe := false
  gotSafe := false
  sessionMds := none
  fwdSessionMds := none
  resendMds := none
  numFwd := 0
  numStale := 0
  attempts := 0
  mds := -1
  directMode := mode
  directHash := 0
  directIsHash := false
  inode := none
  dentry := none
  targetInode := none
  lockedDir := false
  unsafeDir := none
  timeout := 0
  started := now
  requestStarted := 0
  reply := none
  err := 0
  numCapsReserved := 0
  lastMsg := none

/-- `struct ceph_mds_session`.  `caps` lists the inode numbers holding a
cap on this session (`s_caps` order); `waiting` and `unsafe` hold
request tids; `capReleases` holds, per partially filled release message
(head first, matching `list_add`), the number of filled slots. -/
structure Session where
  mds : Nat
  state : SessState
  seq : Nat
  ttl : Nat
  capGen : Nat
  capTtl : Nat
  renewRequested : Nat
  caps : List Nat
  nrCaps : Nat
  trimCapsLeft : Int
  waiting : List Nat
  unsafeReqs : List Nat
  numCapReleases : Nat
  capReleases : List Nat
  capReleasesDone : List Nat
  deriving DecidableEq, Repr

/-- A fresh session as `register_session` initialises it. -/
def Session.create (mds : Nat) : Session where
  mds := mds
  state := .snew
  seq := 0
  ttl := 0
  capGen := 0
  capTtl := 0
  renewRequested := 0
  caps := []
  nrCaps := 0
  trimCapsLeft := 0
  waiting := []
  unsafeReqs := []
  numCapReleases := 0
  capReleases := []
  capReleasesDone := []

/-- One capability of the newer cap model that `mds_client.c` consults
(`struct ceph_cap`): granting MDS, issued and implemented masks, and the
generation stamped from the session. -/
structure CapE where
  mds : Nat
  issued : Nat
  implemented : Nat
  gen : Nat
  deriving DecidableEq, Repr

/-- Modelled from the spec: one entry of the fragment tree consulted by
`__choose_mds` (`ceph_choose_frag` is not under `src/`).  A fragment
covers the dentry-hash range `[lo, hi]`, has an authoritative `mds`
(negative when unknown) and a replica distribution `dist` of length
`ndist`. -/
structure Frag where
  lo : Nat
  hi : Nat
  mds : Int
  ndist : Nat
  dist : List Nat
  deriving DecidableEq, Repr

/-- Per-inode state as consulted from `src/kernel/mds_client.c`:
capability set (the rb-tree `i_caps` keyed by mds), the auth cap (by
rank), dirty mask, the used mask (Modelled from the spec: the body of
`__ceph_caps_used` is not under `src/`), the fragment table, whether a
dentry alias exists, and the unsafe directory operations list. -/
structure InodeInfo where
  isDir : Bool
  caps : List CapE
  authCap : Option Nat
  dirtyCaps : Nat
  usedCaps : Nat
  frags : List Frag
  hasAlias : Bool
  unsafeDirops : List Nat
  deriving DecidableEq, Repr

/-- The empty inode view (an inode with no caps). -/
def InodeInfo.empty : InodeInfo where
  isDir := false
  caps := []
  authCap := none
  dirtyCaps := 0
  usedCaps := 0
  frags := []
  hasAlias := false
  unsafeDirops := []

/-- A cached dentry with its lease information, for `handle_lease`:
keyed by directory inode and name hash; `di` is `ceph_dentry(dentry)`
(may be absent), `dTime` is `dentry->d_time`. -/
structure DentryInfo where
  leaseSession : Option Nat
  leaseGen : Nat
  leaseSeq : Nat
  renewFrom : Nat
  renewAfter : Nat
  deriving DecidableEq, Repr

/-- One dentry-cache entry as `handle_lease` reaches it. -/
structure DentryE where
  dirIno : Nat
  nameHash : Nat
  di : Option DentryInfo
  dTime : Nat
  deriving DecidableEq, Repr

/-- The whole `struct ceph_mds_client` state plus its environment: the
clock (`jiffies`), the cluster-map view (per-rank states, epoch, timing
constants), the inode and dentry caches the handlers touch, a ghost
oracle feeding `get_random_bytes`, the messenger output and the ghost
event log. -/
structure Mdsc where
  now : Nat
  lastTid : Nat
  pool : List Request
  sessions : List (Option Session)
  waitingForMap : List Nat
  mapStates : List Int
  epoch : Nat
  sessionTimeout : Nat
  sessionAutoclose : Nat
  stopping : Bool
  capFlushSeq : Nat
  inodes : List (Nat × InodeInfo)
  dentries : List DentryE
  cache : List (Nat × Nat)
  oracle : List Nat
  sent : List OutMsg
  events : List REvent
  deriving DecidableEq, Repr

/-! ### Elementary state helpers -/

/-- Append a ghost event. -/
def logEvent (st : Mdsc) (e : REvent) : Mdsc :=
  { st with events := st.events ++ [e] }

/-- Send a message via the messenger (`ceph_con_send`). -/
def sendMsg (st : Mdsc) (m : OutMsg) : Mdsc :=
  { st with sent := st.sent ++ [m] }

/-- Look up a request object by tid in the pool (any registration
state); this is following a held `struct ceph_mds_request` pointer. -/
def findPool (st : Mdsc) (tid : Nat) : Option Request :=
  st.pool.find? (fun r => r.tid = tid)

/-- `__lookup_request`: radix-tree lookup, i.e. only registered pool
entries are visible. -/
def findRegistered (st : Mdsc) (tid : Nat) : Option Request :=
  st.pool.find? (fun r => r.registered ∧ r.tid = tid)

/-- Update the request object with the given tid. -/
def updateReq (st : Mdsc) (tid : Nat) (f : Request → Request) : Mdsc :=
  { st with pool := st.pool.map (fun r => if r.tid = tid then f r else r) }

/-- `__ceph_lookup_mds_session` without the refcount: the session object
at rank `m`, if the rank is in range and the slot is occupied. -/
def getSession (st : Mdsc) (m : Nat) : Option Session :=
  (st.sessions.getD m none)

/-- `__have_session`. -/
def haveSession (st : Mdsc) (m : Nat) : Bool :=
  (getSession st m).isSome

/-- The rank as an `Option`, the way `__ceph_lookup_mds_session` is
assigned into `r_session`: `some m` if a session exists, else `none`. -/
def sessionRankIfPresent (st : Mdsc) (m : Nat) : Option Nat :=
  if haveSession st m then some m else none

/-- Update the session object at rank `m` (no-op when absent). -/
def updateSession (st : Mdsc) (m : Nat) (f : Session → Session) : Mdsc :=
  { st with
    sessions := st.sessions.mapIdx (fun j s => if j = m then s.map f else s) }

/-- The inode view for `ino` (absent inodes read as the empty view; the
C code only reaches inodes it holds references to). -/
def getInode (st : Mdsc) (ino : Nat) : InodeInfo :=
  ((st.inodes.find? (fun p => p.1 = ino)).map Prod.snd).getD InodeInfo.empty

/-- `ceph_find_inode`: Modelled from the spec; the icache lookup is not
under `src/`.  Present means the inode is in the inode table. -/
def findInode (st : Mdsc) (ino : Nat) : Option InodeInfo :=
  (st.inodes.find? (fun p => p.1 = ino)).map Prod.snd

/-- Update the inode entry for `ino` (no-op when absent). -/
def updateInode (st : Mdsc) (ino : Nat) (f : InodeInfo → InodeInfo) : Mdsc :=
  { st with
    inodes := st.inodes.map (fun p => if p.1 = ino then (p.1, f p.2) else p) }

/-- `put_request_sessions`: drop both session references of a request;
logged as a ghost event. -/
def putRequestSessions (st : Mdsc) (tid : Nat) : Mdsc :=
  logEvent
    (updateReq st tid (fun r => { r with sessionMds := none, fwdSessionMds := none }))
    (.putSessions tid)

/-- `complete_request`: wake the caller (callback or completion). -/
def completeRequest (st : Mdsc) (tid : Nat) : Mdsc :=
  logEvent st (.completeReq tid)

/-! ### Radix-tree view and oldest tid -/

/-- The tids present in the radix tree. -/
def registeredTids (st : Mdsc) : List Nat :=
  (st.pool.filter (fun r => r.registered)).map (fun r => r.tid)

/-- `radix_tree_gang_lookup` on the request tree: up to `k` registered
tids, ascending, starting at `start`. -/
def gangTids (st : Mdsc) (start k : Nat) : List Nat :=
  (((registeredTids st).filter (fun t => start ≤ t)).insertionSort (· ≤ ·)).take k

/-- `__get_oldest_tid`: the lowest registered tid, `0` when the tree is
empty (a gang lookup of one element from index 0). -/
def getOldestTid (st : Mdsc) : Nat :=
  match gangTids st 0 1 with
  | [] => 0
  | t :: _ => t

/-! ### Session registration and opening -/

/-- `1 << get_count_order n`: the least power of two that is at least
`n` (with fuel making the doubling loop structural). -/
def nextPow2Go : Nat → Nat → Nat → Nat
  | 0, _, acc => acc
  | fuel + 1, n, acc => if n ≤ acc then acc else nextPow2Go fuel n (2 * acc)

/-- The least power of two that is `≥ n` (and `≥ 1`). -/
def nextPow2 (n : Nat) : Nat := nextPow2Go n n 1

/-- `register_session`: grow the rank-indexed session array to the next
power of two above the rank if needed, then install a fresh session. -/
def registerSession (st : Mdsc) (m : Nat) : Mdsc :=
  let st :=
    if st.sessions.length ≤ m then
      { st with sessions :=
          st.sessions ++ List.replicate (nextPow2 (m + 1) - st.sessions.length) none }
    else st
  { st with sessions := st.sessions.set m (some (Session.create m)) }

/-- `unregister_session`: clear the slot (the dropped reference is not
tracked). -/
def unregisterSession (st : Mdsc) (m : Nat) : Mdsc :=
  { st with sessions := st.sessions.set m none }

/-- `__open_session`: mark the session opening, note the renew time and
send the open request with the current sequence number. -/
def openSession (st : Mdsc) (m : Nat) : Mdsc :=
  match getSession st m with
  | none => st
  | some s =>
      let st := updateSession st m
        (fun s => { s with state := .opening, renewRequested := st.now })
      sendMsg st (.session m SESSION_REQUEST_OPEN s.seq)

/-- The numeric value of a session state, matching the order of the
`CEPH_MDS_SESSION_*` constants (compared with `>=` in
`__close_session` and `<` in the tick). -/
def SessState.idx : SessState → Nat
  | .snew => 0
  | .opening => 1
  | .opened => 2
  | .hung => 3
  | .closing => 4
  | .reconnecting => 5

/-- `request_close_session`: send a close request with the current
sequence number. -/
def requestCloseSession (st : Mdsc) (m : Nat) : Mdsc :=
  match getSession st m with
  | none => st
  | some s => sendMsg st (.session m SESSION_REQUEST_CLOSE s.seq)

/-- `__close_session`: nothing to do at `closing` or beyond, else enter
`closing` and send the close request. -/
def closeSession (st : Mdsc) (m : Nat) : Mdsc :=
  match getSession st m with
  | none => st
  | some s =>
      if 4 ≤ s.state.idx then st
      else requestCloseSession
        (updateSession st m (fun s => { s with state := .closing })) m

/-! ### Target selection (`__choose_mds`) -/

/-- The MDS-map state of a rank (`ceph_mdsmap_get_state`; ranks beyond
the map read as `0`). -/
def mapState (st : Mdsc) (m : Nat) : Int :=
  st.mapStates.getD m 0

/-- Consume one value of the randomness oracle (`get_random_bytes`). -/
def takeOracle (st : Mdsc) : Nat × Mdsc :=
  match st.oracle with
  | [] => (0, st)
  | x :: rest => (x, { st with oracle := rest })

/-- The ranks the map shows as active. -/
def activeRanks (st : Mdsc) : List Nat :=
  (List.range st.mapStates.length).filter (fun i => st.mapStates.getD i 0 = MDS_STATE_ACTIVE)

/-- Modelled from the spec: `ceph_mdsmap_get_random_mds` is not under
`src/`; §4.1 specifies it as a uniformly random active rank (`-1` when
none). -/
def randomPick (st : Mdsc) : Int × Mdsc :=
  match activeRanks st with
  | [] => (-1, st)
  | a :: rest =>
      let p := takeOracle st
      (((a :: rest).getD (p.1 % (a :: rest).length) 0 : Nat), p.2)

/-- Modelled from the spec: `ceph_choose_frag` maps a dentry hash to the
covering fragment of the fragment tree. -/
def chooseFrag (ci : InodeInfo) (hash : Nat) : Option Frag :=
  ci.frags.find? (fun f => f.lo ≤ hash ∧ hash ≤ f.hi)

/-- `rb_first` of the per-inode cap tree keyed by mds: the smallest
granting rank. -/
def minCapMds (l : List CapE) : Option Nat :=
  l.foldr (fun c acc =>
    match acc with
    | none => some c.mds
    | some m => some (min m c.mds)) none

/-- The cap-directed tail of `__choose_mds`: under `USE_AUTH_MDS`
prefer the auth cap, else the first cap in the tree, else random. -/
def chooseMdsCapPath (st : Mdsc) (ci : InodeInfo) (mode : DirectMode) : Int × Mdsc :=
  let cap0 : Option Nat := if mode = .authMds then ci.authCap else none
  let cap1 : Option Nat :=
    match cap0 with
    | some c => some c
    | none => minCapMds ci.caps
  match cap1 with
  | none => randomPick st
  | some m => ((m : Int), st)

/-- Body of `__choose_mds` after the resend-hint check: random mode,
then the target inode (directly, through the dentry inode, or the
dentry parent with the name hash), then fragment and cap consultation. -/
def chooseMdsBody (st : Mdsc) (req : Request) : Int × Mdsc :=
  if req.directMode = .randomMds then randomPick st
  else
    let target : Option (Nat × Nat × Bool) :=
      match req.inode with
      | some i => some (i, req.directHash, req.directIsHash)
      | none =>
          match req.dentry with
          | some d =>
              match d.ino with
              | some di => some (di, req.directHash, req.directIsHash)
              | none => some (d.parentIno, d.nameHash, true)
          | none => none
    match target with
    | none => randomPick st
    | some (ino, hash, isHash) =>
        let ci := getInode st ino
        if isHash ∧ ci.isDir then
          match chooseFrag ci hash with
          | some frag =>
              if req.directMode = .anyMds ∧ frag.ndist > 0 then
                let p := takeOracle st
                ((frag.dist.getD (p.1 % frag.ndist) 0 : Nat), p.2)
              else if frag.mds ≥ 0 then (frag.mds, st)
              else chooseMdsCapPath st ci .authMds
          | none => chooseMdsCapPath st ci req.directMode
        else chooseMdsCapPath st ci req.directMode

/-- `__choose_mds`: use the resend hint when we have a session there or
the rank is up, otherwise consult mode, fragments and caps. -/
def chooseMds (st : Mdsc) (req : Request) : Int × Mdsc :=
  match req.resendMds with
  | some rm =>
      if haveSession st rm ∨ mapState st rm > 0 then ((rm : Int), st)
      else chooseMdsBody st req
  | none => chooseMdsBody st req

/-! ### Building and sending a request (`__prepare_send_request`) -/

/-- `__prepare_send_request` plus the header-relevant part of
`create_request_message`: bump the attempt count, note the target and
build the header.  `numRetry` is `r_attempts - 1` after the increment,
i.e. the old attempt count.  Returns the built message
(`create_request_message` failure is allocation failure, assumed away). -/
def prepareSendRequest (st : Mdsc) (tid : Nat) (mds : Nat) : Mdsc × Option ReqMsgOut :=
  match findPool st tid with
  | none => (st, none)
  | some req0 =>
      let msg : ReqMsgOut :=
        { mds := mds
          tid := req0.tid
          oldestClientTid := getOldestTid st
          epoch := st.epoch
          replayFlag := req0.gotUnsafe
          wantDentryFlag := req0.lockedDir
          numFwd := req0.numFwd
          numRetry := req0.attempts
          hintIno :=
            if req0.targetInode.isSome ∧ req0.gotUnsafe then req0.targetInode.getD 0
            else 0 }
      (updateReq st tid (fun r =>
        { r with mds := (mds : Int), attempts := r.attempts + 1, lastMsg := some msg }),
       some msg)

/-- The send tail of `__do_request` (target session open or hung):
take the session reference, clear the resend hint, stamp the first
send time, build the message and send it. -/
def doRequestSend (st : Mdsc) (tid m : Nat) : Mdsc :=
  let st := updateReq st tid (fun r =>
    { r with sessionMds := some m, resendMds := none,
             requestStarted :=
               if r.requestStarted = 0 then st.now else r.requestStarted })
  let q := prepareSendRequest st tid m
  match q.2 with
  | some msg => sendMsg q.1 (.request msg)
  | none => q.1

/-- The session lookup, registration and parking part of
`__do_request`. -/
def doRequestSession (st : Mdsc) (tid m : Nat) : Mdsc :=
  let st := if haveSession st m then st else registerSession st m
  match getSession st m with
  | none => st
  | some s =>
      if s.state ≠ .opened ∧ s.state ≠ .hung then
        let st :=
          if s.state = .snew ∨ s.state = .closing then openSession st m else st
        updateSession st m (fun s => { s with waiting := tid :: s.waiting })
      else doRequestSend st tid m

/-- `__do_request`: bail out when a reply is already set; finish with
`EIO` on timeout; pick an MDS (parking on the map when none is active,
asking the monitor for the next epoch); then the session stage: look up
or register the target session, open and park on it unless it is open
or hung, else take the session reference, clear the resend hint, stamp
the first send time, build the message and send it (`doRequestSend`).
Entry is logged as a ghost event. -/
def doRequest (st0 : Mdsc) (tid : Nat) : Mdsc :=
  let st := logEvent st0 (.doReq tid)
  match findPool st tid with
  | none => st
  | some req =>
      if req.reply.isSome then st
      else if req.timeout ≠ 0 ∧ req.started + req.timeout ≤ st.now then
        completeRequest
          (updateReq st tid (fun r => { r with reply := some (.errPtr (- EIO)) })) tid
      else
        let pc := chooseMds st req
        let mdsI := pc.1
        let st := pc.2
        if mdsI < 0 ∨ mapState st mdsI.toNat < MDS_STATE_ACTIVE then
          logEvent { st with waitingForMap := tid :: st.waitingForMap }
            (.moncRequestMap (st.epoch + 1))
        else doRequestSession st tid mdsI.toNat

/-- `__wake_requests`: re-enter `__do_request` for each parked request,
in list order. -/
def wakeRequests (st : Mdsc) (tids : List Nat) : Mdsc :=
  tids.foldl doRequest st

/-! ### Rekicking (`kick_requests`) -/

/-- The per-request body of the `kick_requests` inner loop: skip
requests that saw an unsafe reply; for requests whose current session
(or, under `all`, forwarder session) is the given rank, drop the session
references and re-enter `__do_request`. -/
def kickOne (st : Mdsc) (mds : Nat) (all : Bool) (tid : Nat) : Mdsc :=
  match findPool st tid with
  | none => st
  | some r =>
      if r.gotUnsafe then st
      else if r.sessionMds = some mds ∨ (all ∧ r.fwdSessionMds = some mds) then
        doRequest (putRequestSessions st tid) tid
      else st

/-- One gang-lookup batch of `kick_requests`. -/
def kickBatch (st : Mdsc) (mds : Nat) (all : Bool) (tids : List Nat) : Mdsc :=
  tids.foldl (fun s t => kickOne s mds all t) st

/-- The `kick_requests` loop: gang-look-up batches of 10 registered
tids ascending from `nexttid`, process each batch, and continue from
one past the last tid of the batch while `nexttid` does not exceed
`last_tid`.  The fuel argument makes the recursion structural; since
every iteration advances `nexttid` by at least one and the loop stops
beyond `last_tid`, fuel `last_tid + 1` (as passed by `kickRequests`)
never runs out. -/
def kickLoop (mds : Nat) (all : Bool) : Mdsc → Nat → Nat → Mdsc
  | st, _, 0 => st
  | st, nexttid, fuel + 1 =>
      if nexttid ≤ st.lastTid then
        match gangTids st nexttid 10 with
        | [] => st
        | t :: ts =>
            kickLoop mds all (kickBatch st mds all (t :: ts))
              ((t :: ts).getLast (List.cons_ne_nil t ts) + 1) fuel
      else st

/-- `kick_requests`. -/
def kickRequests (st : Mdsc) (mds : Nat) (all : Bool) : Mdsc :=
  kickLoop mds all st 0 (st.lastTid + 1)

/-! ### Cap-release buffering (`add_cap_releases`, `send_cap_releases`) -/

/-- The allocation loop of `add_cap_releases`: while the reserved slot
count is below `need`, prepend a fresh empty release message and add
`CAPS_PER_RELEASE` slots.  Fuel (instantiated with `need`) makes the
recursion structural; each round adds at least one slot, so it never
runs out. -/
def allocCapReleases : Nat → Nat → Nat → List Nat → Nat × List Nat
  | 0, _, hv, msgs => (hv, msgs)
  | fuel + 1, need, hv, msgs =>
      if hv < need then allocCapReleases fuel need (hv + CAPS_PER_RELEASE) (0 :: msgs)
      else (hv, msgs)

/-- `add_cap_releases`: top up the per-session release-message slots to
`s_nr_caps + extra` (a negative `extra` reads the mount safety margin;
a partially filled head message additionally raises the target by its
free slots), then move a partially filled head message to the
ready-to-send list, giving up its free slots. -/
def addCapReleases (st : Mdsc) (m : Nat) (extra0 : Int) : Mdsc :=
  match getSession st m with
  | none => st
  | some s =>
      let extra1 : Nat := if extra0 < 0 then capReleaseSafety else extra0.toNat
      let extra : Nat :=
        match s.capReleases with
        | [] => extra1
        | hnum :: _ => extra1 + (CAPS_PER_RELEASE - hnum)
      let need := s.nrCaps + extra
      let a := allocCapReleases need need s.numCapReleases s.capReleases
      let num := a.1
      match a.2 with
      | [] => updateSession st m (fun s => { s with numCapReleases := num, capReleases := [] })
      | hnum :: rest =>
          if hnum ≠ 0 then
            updateSession st m (fun s =>
              { s with numCapReleases := num - (CAPS_PER_RELEASE - hnum),
                       capReleases := rest,
                       capReleasesDone := s.capReleasesDone ++ [hnum] })
          else
            updateSession st m (fun s =>
              { s with numCapReleases := num, capReleases := hnum :: rest })

/-- `send_cap_releases`: flush every ready release message to the
messenger. -/
def sendCapReleases (st : Mdsc) (m : Nat) : Mdsc :=
  match getSession st m with
  | none => st
  | some s =>
      let st := updateSession st m (fun s => { s with capReleasesDone := [] })
      s.capReleasesDone.foldl (fun st n => sendMsg st (.capRelease m n)) st

/-! ### Cap removal, trimming and waking -/

/-- Modelled from the spec: `__ceph_remove_cap` is not under `src/`.
Per §4.3 `remove(cap)`: unlink the cap from both the inode and the
session; if it was the auth cap, elect any remaining cap. -/
def removeCap (st : Mdsc) (ino : Nat) (m : Nat) : Mdsc :=
  let st := updateInode st ino (fun ci =>
    let rest := ci.caps.filter (fun c => c.mds ≠ m)
    { ci with caps := rest,
              authCap :=
                if ci.authCap = some m then rest.head?.map (fun c => c.mds)
                else ci.authCap })
  updateSession st m (fun s =>
    { s with caps := s.caps.filter (fun i => i ≠ ino), nrCaps := s.nrCaps - 1 })

/-- `iterate_session_caps`: run the callback over a snapshot of the
session cap list, stopping early when the callback returns a negative
value (modelled by the `Bool` component). -/
def iterateCaps (st : Mdsc) (inos : List Nat) (cb : Mdsc → Nat → Mdsc × Bool) : Mdsc :=
  match inos with
  | [] => st
  | i :: rest =>
      let p := cb st i
      if p.2 then iterateCaps p.1 rest cb else p.1

/-- `trim_caps_cb`: stop once the trim budget is spent; skip caps of
dirty inodes and caps whose bits are used and not issued by another
MDS; otherwise spend budget and either drop the cap (another MDS also
issues) or prune the dentry aliases so the VFS can evict the inode. -/
def trimCapsCb (m : Nat) (st : Mdsc) (ino : Nat) : Mdsc × Bool :=
  match getSession st m with
  | none => (st, false)
  | some s =>
      if s.trimCapsLeft ≤ 0 then (st, false)
      else
        let ci := getInode st ino
        match ci.caps.find? (fun c => c.mds = m) with
        | none => (st, true)
        | some cap =>
            let mine := cap.issued ||| cap.implemented
            let used := ci.usedCaps
            let oissued :=
              (ci.caps.filter (fun c => c.mds ≠ m)).foldr (fun c a => c.issued ||| a) 0
            if ci.dirtyCaps ≠ 0 then (st, true)
            else if Nat.ldiff used oissued &&& mine ≠ 0 then (st, true)
            else
              let st := updateSession st m (fun s =>
                { s with trimCapsLeft := s.trimCapsLeft - 1 })
              if oissued ≠ 0 then (removeCap st ino m, true)
              else (logEvent st (.prunedAliases ino), true)

/-- `trim_caps`: when the session holds more than `maxCaps` caps, set
the trim budget to the excess and run `trim_caps_cb` over the session
caps. -/
def trimCaps (st : Mdsc) (m : Nat) (maxCaps : Nat) : Mdsc :=
  match getSession st m with
  | none => st
  | some s =>
      let t : Int := (s.nrCaps : Int) - (maxCaps : Int)
      if t > 0 then
        let st := updateSession st m (fun s => { s with trimCapsLeft := t })
        iterateCaps st s.caps (trimCapsCb m)
      else st

/-- `wake_up_session_cb`: drop caps whose generation is stale and wake
the cap waiters of the inode. -/
def wakeUpSessionCb (m : Nat) (st : Mdsc) (ino : Nat) : Mdsc × Bool :=
  match getSession st m with
  | none => (st, false)
  | some s =>
      let ci := getInode st ino
      let st :=
        match ci.caps.find? (fun c => c.mds = m) with
        | some cap => if cap.gen ≠ s.capGen then removeCap st ino m else st
        | none => st
      (logEvent st (.capWaitersWoken ino), true)

/-- `wake_up_session_caps`. -/
def wakeUpSessionCaps (st : Mdsc) (m : Nat) : Mdsc :=
  match getSession st m with
  | none => st
  | some s => iterateCaps st s.caps (wakeUpSessionCb m)

/-- `remove_session_caps` on a saved cap list (the session may already
be unregistered on the close path; removals still hit the inodes). -/
def removeSessionCapsOn (st : Mdsc) (m : Nat) (savedCaps : List Nat) : Mdsc :=
  savedCaps.foldl (fun st i => removeCap st i m) st

/-- `renewed_caps`: note the new cap TTL from the last renew request
and the map session timeout; on a stale-to-fresh transition wake all
cap waiters of the session. -/
def renewedCaps (st : Mdsc) (m : Nat) (isRenew : Bool) : Mdsc :=
  match getSession st m with
  | none => st
  | some s =>
      let wasStale := isRenew ∧ (s.capTtl = 0 ∨ s.capTtl ≤ st.now)
      let newTtl := s.renewRequested + st.sessionTimeout * HZ
      let st := updateSession st m (fun s => { s with capTtl := newTtl })
      if wasStale ∧ st.now < newTtl then wakeUpSessionCaps st m else st

/-- `send_renew_caps`: do nothing until the MDS is at least
reconnecting; else note the request time and send the renew message. -/
def sendRenewCaps (st : Mdsc) (m : Nat) : Mdsc :=
  match getSession st m with
  | none => st
  | some _ =>
      if mapState st m < MDS_STATE_RECONNECT then st
      else
        let st := updateSession st m (fun s => { s with renewRequested := st.now })
        sendMsg st (.session m SESSION_REQUEST_RENEWCAPS 0)

/-! ### Request registration -/

/-- `__register_request`: assign the next tid, insert into the tree,
and link into the unsafe-dirops list of the directory if given. -/
def registerRequest (st : Mdsc) (req : Request) (dir : Option Nat) : Mdsc :=
  let tid := st.lastTid + 1
  let r := { req with tid := tid, registered := true, unsafeDir := dir }
  let st := { st with lastTid := tid, pool := st.pool ++ [r] }
  match dir with
  | some d =>
      updateInode st d (fun ci => { ci with unsafeDirops := ci.unsafeDirops ++ [tid] })
  | none => st

/-- `__unregister_request`: delete the tid from the tree and unlink the
unsafe-dirops entry. -/
def unregisterRequest (st : Mdsc) (tid : Nat) : Mdsc :=
  let udir := (findPool st tid).bind (fun r => r.unsafeDir)
  let st := updateReq st tid (fun r => { r with registered := false })
  match udir with
  | some d =>
      updateInode st d (fun ci =>
        { ci with unsafeDirops := ci.unsafeDirops.filter (fun t => t ≠ tid) })
  | none => st

/-! ### Reply handling (`handle_reply`)

The handler is split into stages matching the blocks of the source;
each stage operates on the request object through the pool (the C code
holds the object pointer across the whole handler, also after the safe
path unregistered it from the tree). -/

/-- Remove the request from whatever unsafe list its `r_unsafe_item` is
on (`list_del_init`). -/
def removeUnsafeItem (st : Mdsc) (tid : Nat) : Mdsc :=
  { st with
    sessions := st.sessions.map (Option.map (fun s =>
      { s with unsafeReqs := s.unsafeReqs.filter (fun t => t ≠ tid) })) }

/-- Mark `r_got_unsafe` and append the request to the unsafe list of
its session. -/
def markUnsafe (st : Mdsc) (tid smds : Nat) : Mdsc :=
  updateSession (updateReq st tid (fun r => { r with gotUnsafe := true })) smds
    (fun s => { s with unsafeReqs := s.unsafeReqs ++ [tid] })

/-- Modelled from the spec: `ceph_fill_trace` is not under `src/`; §4.4
says it populates the inode/dentry trace into the cache.  Recorded as a
cache entry and a ghost event; it succeeds (returns 0). -/
def fillTrace (st : Mdsc) (msg : ReplyMsg) : Mdsc :=
  logEvent { st with cache := st.cache ++ [(msg.tid, msg.trace)] } (.fillTrace msg.tid)

/-- The current `r_num_stale` of the request, read back after the
increment. -/
def currentNumStale (st : Mdsc) (tid : Nat) : Nat :=
  ((findPool st tid).map (fun r => r.numStale)).getD 0

/-- Tail of `handle_reply` after the ESTALE check: apply the snap trace
(write or read lock depending on the blob, modelled as a ghost event),
fill the trace into the cache, prepopulate readdir results on a
successful listing, unreserve the caps, store the reply, top up the
release buffers and wake the caller. -/
def replyFinish (st : Mdsc) (msg : ReplyMsg) (smds : Nat) : Mdsc :=
  let st := if msg.snapBlobLen > 0 then logEvent st (.snapTrace msg.tid) else st
  let st := fillTrace st msg
  let st :=
    if msg.result = 0 ∧ msg.dirNr > 0 then logEvent st (.readdirPrepop msg.tid) else st
  let st := updateReq st msg.tid (fun r =>
    { r with numCapsReserved := 0, reply := some (.rmsg msg) })
  completeRequest (addCapReleases st smds (-1)) msg.tid

/-- Parse onwards of `handle_reply` (the part under the session mutex):
a parse failure records `EIO` in `r_err` and completes; an `ESTALE`
result switches target selection to the auth MDS, bumps `r_num_stale`
and, while it is at most 2, drops the session references and re-enters
`__do_request` without completing; any other result resets
`r_num_stale`; then the tail runs. -/
def replyParsed (st : Mdsc) (msg : ReplyMsg) (smds : Nat) : Mdsc :=
  if ¬ msg.parseOk then
    completeRequest
      (addCapReleases (updateReq st msg.tid (fun r => { r with err := - EIO })) smds (-1))
      msg.tid
  else if msg.result = -ESTALE then
    let st := updateReq st msg.tid (fun r =>
      { r with directMode := .authMds, numStale := r.numStale + 1 })
    if currentNumStale st msg.tid ≤ 2 then doRequest (putRequestSessions st msg.tid) msg.tid
    else replyFinish st msg smds
  else replyFinish (updateReq st msg.tid (fun r => { r with numStale := 0 })) msg smds

/-- Middle of `handle_reply`: re-parent `r_session` to the replying MDS
when it differs (dropping the request if no session exists for it), and
record an unsafe reply on the session unsafe list. -/
def replyStage3 (st : Mdsc) (msg : ReplyMsg) : Mdsc :=
  let st :=
    match (findPool st msg.tid).bind (fun r => r.sessionMds) with
    | some cur =>
        if cur ≠ msg.srcMds then
          updateReq st msg.tid (fun r =>
            { r with sessionMds := sessionRankIfPresent st msg.srcMds })
        else st
    | none => st
  match (findPool st msg.tid).bind (fun r => r.sessionMds) with
  | none => st
  | some smds =>
      replyParsed (if msg.safe then st else markUnsafe st msg.tid smds) msg smds

/-- `handle_reply`: look up the request by tid (unknown tids are
dropped); drop duplicate unsafe/safe replies; on a safe reply mark
`r_got_safe`, unregister and signal the safe completion, and when the
unsafe reply was already handled just unlink the unsafe item (also
signalling the last-request umount waiter when stopping); then the
re-parent, record and parse stages. -/
def handleReply (st : Mdsc) (msg : ReplyMsg) : Mdsc :=
  match findRegistered st msg.tid with
  | none => st
  | some req =>
      if (req.gotUnsafe ∧ ¬ msg.safe) ∨ (req.gotSafe ∧ msg.safe) then st
      else
        let st1 :=
          if msg.safe then
            logEvent
              (unregisterRequest
                (updateReq st msg.tid (fun r => { r with gotSafe := true })) msg.tid)
              (.completeSafe msg.tid)
          else st
        if msg.safe ∧ req.gotUnsafe then
          let st2 := removeUnsafeItem st1 msg.tid
          if st2.stopping ∧ getOldestTid st2 = 0 then logEvent st2 .umountSafeComplete
          else st2
        else replyStage3 st1 msg

/-! ### Forward handling (`handle_forward`) -/

/-- An inbound `CEPH_MSG_CLIENT_REQUEST_FORWARD`. -/
structure FwdMsg where
  srcMds : Nat
  tid : Nat
  nextMds : Nat
  fwdSeq : Nat
  mustResend : Bool
  deriving DecidableEq, Repr

/-- `handle_forward`.  The source reads
`mdsc->sessions[next_mds]->s_state` immediately after the tid lookup,
before any bounds or existence check; a `none` result models that
invalid access (out-of-bounds slot or NULL session pointer).  Otherwise:
an old forward (sequence not above `r_num_fwd`) is ignored; without
`must_resend` and with an open or hung session at the new rank the
request is re-parented; else `r_num_fwd` and the resend hint are
updated, session references dropped, and `__do_request` re-entered. -/
def handleForward (st : Mdsc) (msg : FwdMsg) : Option Mdsc :=
  match findRegistered st msg.tid with
  | none => some st
  | some req =>
      match st.sessions.get? msg.nextMds with
      | none => none
      | some none => none
      | some (some s) =>
          if msg.fwdSeq ≤ req.numFwd then some st
          else if ¬ msg.mustResend ∧ haveSession st msg.nextMds ∧
                   (s.state = .opened ∨ s.state = .hung) then
            let st := updateReq st msg.tid (fun r => { r with numFwd := msg.fwdSeq })
            let st := putRequestSessions st msg.tid
            some (updateReq st msg.tid (fun r =>
              { r with sessionMds := sessionRankIfPresent st msg.nextMds,
                       fwdSessionMds := sessionRankIfPresent st msg.srcMds }))
          else
            let st := updateReq st msg.tid (fun r =>
              { r with numFwd := msg.fwdSeq, resendMds := some msg.nextMds })
            let st := putRequestSessions st msg.tid
            some (doRequest st msg.tid)

/-! ### Session handling (`handle_session`) -/

/-- `handle_session`: refresh the session TTL; drop messages other than
open for unknown sessions, creating the session on open; bring a hung
session back to open on any session message; then dispatch on the
opcode (open acknowledges and wakes, renewcaps renews, close
unregisters and rekicks, stale bumps the cap generation and renews,
recall-state trims); finally wake the parked requests when flagged. -/
def handleSession (st0 : Mdsc) (srcMds op seq maxCaps : Nat) : Mdsc :=
  let st :=
    if haveSession st0 srcMds then
      updateSession st0 srcMds (fun s =>
        { s with ttl := st0.now + HZ * st0.sessionAutoclose })
    else st0
  if ¬ haveSession st srcMds ∧ op ≠ SESSION_OPEN then st
  else
    let st := if haveSession st srcMds then st else registerSession st srcMds
    let st := updateSession st srcMds (fun s =>
      if s.state = .hung then { s with state := .opened } else s)
    let saved := getSession st srcMds
    let stw :
        Mdsc × Bool :=
      if op = SESSION_OPEN then
        let st := updateSession st srcMds (fun s => { s with state := .opened })
        let st := renewedCaps st srcMds false
        let st := if st.stopping then closeSession st srcMds else st
        (st, true)
      else if op = SESSION_RENEWCAPS then (renewedCaps st srcMds true, false)
      else if op = SESSION_CLOSE then
        let st := unregisterSession st srcMds
        let st := removeSessionCapsOn st srcMds ((saved.map (fun s => s.caps)).getD [])
        let st := logEvent st .sessionCloseComplete
        (kickRequests st srcMds false, true)
      else if op = SESSION_STALE then
        let st := updateSession st srcMds (fun s =>
          { s with capGen := s.capGen + 1, capTtl := 0 })
        (sendRenewCaps st srcMds, false)
      else if op = SESSION_RECALL_STATE then (trimCaps st srcMds maxCaps, false)
      else (st, false)
    let st := stw.1
    if stw.2 then
      match getSession st srcMds with
      | some s =>
          wakeRequests (updateSession st srcMds (fun s2 => { s2 with waiting := [] }))
            s.waiting
      | none => wakeRequests st ((saved.map (fun s => s.waiting)).getD [])
    else st

/-! ### Lease handling (`handle_lease`) -/

/-- An inbound `CEPH_MSG_CLIENT_LEASE`; the dentry name is modelled by
its hash (the source hashes the name for `d_lookup`). -/
structure LeaseMsg where
  srcMds : Nat
  action : Nat
  ino : Nat
  nameHash : Nat
  durationMs : Nat
  seq : Nat
  mask : Nat
  deriving DecidableEq, Repr

/-- Update the dentry-cache entry for the given directory and name. -/
def updateDentry (st : Mdsc) (ino nh : Nat) (f : DentryE → DentryE) : Mdsc :=
  { st with
    dentries := st.dentries.map (fun d =>
      if d.dirIno = ino ∧ d.nameHash = nh then f d else d) }

/-- `__ceph_mdsc_drop_dentry_lease`: drop the lease session reference of
the dentry. -/
def dropDentryLease (st : Mdsc) (ino nh : Nat) : Mdsc :=
  updateDentry st ino nh (fun d =>
    { d with di := d.di.map (fun di => { di with leaseSession := none }) })

/-- The `release` path of `handle_lease`: the incoming message is
reused as a `REVOKE_ACK` (with `ackSeq` as its echoed sequence) and sent
back. -/
def sendLeaseAck (st : Mdsc) (msg : LeaseMsg) (ackSeq : Nat) : Mdsc :=
  sendMsg st (.leaseAck msg.srcMds LEASE_REVOKE_ACK msg.ino ackSeq)

/-- `handle_lease`: drop without a session; bump the session sequence;
missing inode, missing alias or missing dentry all take the release
path; a revoke drops a matching lease (echoing its sequence) and always
acks; a renew extends a matching in-flight renewal and sends nothing;
other actions send nothing. -/
def handleLease (st : Mdsc) (msg : LeaseMsg) : Mdsc :=
  match getSession st msg.srcMds with
  | none => st
  | some _ =>
      let st := updateSession st msg.srcMds (fun s => { s with seq := s.seq + 1 })
      match findInode st msg.ino with
      | none => sendLeaseAck st msg msg.seq
      | some ci =>
          if ¬ ci.hasAlias then sendLeaseAck st msg msg.seq
          else
            match st.dentries.find? (fun d => d.dirIno = msg.ino ∧ d.nameHash = msg.nameHash) with
            | none => sendLeaseAck st msg msg.seq
            | some dent =>
                if msg.action = LEASE_REVOKE then
                  match dent.di with
                  | some di =>
                      if di.leaseSession = some msg.srcMds then
                        sendLeaseAck (dropDentryLease st msg.ino msg.nameHash) msg di.leaseSeq
                      else sendLeaseAck st msg msg.seq
                  | none => sendLeaseAck st msg msg.seq
                else if msg.action = LEASE_RENEW then
                  match dent.di with
                  | some di =>
                      match getSession st msg.srcMds with
                      | some s =>
                          if di.leaseSession = some msg.srcMds ∧ di.leaseGen = s.capGen ∧
                             di.renewFrom ≠ 0 ∧ di.renewAfter = 0 then
                            let dur := msg.durationMs * HZ / 1000
                            updateDentry st msg.ino msg.nameHash (fun d =>
                              { d with dTime := di.renewFrom + dur,
                                       di := some { di with
                                         leaseSeq := msg.seq,
                                         renewAfter := di.renewFrom + dur / 2,
                                         renewFrom := 0 } })
                          else st
                      | none => st
                  | none => st
                else st

/-! ### Concrete base states for witnesses and counterexamples -/

/-- An empty coordinator state (fresh mount, one active MDS at rank 0,
no sessions, no requests). -/
def emptyMdsc : Mdsc where
  now := 1000
  lastTid := 0
  pool := []
  sessions := []
  waitingForMap := []
  mapStates := [MDS_STATE_ACTIVE]
  epoch := 1
  sessionTimeout := 60
  sessionAutoclose := 300
  stopping := false
  capFlushSeq := 0
  inodes := []
  dentries := []
  cache := []
  oracle := []
  sent := []
  events := []

/-- A registered request with the given tid and otherwise default
fields. -/
def regReq (tid : Nat) : Request :=
  { Request.create 0 .anyMds 0 with tid := tid, registered := true }

/-- A coordinator state holding exactly one registered request (tid 1)
and no sessions. -/
def oneReqState : Mdsc :=
  { emptyMdsc with
    lastTid := 1
    pool := [regReq 1] }

/-- An open session at rank 0. -/
def openSess0 : Session := { Session.create 0 with state := .opened }

/-- A hung session at rank 0. -/
def hungSess0 : Session := { Session.create 0 with state := .hung }

/-- One registered request (tid 1) whose current session is the open
session at rank 0. -/
def oneReqOpenSessState : Mdsc :=
  { emptyMdsc with
    lastTid := 1
    pool := [{ regReq 1 with sessionMds := some 0 }]
    sessions := [some openSess0] }

/-- Like `oneReqOpenSessState` but the request has already received its
unsafe reply (and sits on the session unsafe list). -/
def unsafeReqState : Mdsc :=
  { emptyMdsc with
    lastTid := 1
    pool := [{ regReq 1 with sessionMds := some 0, gotUnsafe := true }]
    sessions := [some { openSess0 with unsafeReqs := [1] }] }

/-- A state whose only session (rank 0) is hung. -/
def hungSessState : Mdsc :=
  { emptyMdsc with sessions := [some hungSess0] }

/-- An unsafe reply from rank 0 for tid 1 with a successful result. -/
def replyU1 : ReplyMsg :=
  { srcMds := 0
    tid := 1
    safe := false
    parseOk := true
    result := 0
    op := 0
    snapBlobLen := 0
    dirNr := 0
    trace := 7 }

end MdsClient

namespace OldInode

/-- The inode of scenario S5: one cap from mds0 issuing write and
buffer, with write wanted. -/
def wrInode : InodeInfo :=
  ⟨[⟨0, CAP_WR ||| CAP_BUFFER, 3, 0⟩], CAP_WR⟩

/-- A one-cap inode for the cap-union witness. -/
def ci10 : InodeInfo := ⟨[⟨0, 5, 1, 0⟩], 1⟩

end OldInode

namespace MdsClient

/-- The state of the session at rank `m`, when one exists. -/
def sessionStateAt (st : Mdsc) (m : Nat) : Option SessState :=
  (getSession st m).map (fun s => s.state)

/-- The request fields that `handle_reply` et al. never change through
`__do_request` and the send path: tid, registration, the two reply
flags, the targeting mode and the stale counter. -/
def reqCore (r : Request) : Nat × Bool × Bool × Bool × DirectMode × Nat :=
  (r.tid, r.registered, r.gotUnsafe, r.gotSafe, r.directMode, r.numStale)

/-- The registration-relevant view of the pool: tid and registered flag
of every object, in order. -/
def poolReg (st : Mdsc) : List (Nat × Bool) :=
  st.pool.map (fun r => (r.tid, r.registered))

/-- Invariant piece: the pool holds at most one object per tid. -/
def PoolNodup (st : Mdsc) : Prop :=
  (st.pool.map (fun r => r.tid)).Nodup

/-- Invariant piece: a registered request has not got its safe reply
(the safe path unregisters in the same step). -/
def RegInv (st : Mdsc) : Prop :=
  ∀ r ∈ st.pool, r.registered = true → r.gotSafe = false

/-- The unsafe list of a session slot (empty for an empty slot). -/
def slotUnsafe (so : Option Session) : List Nat :=
  (so.map (fun s => s.unsafeReqs)).getD []

/-- Every tid on the unsafe list of the given slot belongs to a request
that got its unsafe reply, not its safe reply, and is registered. -/
def slotUnsafeOk (st : Mdsc) (so : Option Session) : Prop :=
  ∀ t ∈ slotUnsafe so, ∀ r ∈ st.pool, r.tid = t →
    r.gotUnsafe = true ∧ r.gotSafe = false ∧ r.registered = true

/-- Invariant piece (the claim): every request on any session unsafe
list has its unsafe reply, not its safe reply, and is registered. -/
def UnsafeListInv (st : Mdsc) : Prop :=
  ∀ m ∈ List.range st.sessions.length, slotUnsafeOk st (getSession st m)

/-- The unsafe-list invariant together with its supporting pieces. -/
def Inv (st : Mdsc) : Prop :=
  PoolNodup st ∧ RegInv st ∧ UnsafeListInv st

/-- Two coordinator states that agree in every component except
possibly the randomness oracle (`__choose_mds` consumes randomness but
changes nothing else). -/
def OracleOnly (a b : Mdsc) : Prop :=
  b = { a with oracle := b.oracle }

/-- The pool of `b` arises from the pool of `a` by rewriting only the
entries of one tid, preserving tid, registration, the reply flags, the
targeting mode and the stale counter (the shape of every pool change
made by `__do_request` and the send path). -/
def ReqMut (tid : Nat) (a b : Mdsc) : Prop :=
  ∃ g : Request → Request,
    (∀ r, (g r).tid = r.tid ∧ (g r).registered = r.registered ∧
          (g r).gotUnsafe = r.gotUnsafe ∧ (g r).gotSafe = r.gotSafe ∧
          (g r).directMode = r.directMode ∧ (g r).numStale = r.numStale) ∧
    b.pool = a.pool.map (fun r => if r.tid = tid then g r else r)

/-- The registration/reply-flag view of the pool (tid, registered,
got_unsafe, got_safe of every object, in order): the data the unsafe-list
invariant depends on. -/
def coreView (st : Mdsc) : List (Nat × Bool × Bool × Bool) :=
  st.pool.map (fun r => (r.tid, r.registered, r.gotUnsafe, r.gotSafe))

end MdsClient

namespace OldInode

/-! ## Lemmas about the old inode cap model -/

lemma addCapEntry_find (l : List Cap) (mds cap seq : Nat) (c : Cap)
    (h : l.find? (fun x => x.mds = mds) = some c) :
    (addCapEntry l mds cap seq).find? (fun x => x.mds = mds) =
      some ⟨c.mds, c.caps ||| cap, seq, c.flags⟩ := by
  induction l with
  | nil => simp at h
  | cons a l ih =>
      by_cases ha : a.mds = mds
      · rw [List.find?_cons_of_pos _ (by simpa using ha)] at h
        cases h
        unfold addCapEntry
        rw [if_pos ha]
        exact List.find?_cons_of_pos _ (by simpa using ha)
      · rw [List.find?_cons_of_neg _ (by simpa using ha)] at h
        unfold addCapEntry
        rw [if_neg ha]
        rw [List.find?_cons_of_neg _ (by simpa using ha)]
        exact ih h

end OldInode

namespace MdsClient

/-! ## Preservation lemmas for the elementary operations -/

@[simp] lemma pool_logEvent (st : Mdsc) (e : REvent) : (logEvent st e).pool = st.pool := rfl

@[simp] lemma pool_sendMsg (st : Mdsc) (m : OutMsg) : (sendMsg st m).pool = st.pool := rfl

@[simp] lemma pool_updateSession (st : Mdsc) (m : Nat) (f : Session → Session) :
    (updateSession st m f).pool = st.pool := rfl

@[simp] lemma pool_updateInode (st : Mdsc) (i : Nat) (f : InodeInfo → InodeInfo) :
    (updateInode st i f).pool = st.pool := rfl

@[simp] lemma pool_updateDentry (st : Mdsc) (i n : Nat) (f : DentryE → DentryE) :
    (updateDentry st i n f).pool = st.pool := rfl

@[simp] lemma pool_completeRequest (st : Mdsc) (t : Nat) :
    (completeRequest st t).pool = st.pool := rfl

@[simp] lemma pool_fillTrace (st : Mdsc) (m : ReplyMsg) : (fillTrace st m).pool = st.pool := rfl

@[simp] lemma pool_removeUnsafeItem (st : Mdsc) (t : Nat) :
    (removeUnsafeItem st t).pool = st.pool := rfl

@[simp] lemma sessions_logEvent (st : Mdsc) (e : REvent) :
    (logEvent st e).sessions = st.sessions := rfl

@[simp] lemma sessions_sendMsg (st : Mdsc) (m : OutMsg) :
    (sendMsg st m).sessions = st.sessions := rfl

@[simp] lemma sessions_updateReq (st : Mdsc) (t : Nat) (f : Request → Request) :
    (updateReq st t f).sessions = st.sessions := rfl

@[simp] lemma sessions_updateInode (st : Mdsc) (i : Nat) (f : InodeInfo → InodeInfo) :
    (updateInode st i f).sessions = st.sessions := rfl

@[simp] lemma sessions_updateDentry (st : Mdsc) (i n : Nat) (f : DentryE → DentryE) :
    (updateDentry st i n f).sessions = st.sessions := rfl

@[simp] lemma sessions_completeRequest (st : Mdsc) (t : Nat) :
    (completeRequest st t).sessions = st.sessions := rfl

@[simp] lemma sessions_fillTrace (st : Mdsc) (m : ReplyMsg) :
    (fillTrace st m).sessions = st.sessions := rfl

@[simp] lemma lastTid_logEvent (st : Mdsc) (e : REvent) : (logEvent st e).lastTid = st.lastTid := rfl

@[simp] lemma lastTid_sendMsg (st : Mdsc) (m : OutMsg) : (sendMsg st m).lastTid = st.lastTid := rfl

@[simp] lemma lastTid_updateReq (st : Mdsc) (t : Nat) (f : Request → Request) :
    (updateReq st t f).lastTid = st.lastTid := rfl

@[simp] lemma lastTid_updateSession (st : Mdsc) (m : Nat) (f : Session → Session) :
    (updateSession st m f).lastTid = st.lastTid := rfl

@[simp] lemma lastTid_updateInode (st : Mdsc) (i : Nat) (f : InodeInfo → InodeInfo) :
    (updateInode st i f).lastTid = st.lastTid := rfl

@[simp] lemma lastTid_completeRequest (st : Mdsc) (t : Nat) :
    (completeRequest st t).lastTid = st.lastTid := rfl

@[simp] lemma lastTid_registerSession (st : Mdsc) (m : Nat) :
    (registerSession st m).lastTid = st.lastTid := by
  unfold registerSession
  split <;> rfl

@[simp] lemma lastTid_openSession (st : Mdsc) (m : Nat) :
    (openSession st m).lastTid = st.lastTid := by
  unfold openSession
  cases getSession st m <;> rfl

/-- The generic list fact behind the `findPool` / `updateReq` lemmas:
updating exactly the entries matching a tid commutes with `find?` on
that tid, provided the update preserves the tid. -/
lemma find?_update_self (l : List Request) (t : Nat) (f : Request → Request)
    (hf : ∀ r, (f r).tid = r.tid) :
    (l.map (fun r => if r.tid = t then f r else r)).find? (fun r => r.tid = t) =
      (l.find? (fun r => r.tid = t)).map f := by
  induction l with
  | nil => rfl
  | cons a l ih =>
      by_cases h : a.tid = t
      · have hfa : (f a).tid = t := by rw [hf]; exact h
        simp only [List.map_cons, if_pos h]
        rw [List.find?_cons_of_pos _ (by simpa using hfa),
          List.find?_cons_of_pos _ (by simpa using h)]
        rfl
      · simp only [List.map_cons, if_neg h]
        rw [List.find?_cons_of_neg _ (by simpa using h),
          List.find?_cons_of_neg _ (by simpa using h)]
        exact ih

/-- Updating the entries of one tid leaves lookups of other tids
unchanged. -/
lemma find?_update_other (l : List Request) (t t' : Nat) (f : Request → Request)
    (hf : ∀ r, (f r).tid = r.tid) (hne : t' ≠ t) :
    (l.map (fun r => if r.tid = t then f r else r)).find? (fun r => r.tid = t') =
      l.find? (fun r => r.tid = t') := by
  induction l with
  | nil => rfl
  | cons a l ih =>
      by_cases h : a.tid = t'
      · have hat : ¬ a.tid = t := by rw [h]; exact hne
        simp only [List.map_cons, if_neg hat]
        rw [List.find?_cons_of_pos _ (by simpa using h),
          List.find?_cons_of_pos _ (by simpa using h)]
      · by_cases hat : a.tid = t
        · have hfa : ¬ (f a).tid = t' := by rw [hf]; exact h
          simp only [List.map_cons, if_pos hat]
          rw [List.find?_cons_of_neg _ (by simpa using hfa),
            List.find?_cons_of_neg _ (by simpa using h)]
          exact ih
        · simp only [List.map_cons, if_neg hat]
          rw [List.find?_cons_of_neg _ (by simpa using h),
            List.find?_cons_of_neg _ (by simpa using h)]
          exact ih

lemma findPool_updateReq (st : Mdsc) (t : Nat) (f : Request → Request)
    (hf : ∀ r, (f r).tid = r.tid) :
    findPool (updateReq st t f) t = (findPool st t).map f :=
  find?_update_self st.pool t f hf

lemma findPool_updateReq_other (st : Mdsc) (t t' : Nat) (f : Request → Request)
    (hf : ∀ r, (f r).tid = r.tid) (hne : t' ≠ t) :
    findPool (updateReq st t f) t' = findPool st t' :=
  find?_update_other st.pool t t' f hf hne

/-- `find?` for the registered predicate commutes with a tid-targeted,
registration-preserving update. -/
lemma find?_update_reg (l : List Request) (t : Nat) (f : Request → Request)
    (hf : ∀ r, (f r).tid = r.tid) (hreg : ∀ r, (f r).registered = r.registered) :
    (l.map (fun r => if r.tid = t then f r else r)).find?
        (fun r => r.registered ∧ r.tid = t) =
      (l.find? (fun r => r.registered ∧ r.tid = t)).map f := by
  induction l with
  | nil => rfl
  | cons a l ih =>
      by_cases h : a.registered ∧ a.tid = t
      · have hfa : (f a).registered ∧ (f a).tid = t := by
          rw [hf, hreg]; exact h
        by_cases hat : a.tid = t
        · simp only [List.map_cons, if_pos hat]
          rw [List.find?_cons_of_pos _ (by simpa using hfa),
            List.find?_cons_of_pos _ (by simpa using h)]
          rfl
        · exact absurd h.2 hat
      · by_cases hat : a.tid = t
        · have hfa : ¬ ((f a).registered ∧ (f a).tid = t) := by
            rw [hf, hreg]; exact h
          simp only [List.map_cons, if_pos hat]
          rw [List.find?_cons_of_neg _ (by simpa using hfa),
            List.find?_cons_of_neg _ (by simpa using h)]
          exact ih
        · have hfa : ¬ (a.registered ∧ a.tid = t) := h
          simp only [List.map_cons, if_neg hat]
          rw [List.find?_cons_of_neg _ (by simpa using h),
            List.find?_cons_of_neg _ (by simpa using h)]
          exact ih

lemma findRegistered_updateReq (st : Mdsc) (t : Nat) (f : Request → Request)
    (hf : ∀ r, (f r).tid = r.tid) (hreg : ∀ r, (f r).registered = r.registered) :
    findRegistered (updateReq st t f) t = (findRegistered st t).map f :=
  find?_update_reg st.pool t f hf hreg

/-- After an update that clears the registered flag of every entry of a
tid, the radix-tree lookup misses. -/
lemma findRegistered_clear (l : List Request) (t : Nat) (f : Request → Request)
    (hf : ∀ r, (f r).tid = r.tid) (hreg : ∀ r, (f r).registered = false) :
    (l.map (fun r => if r.tid = t then f r else r)).find?
        (fun r => r.registered ∧ r.tid = t) = none := by
  induction l with
  | nil => rfl
  | cons a l ih =>
      by_cases hat : a.tid = t
      · have hfa : ¬ ((f a).registered ∧ (f a).tid = t) := by
          rw [hreg]; simp
        simp only [List.map_cons, if_pos hat]
        rw [List.find?_cons_of_neg _ (by simpa using hfa)]
        exact ih
      · have hfa : ¬ (a.registered ∧ a.tid = t) := fun hc => hat hc.2
        simp only [List.map_cons, if_neg hat]
        rw [List.find?_cons_of_neg _ (by simpa using hfa)]
        exact ih

end MdsClient

namespace MdsClient

/-! ## Oldest-tid characterisation -/

/-- `__get_oldest_tid` returns the minimum registered tid, or 0 when
the tree is empty. -/
lemma getOldestTid_min (st : Mdsc) :
    (registeredTids st = [] → getOldestTid st = 0) ∧
    (∀ t ∈ registeredTids st, getOldestTid st ≤ t) ∧
    (registeredTids st ≠ [] → getOldestTid st ∈ registeredTids st) := by
  have hfilter : (registeredTids st).filter (fun t => 0 ≤ t) = registeredTids st :=
    List.filter_eq_self.mpr (fun a _ => by simp)
  have hperm : ((registeredTids st).insertionSort (· ≤ ·)).Perm (registeredTids st) :=
    List.perm_insertionSort (· ≤ ·) (registeredTids st)
  have hsorted : List.Sorted (· ≤ ·) ((registeredTids st).insertionSort (· ≤ ·)) :=
    List.sorted_insertionSort (· ≤ ·) (registeredTids st)
  unfold getOldestTid gangTids
  rw [hfilter]
  cases hs : (registeredTids st).insertionSort (· ≤ ·) with
  | nil =>
      have : registeredTids st = [] := by
        have := hperm
        rw [hs] at this
        exact this.symm.eq_nil
      simp [this]
  | cons a l =>
      have hne : registeredTids st ≠ [] := by
        intro hnil
        rw [hnil] at hs
        simp at hs
      have hmem : ∀ t ∈ registeredTids st, a ≤ t := by
        intro t ht
        have : t ∈ a :: l := by
          rw [← hs]
          exact (hperm.mem_iff).mpr ht
        rcases List.mem_cons.mp this with h1 | h2
        · exact le_of_eq h1.symm
        · rw [hs] at hsorted
          exact (List.sorted_cons.mp hsorted).1 t h2
      have hamem : a ∈ registeredTids st := by
        have : a ∈ a :: l := List.mem_cons_self a l
        rw [← hs] at this
        exact (hperm.mem_iff).mp this
      refine ⟨fun hnil => absurd hnil hne, ?_, fun _ => by simpa using hamem⟩
      intro t ht
      simpa using hmem t ht

end MdsClient

/-- C1: the claim that `handle_cap_grant` flushes the dirty bits being
revoked before acknowledging is the documented intent, but the source
acks blindly: at scenario S5 (cap issued write+buffer, write wanted, a
grant reducing the mask to read) the handler immediately replaces the
mask and returns the ack, with no flush of any kind (this version of
the inode carries no flush state at all). -/
theorem handle_cap_grant_blind_ack :
    OldInode.handleCapGrant OldInode.wrInode 0 OldInode.CAP_RD 4 =
      ({ caps := [⟨0, OldInode.CAP_RD, 3, 0⟩], capWanted := OldInode.CAP_WR }, .ack) := by
  simp [OldInode.handleCapGrant, OldInode.wrInode, OldInode.capsWanted,
    OldInode.getCapForMds, OldInode.CAP_RD, OldInode.CAP_WR, OldInode.CAP_BUFFER,
    OldInode.setCapMask, Nat.ldiff, Nat.bitwise]

/-- C10: for an inode that already holds a cap for the granting MDS,
`ceph_add_cap` unions the new bits into the existing mask
(`caps |= cap`) and overwrites `seq`; in particular no bit held before
the call is cleared by it. -/
theorem ceph_add_cap_union (ci : OldInode.InodeInfo) (mds cap seq : Nat)
    (c : OldInode.Cap) (h : OldInode.getCapForMds ci mds = some c) :
    OldInode.getCapForMds (OldInode.addCap ci mds cap seq) mds =
      some ⟨c.mds, c.caps ||| cap, seq, c.flags⟩ ∧
    ∀ b : Nat, (c.caps).testBit b = true → (c.caps ||| cap).testBit b = true := by
  constructor
  · exact OldInode.addCapEntry_find ci.caps mds cap seq c h
  · intro b hb
    simp [Nat.testBit_lor, hb]

/-- Witness for `ceph_add_cap_union` at a concrete one-cap inode. -/
theorem ceph_add_cap_union_witness :
    OldInode.getCapForMds OldInode.ci10 0 = some ⟨0, 5, 1, 0⟩ ∧
    (OldInode.getCapForMds (OldInode.addCap OldInode.ci10 0 2 9) 0 =
        some ⟨0, 5 ||| 2, 9, 0⟩ ∧
      ∀ b : Nat, (5 : Nat).testBit b = true → ((5 : Nat) ||| 2).testBit b = true) :=
  ⟨by decide, ceph_add_cap_union OldInode.ci10 0 2 9 ⟨0, 5, 1, 0⟩ (by decide)⟩

/-- C3 (counterexample evaluation): a forward message for a registered
request whose `next_mds` has no session makes `handle_forward` read
`mdsc->sessions[next_mds]->s_state` before any existence check; the
embedding reports the invalid session-table access as `none`. -/
theorem handle_forward_no_session_crash :
    MdsClient.handleForward MdsClient.oneReqState
      { srcMds := 1, tid := 1, nextMds := 0, fwdSeq := 1, mustResend := true } = none := by
  decide

/-- C9 (counterexample): with no caps and three snap realms the retry
loop of `send_mds_reconnect` reaches buffer length 67, fails with 0
caps and 2 realms encoded, and recomputes exactly 67 again, so the
encode is not retried with a larger buffer (the loop never finishes). -/
theorem reconnect_regrow_not_larger :
    MdsClient.encodeAttempt 67 56 24 [] 3 = .enospc 0 2 ∧
    MdsClient.reconnectNextLen 67 0 2 = 67 ∧
    MdsClient.sendMdsReconnectLens 56 24 [] 3 50 = none := by
  decide

/-- C9 (amended): the initial reconnect buffer is
`4 + 1 + nr_caps * (100 + cap_record_size)` and on overflow the next
length is `len * ((100 * (nr_caps + 3)) / (num_done + 1)) / 100` with
`num_done` counting caps plus realms encoded; the recomputed length is
at least the old one whenever `num_done ≤ nr_caps` (caps still
outstanding), but not in general. -/
theorem reconnect_sizing (len nrCaps numDone capRec : Nat)
    (h : numDone ≤ nrCaps) :
    MdsClient.reconnectInitLen nrCaps capRec = 4 + 1 + nrCaps * (100 + capRec) ∧
    MdsClient.reconnectNextLen len nrCaps numDone =
      len * ((100 * (nrCaps + 3)) / (numDone + 1)) / 100 ∧
    len ≤ MdsClient.reconnectNextLen len nrCaps numDone := by
  refine ⟨rfl, rfl, ?_⟩
  have hfac : 100 ≤ (100 * (nrCaps + 3)) / (numDone + 1) := by
    rw [Nat.le_div_iff_mul_le (by omega)]
    have : numDone + 1 ≤ nrCaps + 3 := by omega
    calc 100 * (numDone + 1) ≤ 100 * (nrCaps + 3) := by
          exact Nat.mul_le_mul_left 100 this
      _ = 100 * (nrCaps + 3) := rfl
  unfold MdsClient.reconnectNextLen
  rw [Nat.le_div_iff_mul_le (by omega)]
  calc len * 100 ≤ len * ((100 * (nrCaps + 3)) / (numDone + 1)) :=
        Nat.mul_le_mul_left len hfac
    _ = len * ((100 * (nrCaps + 3)) / (numDone + 1)) := rfl

/-- Witness for `reconnect_sizing` with one cap still outstanding. -/
theorem reconnect_sizing_witness :
    1 ≤ 2 ∧
    (MdsClient.reconnectInitLen 2 56 = 4 + 1 + 2 * (100 + 56) ∧
      MdsClient.reconnectNextLen 5 2 1 = 5 * ((100 * (2 + 3)) / (1 + 1)) / 100 ∧
      5 ≤ MdsClient.reconnectNextLen 5 2 1) :=
  ⟨by decide, reconnect_sizing 5 2 1 56 (by decide)⟩

/-- C5: every outgoing request message carries `oldest_client_tid`
equal to the minimum tid present in the in-flight request map when the
message is built (or 0 when the map is empty). -/
theorem outgoing_oldest_client_tid (st : MdsClient.Mdsc) (tid mds : Nat)
    (msg : MdsClient.ReqMsgOut)
    (h : (MdsClient.prepareSendRequest st tid mds).2 = some msg) :
    (MdsClient.registeredTids st = [] → msg.oldestClientTid = 0) ∧
    (∀ t ∈ MdsClient.registeredTids st, msg.oldestClientTid ≤ t) ∧
    (MdsClient.registeredTids st ≠ [] →
      msg.oldestClientTid ∈ MdsClient.registeredTids st) := by
  have hmsg : msg.oldestClientTid = MdsClient.getOldestTid st := by
    unfold MdsClient.prepareSendRequest at h
    cases hf : MdsClient.findPool st tid with
    | none => rw [hf] at h; simp at h
    | some r =>
        rw [hf] at h
        simp only [Option.some.injEq] at h
        rw [← h]
  rw [hmsg]
  exact MdsClient.getOldestTid_min st

/-- Witness for `outgoing_oldest_client_tid`: with exactly tid 1
registered, the built message reports oldest tid 1. -/
theorem outgoing_oldest_client_tid_witness :
    ((MdsClient.prepareSendRequest MdsClient.oneReqState 1 0).2 =
        some { mds := 0, tid := 1, oldestClientTid := 1, epoch := 1,
               replayFlag := false, wantDentryFlag := false, numFwd := 0,
               numRetry := 0, hintIno := 0 }) ∧
    ((MdsClient.registeredTids MdsClient.oneReqState = [] →
        ({ mds := 0, tid := 1, oldestClientTid := 1, epoch := 1,
           replayFlag := false, wantDentryFlag := false, numFwd := 0,
           numRetry := 0, hintIno := 0 } : MdsClient.ReqMsgOut).oldestClientTid = 0) ∧
      (∀ t ∈ MdsClient.registeredTids MdsClient.oneReqState,
        ({ mds := 0, tid := 1, oldestClientTid := 1, epoch := 1,
           replayFlag := false, wantDentryFlag := false, numFwd := 0,
           numRetry := 0, hintIno := 0 } : MdsClient.ReqMsgOut).oldestClientTid ≤ t) ∧
      (MdsClient.registeredTids MdsClient.oneReqState ≠ [] →
        ({ mds := 0, tid := 1, oldestClientTid := 1, epoch := 1,
           replayFlag := false, wantDentryFlag := false, numFwd := 0,
           numRetry := 0, hintIno := 0 } : MdsClient.ReqMsgOut).oldestClientTid ∈
          MdsClient.registeredTids MdsClient.oneReqState)) :=
  ⟨by decide, outgoing_oldest_client_tid MdsClient.oneReqState 1 0 _ (by decide)⟩

namespace MdsClient

/-! ## Characterisation of `__choose_mds` and the send path -/

lemma OracleOnly.refl (st : Mdsc) : OracleOnly st st := rfl

lemma OracleOnly.pool {a b : Mdsc} (h : OracleOnly a b) : b.pool = a.pool := by
  rw [h]

lemma OracleOnly.sessions {a b : Mdsc} (h : OracleOnly a b) : b.sessions = a.sessions := by
  rw [h]

lemma OracleOnly.lastTid {a b : Mdsc} (h : OracleOnly a b) : b.lastTid = a.lastTid := by
  rw [h]

lemma OracleOnly.events {a b : Mdsc} (h : OracleOnly a b) : b.events = a.events := by
  rw [h]

lemma OracleOnly.sent {a b : Mdsc} (h : OracleOnly a b) : b.sent = a.sent := by
  rw [h]

lemma OracleOnly.now {a b : Mdsc} (h : OracleOnly a b) : b.now = a.now := by
  rw [h]

lemma OracleOnly.epoch {a b : Mdsc} (h : OracleOnly a b) : b.epoch = a.epoch := by
  rw [h]

lemma OracleOnly.mapStates {a b : Mdsc} (h : OracleOnly a b) : b.mapStates = a.mapStates := by
  rw [h]

lemma OracleOnly.stopping {a b : Mdsc} (h : OracleOnly a b) : b.stopping = a.stopping := by
  rw [h]

lemma OracleOnly.inodes {a b : Mdsc} (h : OracleOnly a b) : b.inodes = a.inodes := by
  rw [h]

lemma takeOracle_oracleOnly (st : Mdsc) : OracleOnly st (takeOracle st).2 := by
  unfold takeOracle
  split <;> rfl

lemma randomPick_oracleOnly (st : Mdsc) : OracleOnly st (randomPick st).2 := by
  unfold randomPick
  split
  · exact OracleOnly.refl st
  · exact takeOracle_oracleOnly st

lemma chooseMdsCapPath_oracleOnly (st : Mdsc) (ci : InodeInfo) (mode : DirectMode) :
    OracleOnly st (chooseMdsCapPath st ci mode).2 := by
  unfold chooseMdsCapPath
  dsimp only
  split
  · exact randomPick_oracleOnly st
  · exact OracleOnly.refl st

lemma chooseMdsBody_oracleOnly (st : Mdsc) (req : Request) :
    OracleOnly st (chooseMdsBody st req).2 := by
  unfold chooseMdsBody
  dsimp only
  repeat' split
  all_goals first
    | exact randomPick_oracleOnly st
    | exact takeOracle_oracleOnly st
    | exact chooseMdsCapPath_oracleOnly st _ _
    | exact OracleOnly.refl st

/-- `__choose_mds` reads the state and at most consumes randomness: the
returned state differs from the input only in the oracle. -/
lemma chooseMds_oracleOnly (st : Mdsc) (req : Request) :
    OracleOnly st (chooseMds st req).2 := by
  unfold chooseMds
  split
  · split
    · exact OracleOnly.refl st
    · exact chooseMdsBody_oracleOnly st req
  · exact chooseMdsBody_oracleOnly st req

/-! ## Characterisation of `__do_request` -/

lemma ReqMut.same (tid : Nat) (a : Mdsc) : ReqMut tid a a := by
  refine ⟨id, fun r => by simp, ?_⟩
  have : ∀ r : Request, (if r.tid = tid then id r else r) = r := fun r => by
    split <;> rfl
  simp [this]

lemma ReqMut.updateReq (tid : Nat) (a : Mdsc) (f : Request → Request)
    (hf : ∀ r, (f r).tid = r.tid ∧ (f r).registered = r.registered ∧
          (f r).gotUnsafe = r.gotUnsafe ∧ (f r).gotSafe = r.gotSafe ∧
          (f r).directMode = r.directMode ∧ (f r).numStale = r.numStale) :
    ReqMut tid a (MdsClient.updateReq a tid f) :=
  ⟨f, hf, rfl⟩

lemma ReqMut.trans {tid : Nat} {a b c : Mdsc} (h1 : ReqMut tid a b)
    (h2 : ReqMut tid b c) : ReqMut tid a c := by
  obtain ⟨g1, hg1, hp1⟩ := h1
  obtain ⟨g2, hg2, hp2⟩ := h2
  refine ⟨fun r => g2 (g1 r), ?_, ?_⟩
  · intro r
    obtain ⟨t1, r1, u1, s1, d1, n1⟩ := hg1 r
    obtain ⟨t2, r2, u2, s2, d2, n2⟩ := hg2 (g1 r)
    exact ⟨by rw [t2, t1], by rw [r2, r1], by rw [u2, u1], by rw [s2, s1],
      by rw [d2, d1], by rw [n2, n1]⟩
  · rw [hp2, hp1, List.map_map]
    apply List.map_congr_left
    intro r _
    by_cases h : r.tid = tid
    · have hg : (g1 r).tid = tid := by rw [(hg1 r).1]; exact h
      simp only [Function.comp_apply, if_pos h, if_pos hg]
    · simp only [Function.comp_apply, if_neg h]

lemma ReqMut.poolCongr {tid : Nat} {a b c : Mdsc} (h : ReqMut tid a b)
    (hp : c.pool = b.pool) : ReqMut tid a c := by
  obtain ⟨g, hg, hb⟩ := h
  exact ⟨g, hg, by rw [hp, hb]⟩

lemma ReqMut.samePool {tid : Nat} {a b : Mdsc} (h : b.pool = a.pool) :
    ReqMut tid a b := by
  refine ⟨id, fun r => by simp, ?_⟩
  have : ∀ r : Request, (if r.tid = tid then id r else r) = r := fun r => by
    split <;> rfl
  simp [h, this]

end MdsClient

namespace MdsClient

lemma getSession_of_sessions_eq {a b : Mdsc} (h : a.sessions = b.sessions) (m : Nat) :
    getSession a m = getSession b m := by
  unfold getSession
  rw [h]

lemma getSession_updateSession (st : Mdsc) (m' : Nat) (f : Session → Session) (m : Nat) :
    getSession (updateSession st m' f) m =
      if m = m' then (getSession st m).map f else getSession st m := by
  unfold getSession updateSession
  dsimp only
  rw [List.getD_eq_getElem?_getD, List.getD_eq_getElem?_getD, List.getElem?_mapIdx]
  by_cases h : m = m'
  · subst h
    rw [if_pos rfl]
    cases hs : st.sessions[m]? with
    | none => simp
    | some o => cases o <;> simp
  · rw [if_neg h]
    cases hs : st.sessions[m]? with
    | none => simp
    | some o => simp [h]

lemma nextPow2Go_ge (n : Nat) : ∀ fuel acc, 1 ≤ acc → n ≤ 2 ^ fuel * acc →
    n ≤ nextPow2Go fuel n acc := by
  intro fuel
  induction fuel with
  | zero =>
      intro acc _ hle
      simpa using hle
  | succ f ih =>
      intro acc hacc hle
      unfold nextPow2Go
      split
      · assumption
      · apply ih (2 * acc) (by omega)
        calc n ≤ 2 ^ (f + 1) * acc := hle
          _ = 2 ^ f * (2 * acc) := by ring

lemma nextPow2_ge (n : Nat) : n ≤ nextPow2 n := by
  unfold nextPow2
  apply nextPow2Go_ge n n 1 (le_refl 1)
  have := Nat.lt_two_pow n
  omega

lemma getSession_registerSession (st : Mdsc) (m' m : Nat) :
    getSession (registerSession st m') m =
      if m = m' then some (Session.create m') else getSession st m := by
  unfold registerSession getSession
  dsimp only
  rw [List.getD_eq_getElem?_getD, List.getD_eq_getElem?_getD]
  by_cases h : m = m'
  · subst h
    rw [if_pos rfl]
    split
    · rename_i hlen
      rw [List.getElem?_set]
      have hlen2 : m < st.sessions.length +
          (nextPow2 (m + 1) - st.sessions.length) := by
        have := nextPow2_ge (m + 1)
        omega
      simp only [List.length_append, List.length_replicate, hlen2, if_pos]
      rfl
    · rename_i hlen
      rw [List.getElem?_set]
      have hlen2 : m < st.sessions.length := by omega
      simp [hlen2]
  · rw [if_neg h]
    split
    · rename_i hlen
      rw [List.getElem?_set, if_neg (fun hc => h hc.symm), List.getElem?_append]
      by_cases hm : m < st.sessions.length
      · rw [if_pos hm]
      · rw [if_neg hm, List.getElem?_replicate]
        have : st.sessions[m]? = none := by
          rw [List.getElem?_eq_none]
          omega
        rw [this]
        split <;> rfl
    · rw [List.getElem?_set, if_neg (fun hc => h hc.symm)]

lemma slotUnsafe_registerSession (st : Mdsc) (m' m : Nat)
    (hnone : getSession st m' = none) :
    slotUnsafe (getSession (registerSession st m') m) = slotUnsafe (getSession st m) := by
  rw [getSession_registerSession]
  by_cases h : m = m'
  · subst h
    rw [if_pos rfl, hnone]
    rfl
  · rw [if_neg h]

lemma sessionStateAt_of_sessions_eq {a b : Mdsc} (h : a.sessions = b.sessions) (m : Nat) :
    sessionStateAt a m = sessionStateAt b m := by
  unfold sessionStateAt
  rw [getSession_of_sessions_eq h]

lemma sessionStateAt_updateSession (st : Mdsc) (m' : Nat) (f : Session → Session)
    (hf : ∀ s, (f s).state = s.state) (m : Nat) :
    sessionStateAt (updateSession st m' f) m = sessionStateAt st m := by
  unfold sessionStateAt
  rw [getSession_updateSession]
  by_cases h : m = m'
  · rw [if_pos h]
    cases getSession st m <;> simp [hf]
  · rw [if_neg h]

lemma slotUnsafe_updateSession (st : Mdsc) (m' : Nat) (f : Session → Session)
    (hf : ∀ s, (f s).unsafeReqs = s.unsafeReqs) (m : Nat) :
    slotUnsafe (getSession (updateSession st m' f) m) = slotUnsafe (getSession st m) := by
  rw [getSession_updateSession]
  by_cases h : m = m'
  · rw [if_pos h]
    cases getSession st m <;> simp [slotUnsafe, hf]
  · rw [if_neg h]

lemma sessionStateAt_registerSession (st : Mdsc) (m' m : Nat)
    (hnone : getSession st m' = none) (σ : SessState)
    (h : sessionStateAt st m = some σ) :
    sessionStateAt (registerSession st m') m = some σ := by
  unfold sessionStateAt at h ⊢
  rw [getSession_registerSession]
  by_cases hm : m = m'
  · subst hm
    rw [hnone] at h
    simp at h
  · rw [if_neg hm]
    exact h

lemma sessionStateAt_openSession_ne (st : Mdsc) (m' m : Nat) (h : m ≠ m') :
    sessionStateAt (openSession st m') m = sessionStateAt st m := by
  unfold openSession
  cases hs : getSession st m' with
  | none => rfl
  | some s =>
      have h1 : sessionStateAt (sendMsg (updateSession st m'
          (fun s => { s with state := .opening, renewRequested := st.now }))
          (.session m' SESSION_REQUEST_OPEN s.seq)) m =
          sessionStateAt (updateSession st m'
          (fun s => { s with state := .opening, renewRequested := st.now })) m :=
        sessionStateAt_of_sessions_eq rfl m
      rw [h1]
      unfold sessionStateAt
      rw [getSession_updateSession, if_neg h]

lemma slotUnsafe_openSession (st : Mdsc) (m' m : Nat) :
    slotUnsafe (getSession (openSession st m') m) = slotUnsafe (getSession st m) := by
  unfold openSession
  cases hs : getSession st m' with
  | none => rfl
  | some s =>
      have h1 : getSession (sendMsg (updateSession st m'
          (fun s => { s with state := .opening, renewRequested := st.now }))
          (.session m' SESSION_REQUEST_OPEN s.seq)) m =
          getSession (updateSession st m'
          (fun s => { s with state := .opening, renewRequested := st.now })) m :=
        getSession_of_sessions_eq rfl m
      rw [h1]
      exact slotUnsafe_updateSession st m'
        (fun s => { s with state := .opening, renewRequested := st.now }) (fun s => rfl) m

@[simp] lemma sessions_registerSession_events (st : Mdsc) (m : Nat) :
    (registerSession st m).events = st.events := by
  unfold registerSession
  split <;> rfl

@[simp] lemma pool_registerSession (st : Mdsc) (m : Nat) :
    (registerSession st m).pool = st.pool := by
  unfold registerSession
  split <;> rfl

@[simp] lemma pool_openSession (st : Mdsc) (m : Nat) :
    (openSession st m).pool = st.pool := by
  unfold openSession
  cases getSession st m <;> rfl

@[simp] lemma events_openSession (st : Mdsc) (m : Nat) :
    (openSession st m).events = st.events := by
  unfold openSession
  cases getSession st m <;> rfl

@[simp] lemma events_updateSession (st : Mdsc) (m : Nat) (f : Session → Session) :
    (updateSession st m f).events = st.events := rfl

@[simp] lemma events_updateReq (st : Mdsc) (t : Nat) (f : Request → Request) :
    (updateReq st t f).events = st.events := rfl

@[simp] lemma events_updateInode (st : Mdsc) (i : Nat) (f : InodeInfo → InodeInfo) :
    (updateInode st i f).events = st.events := rfl

@[simp] lemma events_sendMsg (st : Mdsc) (m : OutMsg) : (sendMsg st m).events = st.events := rfl

lemma prepareSendRequest_fst_sessions (st : Mdsc) (tid mds : Nat) :
    (prepareSendRequest st tid mds).1.sessions = st.sessions := by
  unfold prepareSendRequest
  split <;> rfl

lemma prepareSendRequest_fst_events (st : Mdsc) (tid mds : Nat) :
    (prepareSendRequest st tid mds).1.events = st.events := by
  unfold prepareSendRequest
  split <;> rfl

lemma prepareSendRequest_fst_lastTid (st : Mdsc) (tid mds : Nat) :
    (prepareSendRequest st tid mds).1.lastTid = st.lastTid := by
  unfold prepareSendRequest
  split <;> rfl

lemma prepareSendRequest_req (st : Mdsc) (tid mds : Nat) :
    ReqMut tid st (prepareSendRequest st tid mds).1 := by
  unfold prepareSendRequest
  split
  · exact ReqMut.same tid st
  · exact ReqMut.updateReq tid st _ (fun r => ⟨rfl, rfl, rfl, rfl, rfl, rfl⟩)

lemma doRequestSend_req (st : Mdsc) (tid m : Nat) : ReqMut tid st (doRequestSend st tid m) := by
  apply ReqMut.poolCongr
    (ReqMut.trans
      (ReqMut.updateReq tid st
        (fun r =>
          { r with
            sessionMds := some m
            resendMds := none
            requestStarted :=
              if r.requestStarted = 0 then st.now else r.requestStarted })
        (fun r => ⟨rfl, rfl, rfl, rfl, rfl, rfl⟩))
      (prepareSendRequest_req _ tid m))
  unfold doRequestSend
  dsimp only
  split <;> rfl

lemma doRequestSessionBody_req (st : Mdsc) (tid m : Nat) :
    ReqMut tid st
      (match getSession st m with
       | none => st
       | some s =>
           if s.state ≠ .opened ∧ s.state ≠ .hung then
             let st2 :=
               if s.state = .snew ∨ s.state = .closing then openSession st m else st
             updateSession st2 m (fun s => { s with waiting := tid :: s.waiting })
           else doRequestSend st tid m) := by
  split
  case h_1 => exact ReqMut.same tid _
  case h_2 s hs =>
    split
    case isTrue =>
      apply ReqMut.samePool
      rw [pool_updateSession]
      split
      · rw [pool_openSession]
      · rfl
    case isFalse => exact doRequestSend_req st tid m

lemma doRequestSession_req (st : Mdsc) (tid m : Nat) :
    ReqMut tid st (doRequestSession st tid m) := by
  unfold doRequestSession
  dsimp only
  by_cases hhave : haveSession st m
  · rw [if_pos hhave]
    exact doRequestSessionBody_req st tid m
  · rw [if_neg hhave]
    exact ReqMut.trans (ReqMut.samePool (pool_registerSession st m))
      (doRequestSessionBody_req (registerSession st m) tid m)

set_option maxHeartbeats 1000000 in
/-- `__do_request` rewrites only the request with its own tid,
preserving tid, registration, the reply flags, the targeting mode and
the stale counter of every pool object. -/
lemma doRequest_req (st : Mdsc) (tid : Nat) : ReqMut tid st (doRequest st tid) := by
  unfold doRequest
  dsimp only
  split
  case h_1 => exact ReqMut.samePool rfl
  case h_2 req hreq =>
    split
    case isTrue => exact ReqMut.samePool rfl
    case isFalse =>
      split
      case isTrue =>
        exact ReqMut.updateReq tid _ _ (fun r => ⟨rfl, rfl, rfl, rfl, rfl, rfl⟩)
      case isFalse =>
        have hco := chooseMds_oracleOnly (logEvent st (.doReq tid)) req
        split
        case isTrue => exact ReqMut.samePool (by rw [hco.pool]; rfl)
        case isFalse =>
          apply ReqMut.trans (ReqMut.samePool (show (chooseMds (logEvent st
            (.doReq tid)) req).2.pool = st.pool by rw [hco.pool]; rfl))
          exact doRequestSession_req _ tid _

lemma sessions_doRequestSend (st : Mdsc) (tid m : Nat) :
    (doRequestSend st tid m).sessions = st.sessions := by
  unfold doRequestSend
  dsimp only
  split
  · rw [sessions_sendMsg, prepareSendRequest_fst_sessions, sessions_updateReq]
  · rw [prepareSendRequest_fst_sessions, sessions_updateReq]

lemma events_doRequestSend (st : Mdsc) (tid m : Nat) :
    (doRequestSend st tid m).events = st.events := by
  unfold doRequestSend
  dsimp only
  split
  · rw [events_sendMsg, prepareSendRequest_fst_events, events_updateReq]
  · rw [prepareSendRequest_fst_events, events_updateReq]

lemma lastTid_doRequestSend (st : Mdsc) (tid m : Nat) :
    (doRequestSend st tid m).lastTid = st.lastTid := by
  unfold doRequestSend
  dsimp only
  split
  · rw [lastTid_sendMsg, prepareSendRequest_fst_lastTid, lastTid_updateReq]
  · rw [prepareSendRequest_fst_lastTid, lastTid_updateReq]

lemma sessions_doRequestSessionBody (st : Mdsc) (tid m : Nat) :
    ∀ mm, getSession
      (match getSession st m with
       | none => st
       | some s =>
           if s.state ≠ .opened ∧ s.state ≠ .hung then
             let st2 :=
               if s.state = .snew ∨ s.state = .closing then openSession st m else st
             updateSession st2 m (fun s => { s with waiting := tid :: s.waiting })
           else doRequestSend st tid m) mm =
      getSession
      (match getSession st m with
       | none => st
       | some s =>
           if s.state ≠ .opened ∧ s.state ≠ .hung then
             let st2 :=
               if s.state = .snew ∨ s.state = .closing then openSession st m else st
             updateSession st2 m (fun s => { s with waiting := tid :: s.waiting })
           else doRequestSend st tid m) mm := fun _ => rfl

lemma slotUnsafe_doRequestSessionBody (st : Mdsc) (tid m mm : Nat) :
    slotUnsafe (getSession
      (match getSession st m with
       | none => st
       | some s =>
           if s.state ≠ .opened ∧ s.state ≠ .hung then
             let st2 :=
               if s.state = .snew ∨ s.state = .closing then openSession st m else st
             updateSession st2 m (fun s => { s with waiting := tid :: s.waiting })
           else doRequestSend st tid m) mm) = slotUnsafe (getSession st mm) := by
  split
  case h_1 => rfl
  case h_2 s hs =>
    split
    case isTrue =>
      dsimp only
      rw [slotUnsafe_updateSession _ m
        (fun s => { s with waiting := tid :: s.waiting }) (fun s => rfl) mm]
      split
      · rw [slotUnsafe_openSession]
      · rfl
    case isFalse =>
      rw [getSession_of_sessions_eq (sessions_doRequestSend st tid m) mm]

lemma sessionStateAt_doRequestSessionBody (st : Mdsc) (tid m mm : Nat) (σ : SessState)
    (hσ : σ = SessState.opened ∨ σ = SessState.hung)
    (h : sessionStateAt st mm = some σ) :
    sessionStateAt
      (match getSession st m with
       | none => st
       | some s =>
           if s.state ≠ .opened ∧ s.state ≠ .hung then
             let st2 :=
               if s.state = .snew ∨ s.state = .closing then openSession st m else st
             updateSession st2 m (fun s => { s with waiting := tid :: s.waiting })
           else doRequestSend st tid m) mm = some σ := by
  split
  case h_1 => exact h
  case h_2 s hs =>
    split
    case isTrue hcond =>
      by_cases hmm : mm = m
      · exfalso
        subst hmm
        unfold sessionStateAt at h
        rw [hs] at h
        simp only [Option.map_some'] at h
        have hss : s.state = σ := Option.some.inj h
        rcases hσ with h1 | h1 <;> rw [h1] at hss <;>
          first
            | exact hcond.1 hss
            | exact hcond.2 hss
      · dsimp only
        rw [sessionStateAt_updateSession _ m
          (fun s => { s with waiting := tid :: s.waiting }) (fun s => rfl) mm]
        split
        · rw [sessionStateAt_openSession_ne _ m mm hmm]
          exact h
        · exact h
    case isFalse =>
      unfold sessionStateAt
      rw [getSession_of_sessions_eq (sessions_doRequestSend st tid m) mm]
      exact h

lemma events_doRequestSessionBody (st : Mdsc) (tid m : Nat) :
    (match getSession st m with
       | none => st
       | some s =>
           if s.state ≠ SessState.opened ∧ s.state ≠ SessState.hung then
             let st2 :=
               if s.state = SessState.snew ∨ s.state = SessState.closing then
                 openSession st m
               else st
             updateSession st2 m (fun s => { s with waiting := tid :: s.waiting })
           else doRequestSend st tid m).events = st.events := by
  split
  case h_1 => rfl
  case h_2 s hs =>
    split
    case isTrue =>
      rw [events_updateSession]
      split
      · rw [events_openSession]
      · rfl
    case isFalse => exact events_doRequestSend st tid m

lemma lastTid_doRequestSessionBody (st : Mdsc) (tid m : Nat) :
    (match getSession st m with
       | none => st
       | some s =>
           if s.state ≠ SessState.opened ∧ s.state ≠ SessState.hung then
             let st2 :=
               if s.state = SessState.snew ∨ s.state = SessState.closing then
                 openSession st m
               else st
             updateSession st2 m (fun s => { s with waiting := tid :: s.waiting })
           else doRequestSend st tid m).lastTid = st.lastTid := by
  split
  case h_1 => rfl
  case h_2 s hs =>
    split
    case isTrue =>
      rw [lastTid_updateSession]
      split
      · rw [lastTid_openSession]
      · rfl
    case isFalse => exact lastTid_doRequestSend st tid m

lemma getSession_none_of_not_haveSession {st : Mdsc} {m : Nat}
    (h : ¬ haveSession st m) : getSession st m = none := by
  unfold haveSession at h
  exact Option.not_isSome_iff_eq_none.mp (by simpa using h)

lemma slotUnsafe_doRequestSession (st : Mdsc) (tid m mm : Nat) :
    slotUnsafe (getSession (doRequestSession st tid m) mm) =
      slotUnsafe (getSession st mm) := by
  unfold doRequestSession
  dsimp only
  by_cases hhave : haveSession st m
  · rw [if_pos hhave]
    exact slotUnsafe_doRequestSessionBody st tid m mm
  · rw [if_neg hhave]
    rw [slotUnsafe_doRequestSessionBody (registerSession st m) tid m mm]
    exact slotUnsafe_registerSession st m mm (getSession_none_of_not_haveSession hhave)

lemma sessionStateAt_doRequestSession (st : Mdsc) (tid m mm : Nat) (σ : SessState)
    (hσ : σ = SessState.opened ∨ σ = SessState.hung)
    (h : sessionStateAt st mm = some σ) :
    sessionStateAt (doRequestSession st tid m) mm = some σ := by
  unfold doRequestSession
  dsimp only
  by_cases hhave : haveSession st m
  · rw [if_pos hhave]
    exact sessionStateAt_doRequestSessionBody st tid m mm σ hσ h
  · rw [if_neg hhave]
    exact sessionStateAt_doRequestSessionBody (registerSession st m) tid m mm σ hσ
      (sessionStateAt_registerSession st m mm
        (getSession_none_of_not_haveSession hhave) σ h)

lemma events_doRequestSession (st : Mdsc) (tid m : Nat) :
    (doRequestSession st tid m).events = st.events := by
  unfold doRequestSession
  dsimp only
  by_cases hhave : haveSession st m
  · rw [if_pos hhave]
    exact events_doRequestSessionBody st tid m
  · rw [if_neg hhave]
    rw [events_doRequestSessionBody (registerSession st m) tid m]
    exact sessions_registerSession_events st m

lemma lastTid_doRequestSession (st : Mdsc) (tid m : Nat) :
    (doRequestSession st tid m).lastTid = st.lastTid := by
  unfold doRequestSession
  dsimp only
  by_cases hhave : haveSession st m
  · rw [if_pos hhave]
    exact lastTid_doRequestSessionBody st tid m
  · rw [if_neg hhave]
    rw [lastTid_doRequestSessionBody (registerSession st m) tid m]
    exact lastTid_registerSession st m

set_option maxHeartbeats 1000000 in
lemma doRequest_lastTid (st : Mdsc) (tid : Nat) :
    (doRequest st tid).lastTid = st.lastTid := by
  unfold doRequest
  dsimp only
  split
  case h_1 => rfl
  case h_2 req hreq =>
    split
    case isTrue => rfl
    case isFalse =>
      split
      case isTrue => rfl
      case isFalse =>
        have hco := chooseMds_oracleOnly (logEvent st (.doReq tid)) req
        split
        case isTrue =>
          show (chooseMds (logEvent st (.doReq tid)) req).2.lastTid = st.lastTid
          rw [hco.lastTid]
          rfl
        case isFalse =>
          rw [lastTid_doRequestSession, hco.lastTid]
          rfl

set_option maxHeartbeats 1000000 in
lemma doRequest_slotUnsafe (st : Mdsc) (tid : Nat) (mm : Nat) :
    slotUnsafe (getSession (doRequest st tid) mm) = slotUnsafe (getSession st mm) := by
  unfold doRequest
  dsimp only
  split
  case h_1 => rfl
  case h_2 req hreq =>
    split
    case isTrue => rfl
    case isFalse =>
      split
      case isTrue => rfl
      case isFalse =>
        have hco := chooseMds_oracleOnly (logEvent st (.doReq tid)) req
        split
        case isTrue =>
          have hs2 : (logEvent { (chooseMds (logEvent st (.doReq tid)) req).2 with
              waitingForMap := tid ::
                (chooseMds (logEvent st (.doReq tid)) req).2.waitingForMap }
              (.moncRequestMap ((chooseMds (logEvent st
                (.doReq tid)) req).2.epoch + 1))).sessions = st.sessions := by
            show (chooseMds (logEvent st (.doReq tid)) req).2.sessions = st.sessions
            rw [hco.sessions]
            rfl
          rw [getSession_of_sessions_eq hs2 mm]
        case isFalse =>
          rw [slotUnsafe_doRequestSession]
          rw [getSession_of_sessions_eq
            (show (chooseMds (logEvent st (.doReq tid)) req).2.sessions = st.sessions by
              rw [hco.sessions]
              rfl) mm]

set_option maxHeartbeats 1000000 in
lemma doRequest_sessionState (st : Mdsc) (tid : Nat) (mm : Nat) (σ : SessState)
    (hσ : σ = SessState.opened ∨ σ = SessState.hung)
    (h : sessionStateAt st mm = some σ) :
    sessionStateAt (doRequest st tid) mm = some σ := by
  unfold doRequest
  dsimp only
  split
  case h_1 => exact h
  case h_2 req hreq =>
    split
    case isTrue => exact h
    case isFalse =>
      split
      case isTrue => exact h
      case isFalse =>
        have hco := chooseMds_oracleOnly (logEvent st (.doReq tid)) req
        have hsess : (chooseMds (logEvent st (.doReq tid)) req).2.sessions = st.sessions := by
          rw [hco.sessions]
          rfl
        split
        case isTrue =>
          unfold sessionStateAt
          rw [getSession_of_sessions_eq
            (show (logEvent { (chooseMds (logEvent st (.doReq tid)) req).2 with
              waitingForMap := tid ::
                (chooseMds (logEvent st (.doReq tid)) req).2.waitingForMap }
              (.moncRequestMap ((chooseMds (logEvent st (.doReq tid)) req).2.epoch + 1))).sessions
              = st.sessions from hsess) mm]
          exact h
        case isFalse =>
          apply sessionStateAt_doRequestSession _ tid _ mm σ hσ
          unfold sessionStateAt
          rw [getSession_of_sessions_eq hsess mm]
          exact h

set_option maxHeartbeats 1000000 in
lemma doRequest_events (st : Mdsc) (tid : Nat) :
    ∃ extra, (doRequest st tid).events = st.events ++ [REvent.doReq tid] ++ extra ∧
      ∀ e ∈ extra, (∃ ep, e = REvent.moncRequestMap ep) ∨ e = REvent.completeReq tid := by
  unfold doRequest
  dsimp only
  split
  case h_1 =>
    exact ⟨[], by simp [logEvent], by intro e he; cases he⟩
  case h_2 req hreq =>
    split
    case isTrue =>
      exact ⟨[], by simp [logEvent], by intro e he; cases he⟩
    case isFalse =>
      split
      case isTrue =>
        refine ⟨[REvent.completeReq tid], by simp [logEvent, completeRequest], ?_⟩
        intro e he
        rw [List.mem_singleton] at he
        subst he
        exact Or.inr rfl
      case isFalse =>
        have hco := chooseMds_oracleOnly (logEvent st (.doReq tid)) req
        split
        case isTrue =>
          refine ⟨[REvent.moncRequestMap
            ((chooseMds (logEvent st (.doReq tid)) req).2.epoch + 1)], ?_, ?_⟩
          · show (chooseMds (logEvent st (.doReq tid)) req).2.events ++ _ = _
            rw [hco.events]
            simp [logEvent]
          · intro e he
            rw [List.mem_singleton] at he
            subst he
            exact Or.inl ⟨_, rfl⟩
        case isFalse =>
          refine ⟨[], ?_, by intro e he; cases he⟩
          rw [events_doRequestSession, hco.events]
          simp [logEvent]

lemma getSession_mapAll (st : Mdsc) (f : Session → Session) (mm : Nat) :
    getSession { st with sessions := st.sessions.map (Option.map f) } mm =
      (getSession st mm).map f := by
  unfold getSession
  dsimp only
  rw [List.getD_eq_getElem?_getD, List.getD_eq_getElem?_getD, List.getElem?_map]
  cases st.sessions[mm]? with
  | none => rfl
  | some o => cases o <;> rfl

lemma sessionStateAt_removeUnsafeItem (st : Mdsc) (t : Nat) (mm : Nat) :
    sessionStateAt (removeUnsafeItem st t) mm = sessionStateAt st mm := by
  unfold sessionStateAt removeUnsafeItem
  rw [getSession_mapAll]
  cases getSession st mm <;> rfl

lemma sessionStateAt_removeCap (st : Mdsc) (ino m mm : Nat) :
    sessionStateAt (removeCap st ino m) mm = sessionStateAt st mm := by
  unfold removeCap
  dsimp only
  rw [sessionStateAt_updateSession _ m
    (fun s => { s with caps := s.caps.filter (fun i => i ≠ ino),
                       nrCaps := s.nrCaps - 1 })
    (fun s => rfl) mm]
  exact sessionStateAt_of_sessions_eq rfl mm

lemma sessionStateAt_iterateCaps (inos : List Nat) (cb : Mdsc → Nat → Mdsc × Bool)
    (hcb : ∀ st i mm, sessionStateAt (cb st i).1 mm = sessionStateAt st mm) :
    ∀ st mm, sessionStateAt (iterateCaps st inos cb) mm = sessionStateAt st mm := by
  induction inos with
  | nil => intro st mm; rfl
  | cons i rest ih =>
      intro st mm
      unfold iterateCaps
      dsimp only
      split
      · rw [ih (cb st i).1 mm, hcb st i mm]
      · exact hcb st i mm

lemma sessionStateAt_wakeUpSessionCb (m : Nat) (st : Mdsc) (i mm : Nat) :
    sessionStateAt (wakeUpSessionCb m st i).1 mm = sessionStateAt st mm := by
  unfold wakeUpSessionCb
  split
  · rfl
  · dsimp only
    split
    · split
      · show sessionStateAt (logEvent (removeCap st i m) _) mm = _
        rw [sessionStateAt_of_sessions_eq (a := logEvent (removeCap st i m) _)
          (b := removeCap st i m) rfl mm]
        exact sessionStateAt_removeCap st i m mm
      · exact sessionStateAt_of_sessions_eq rfl mm
    · exact sessionStateAt_of_sessions_eq rfl mm

lemma sessionStateAt_wakeUpSessionCaps (st : Mdsc) (m mm : Nat) :
    sessionStateAt (wakeUpSessionCaps st m) mm = sessionStateAt st mm := by
  unfold wakeUpSessionCaps
  split
  · rfl
  · exact sessionStateAt_iterateCaps _ _ (sessionStateAt_wakeUpSessionCb m) st mm

lemma sessionStateAt_renewedCaps (st : Mdsc) (m : Nat) (b : Bool) (mm : Nat) :
    sessionStateAt (renewedCaps st m b) mm = sessionStateAt st mm := by
  unfold renewedCaps
  split
  · rfl
  case h_2 s hs =>
    dsimp only
    split
    · rw [sessionStateAt_wakeUpSessionCaps]
      exact sessionStateAt_updateSession st m
        (fun t => { t with capTtl := s.renewRequested + st.sessionTimeout * HZ })
        (fun t => rfl) mm
    · exact sessionStateAt_updateSession st m
        (fun t => { t with capTtl := s.renewRequested + st.sessionTimeout * HZ })
        (fun t => rfl) mm

lemma sessionStateAt_sendRenewCaps (st : Mdsc) (m mm : Nat) :
    sessionStateAt (sendRenewCaps st m) mm = sessionStateAt st mm := by
  unfold sendRenewCaps
  split
  · rfl
  · split
    · rfl
    · exact sessionStateAt_updateSession st m
        (fun s => { s with renewRequested := st.now }) (fun s => rfl) mm

lemma sessionStateAt_trimCapsCb (m : Nat) (st : Mdsc) (i mm : Nat) :
    sessionStateAt (trimCapsCb m st i).1 mm = sessionStateAt st mm := by
  unfold trimCapsCb
  split
  · rfl
  · split
    · rfl
    · dsimp only
      split
      · rfl
      · split
        · rfl
        · split
          · rfl
          · split
            · rw [sessionStateAt_removeCap]
              exact sessionStateAt_updateSession st m
                (fun s => { s with trimCapsLeft := s.trimCapsLeft - 1 })
                (fun s => rfl) mm
            · exact sessionStateAt_updateSession st m
                (fun s => { s with trimCapsLeft := s.trimCapsLeft - 1 })
                (fun s => rfl) mm

lemma sessionStateAt_trimCaps (st : Mdsc) (m : Nat) (mc : Nat) (mm : Nat) :
    sessionStateAt (trimCaps st m mc) mm = sessionStateAt st mm := by
  unfold trimCaps
  split
  · rfl
  case h_2 s hs =>
    dsimp only
    split
    · rw [sessionStateAt_iterateCaps _ _ (sessionStateAt_trimCapsCb m)]
      exact sessionStateAt_updateSession st m
        (fun t => { t with trimCapsLeft := (s.nrCaps : Int) - (mc : Int) })
        (fun t => rfl) mm
    · rfl
lemma sessionStateAt_putRequestSessions (st : Mdsc) (tid mm : Nat) :
    sessionStateAt (putRequestSessions st tid) mm = sessionStateAt st mm := rfl

lemma sessionStateAt_unregisterRequest (st : Mdsc) (tid mm : Nat) :
    sessionStateAt (unregisterRequest st tid) mm = sessionStateAt st mm := by
  unfold unregisterRequest
  dsimp only
  split <;> rfl

lemma sessionStateAt_markUnsafe (st : Mdsc) (tid smds mm : Nat) :
    sessionStateAt (markUnsafe st tid smds) mm = sessionStateAt st mm := by
  unfold markUnsafe
  rw [sessionStateAt_updateSession _ smds
    (fun s => { s with unsafeReqs := s.unsafeReqs ++ [tid] }) (fun s => rfl) mm]
  rfl

lemma sessionStateAt_addCapReleases (st : Mdsc) (m : Nat) (e : Int) (mm : Nat) :
    sessionStateAt (addCapReleases st m e) mm = sessionStateAt st mm := by
  unfold addCapReleases
  split
  · rfl
  · dsimp only
    split
    · apply sessionStateAt_updateSession
      intro s
      rfl
    · split
      · apply sessionStateAt_updateSession
        intro s
        rfl
      · apply sessionStateAt_updateSession
        intro s
        rfl

lemma sessionStateAt_replyFinish (st : Mdsc) (msg : ReplyMsg) (smds mm : Nat) :
    sessionStateAt (replyFinish st msg smds) mm = sessionStateAt st mm := by
  unfold replyFinish
  dsimp only
  have h1 : ∀ (x : Mdsc),
      sessionStateAt (completeRequest (addCapReleases x smds (-1)) msg.tid) mm =
        sessionStateAt x mm := by
    intro x
    show sessionStateAt (addCapReleases x smds (-1)) mm = sessionStateAt x mm
    exact sessionStateAt_addCapReleases x smds (-1) mm
  rw [h1]
  repeat' split
  all_goals rfl

lemma sessionStateAt_replyParsed (st : Mdsc) (msg : ReplyMsg) (smds mm : Nat)
    (σ : SessState) (hσ : σ = SessState.opened ∨ σ = SessState.hung)
    (h : sessionStateAt st mm = some σ) :
    sessionStateAt (replyParsed st msg smds) mm = some σ := by
  unfold replyParsed
  split
  · show sessionStateAt (addCapReleases (updateReq st msg.tid
      (fun r => { r with err := - EIO })) smds (-1)) mm = some σ
    rw [sessionStateAt_addCapReleases]
    exact h
  · split
    · dsimp only
      split
      · apply doRequest_sessionState _ _ mm σ hσ
        exact h
      · rw [sessionStateAt_replyFinish]
        exact h
    · rw [sessionStateAt_replyFinish]
      exact h

lemma sessionStateAt_replyStage3 (st : Mdsc) (msg : ReplyMsg) (mm : Nat)
    (σ : SessState) (hσ : σ = SessState.opened ∨ σ = SessState.hung)
    (h : sessionStateAt st mm = some σ) :
    sessionStateAt (replyStage3 st msg) mm = some σ := by
  unfold replyStage3
  dsimp only
  repeat' split
  all_goals
    first
      | exact h
      | (apply sessionStateAt_replyParsed _ _ _ mm σ hσ
         first
           | exact h
           | (rw [sessionStateAt_markUnsafe]
              exact h))

lemma sessionStateAt_handleReply (st : Mdsc) (msg : ReplyMsg) (mm : Nat)
    (σ : SessState) (hσ : σ = SessState.opened ∨ σ = SessState.hung)
    (h : sessionStateAt st mm = some σ) :
    sessionStateAt (handleReply st msg) mm = some σ := by
  unfold handleReply
  split
  · exact h
  · split
    · exact h
    · dsimp only
      have hst1 : ∀ (x : Mdsc), sessionStateAt x mm = some σ →
          sessionStateAt (if msg.safe then
            logEvent (unregisterRequest (updateReq x msg.tid
              (fun r => { r with gotSafe := true })) msg.tid) (.completeSafe msg.tid)
          else x) mm = some σ := by
        intro x hx
        split
        · show sessionStateAt (unregisterRequest (updateReq x msg.tid
            (fun r => { r with gotSafe := true })) msg.tid) mm = some σ
          rw [sessionStateAt_unregisterRequest]
          exact hx
        · exact hx
      have hrm : ∀ (x : Mdsc), sessionStateAt x mm = some σ →
          sessionStateAt (removeUnsafeItem x msg.tid) mm = some σ := by
        intro x hx
        rw [sessionStateAt_removeUnsafeItem]
        exact hx
      have hX : sessionStateAt (logEvent (unregisterRequest (updateReq st msg.tid
          (fun r => { r with gotSafe := true })) msg.tid)
          (REvent.completeSafe msg.tid)) mm = some σ := by
        show sessionStateAt (unregisterRequest (updateReq st msg.tid
          (fun r => { r with gotSafe := true })) msg.tid) mm = some σ
        rw [sessionStateAt_unregisterRequest]
        exact h
      split
      · repeat' split
        all_goals
          first
            | exact hrm _ hX
            | exact hrm st h
      · exact sessionStateAt_replyStage3 _ msg mm σ hσ (hst1 st h)

lemma sessionStateAt_handleForward (st : Mdsc) (fm : FwdMsg) (st2 : Mdsc) (mm : Nat)
    (σ : SessState) (hσ : σ = SessState.opened ∨ σ = SessState.hung)
    (hr : handleForward st fm = some st2)
    (h : sessionStateAt st mm = some σ) :
    sessionStateAt st2 mm = some σ := by
  unfold handleForward at hr
  split at hr
  · injection hr with hr
    subst hr
    exact h
  · split at hr
    · exact Option.noConfusion hr
    · exact Option.noConfusion hr
    · split at hr
      · injection hr with hr
        subst hr
        exact h
      · split at hr
        · injection hr with hr
          subst hr
          exact h
        · injection hr with hr
          subst hr
          apply doRequest_sessionState _ _ mm σ hσ
          exact h

lemma sessionStateAt_handleLease (st : Mdsc) (lm : LeaseMsg) (mm : Nat) :
    sessionStateAt (handleLease st lm) mm = sessionStateAt st mm := by
  unfold handleLease sendLeaseAck
  split
  · rfl
  · dsimp only
    have hup : sessionStateAt (updateSession st lm.srcMds
        (fun s => { s with seq := s.seq + 1 })) mm = sessionStateAt st mm :=
      sessionStateAt_updateSession st lm.srcMds
        (fun s => { s with seq := s.seq + 1 }) (fun s => rfl) mm
    repeat' split
    all_goals exact hup

lemma haveSession_of_getSession {st : Mdsc} {m : Nat} {s : Session}
    (h : getSession st m = some s) : haveSession st m = true := by
  unfold haveSession
  rw [h]
  rfl

lemma haveSession_updateSession (st : Mdsc) (m' : Nat) (f : Session → Session) (m : Nat) :
    haveSession (updateSession st m' f) m = haveSession st m := by
  unfold haveSession
  rw [getSession_updateSession]
  by_cases h : m = m'
  · rw [if_pos h]
    cases h2 : getSession st m <;> simp
  · rw [if_neg h]

lemma sessionStateAt_updateSession_self (st : Mdsc) (m : Nat) (f : Session → Session)
    (s : Session) (hs : getSession st m = some s) :
    sessionStateAt (updateSession st m f) m = some (f s).state := by
  unfold sessionStateAt
  rw [getSession_updateSession, if_pos rfl, hs]
  rfl

lemma sessionStateAt_wakeRequests (tids : List Nat) (st : Mdsc) (mm : Nat)
    (σ : SessState) (hσ : σ = SessState.opened ∨ σ = SessState.hung)
    (h : sessionStateAt st mm = some σ) :
    sessionStateAt (wakeRequests st tids) mm = some σ := by
  induction tids generalizing st with
  | nil => exact h
  | cons t rest ih =>
      show sessionStateAt (wakeRequests (doRequest st t) rest) mm = some σ
      exact ih (doRequest st t) (doRequest_sessionState st t mm σ hσ h)

lemma stopping_iterateCaps (inos : List Nat) (cb : Mdsc → Nat → Mdsc × Bool)
    (hcb : ∀ st i, ((cb st i).1).stopping = st.stopping) :
    ∀ st, (iterateCaps st inos cb).stopping = st.stopping := by
  induction inos with
  | nil => intro st; rfl
  | cons i rest ih =>
      intro st
      unfold iterateCaps
      dsimp only
      split
      · rw [ih (cb st i).1, hcb st i]
      · exact hcb st i

lemma stopping_wakeUpSessionCb (m : Nat) (st : Mdsc) (i : Nat) :
    ((wakeUpSessionCb m st i).1).stopping = st.stopping := by
  unfold wakeUpSessionCb
  split
  · rfl
  · dsimp only
    split
    · split <;> rfl
    · rfl

lemma stopping_wakeUpSessionCaps (st : Mdsc) (m : Nat) :
    (wakeUpSessionCaps st m).stopping = st.stopping := by
  unfold wakeUpSessionCaps
  split
  · rfl
  · exact stopping_iterateCaps _ _ (stopping_wakeUpSessionCb m) st

lemma stopping_renewedCaps (st : Mdsc) (m : Nat) (b : Bool) :
    (renewedCaps st m b).stopping = st.stopping := by
  unfold renewedCaps
  split
  · rfl
  · dsimp only
    split
    · rw [stopping_wakeUpSessionCaps]
      rfl
    · rfl

lemma sessionStateAt_updateSession_const (st : Mdsc) (m : Nat) (σ τ : SessState)
    (h : sessionStateAt st m = some τ) (f : Session → Session)
    (hf : ∀ s, (f s).state = σ) :
    sessionStateAt (updateSession st m f) m = some σ := by
  unfold sessionStateAt at h ⊢
  rw [getSession_updateSession, if_pos rfl]
  cases hg : getSession st m with
  | none => rw [hg] at h; cases h
  | some s => simp [hf]

lemma handleSession_open_tail (stD : Mdsc) (srcMds : Nat) (saved : Option Session)
    (hsd : stD.stopping = false)
    (hstD : sessionStateAt stD srcMds = some SessState.opened) :
    sessionStateAt (match getSession (if stD.stopping then closeSession stD srcMds
        else stD) srcMds with
      | some s => wakeRequests (updateSession (if stD.stopping then closeSession stD
          srcMds else stD) srcMds (fun s2 => { s2 with waiting := [] })) s.waiting
      | none => wakeRequests (if stD.stopping then closeSession stD srcMds else stD)
          ((saved.map (fun s => s.waiting)).getD [])) srcMds =
      some SessState.opened := by
  have hST : (if stD.stopping then closeSession stD srcMds else stD) = stD := by
    rw [hsd]
    rfl
  rw [hST]
  split
  · apply sessionStateAt_wakeRequests _ _ _ SessState.opened (Or.inl rfl)
    rw [sessionStateAt_updateSession _ srcMds
      (fun s2 => { s2 with waiting := [] }) (fun s2 => rfl) srcMds]
    exact hstD
  · apply sessionStateAt_wakeRequests _ _ _ SessState.opened (Or.inl rfl)
    exact hstD

set_option maxHeartbeats 1000000 in
lemma handleSession_hung_open (st0 : Mdsc) (srcMds op seq maxCaps : Nat)
    (hh : sessionStateAt st0 srcMds = some SessState.hung)
    (hcl : op ≠ SESSION_CLOSE)
    (hstop : op = SESSION_OPEN → st0.stopping = false) :
    sessionStateAt (handleSession st0 srcMds op seq maxCaps) srcMds =
      some SessState.opened := by
  obtain ⟨s0, hs0, hst0⟩ :
      ∃ s, getSession st0 srcMds = some s ∧ s.state = SessState.hung := by
    unfold sessionStateAt at hh
    cases hg : getSession st0 srcMds with
    | none => rw [hg] at hh; cases hh
    | some s =>
        rw [hg] at hh
        exact ⟨s, rfl, Option.some.inj hh⟩
  have hhave0 : haveSession st0 srcMds = true := haveSession_of_getSession hs0
  unfold handleSession
  dsimp only
  rw [if_pos hhave0]
  have hhaveA : haveSession (updateSession st0 srcMds
      (fun s => { s with ttl := st0.now + HZ * st0.sessionAutoclose })) srcMds = true := by
    rw [haveSession_updateSession]
    exact hhave0
  have hc2 : ¬ (¬ haveSession (updateSession st0 srcMds
      (fun s => { s with ttl := st0.now + HZ * st0.sessionAutoclose })) srcMds = true ∧
      op ≠ SESSION_OPEN) := fun hc => hc.1 hhaveA
  rw [if_neg hc2, if_pos hhaveA]
  have hsA : getSession (updateSession st0 srcMds
      (fun s => { s with ttl := st0.now + HZ * st0.sessionAutoclose })) srcMds =
      some { s0 with ttl := st0.now + HZ * st0.sessionAutoclose } := by
    rw [getSession_updateSession, if_pos rfl, hs0]
    rfl
  have hstB : sessionStateAt (updateSession (updateSession st0 srcMds
      (fun s => { s with ttl := st0.now + HZ * st0.sessionAutoclose })) srcMds
      (fun s => if s.state = SessState.hung then { s with state := SessState.opened }
        else s)) srcMds = some SessState.opened := by
    rw [sessionStateAt_updateSession_self _ srcMds _ _ hsA]
    dsimp only
    rw [if_pos (show ({ s0 with ttl := st0.now + HZ * st0.sessionAutoclose } :
      Session).state = SessState.hung from hst0)]
  by_cases h1 : op = SESSION_OPEN
  · rw [if_pos h1]
    dsimp only
    have hsd : (renewedCaps (updateSession (updateSession (updateSession st0 srcMds
        (fun s => { s with ttl := st0.now + HZ * st0.sessionAutoclose })) srcMds
        (fun s => if s.state = SessState.hung then { s with state := SessState.opened }
          else s)) srcMds (fun s => { s with state := SessState.opened })) srcMds
        false).stopping = false := by
      rw [stopping_renewedCaps]
      exact hstop h1
    have hstD : sessionStateAt (renewedCaps (updateSession (updateSession (updateSession
        st0 srcMds (fun s => { s with ttl := st0.now + HZ * st0.sessionAutoclose }))
        srcMds (fun s => if s.state = SessState.hung then
          { s with state := SessState.opened } else s)) srcMds
        (fun s => { s with state := SessState.opened })) srcMds false) srcMds =
        some SessState.opened := by
      rw [sessionStateAt_renewedCaps]
      exact sessionStateAt_updateSession_const _ srcMds SessState.opened
        SessState.opened hstB _ (fun s => rfl)
    exact handleSession_open_tail _ srcMds _ hsd hstD
  · rw [if_neg h1]
    by_cases h2 : op = SESSION_RENEWCAPS
    · rw [if_pos h2]
      show sessionStateAt (renewedCaps _ srcMds true) srcMds = some SessState.opened
      rw [sessionStateAt_renewedCaps]
      exact hstB
    · rw [if_neg h2, if_neg hcl]
      by_cases h4 : op = SESSION_STALE
      · rw [if_pos h4]
        show sessionStateAt (sendRenewCaps _ srcMds) srcMds = some SessState.opened
        rw [sessionStateAt_sendRenewCaps]
        rw [sessionStateAt_updateSession _ srcMds
          (fun s => { s with capGen := s.capGen + 1, capTtl := 0 }) (fun s => rfl) srcMds]
        exact hstB
      · rw [if_neg h4]
        by_cases h5 : op = SESSION_RECALL_STATE
        · rw [if_pos h5]
          show sessionStateAt (trimCaps _ srcMds maxCaps) srcMds = some SessState.opened
          rw [sessionStateAt_trimCaps]
          exact hstB
        · rw [if_neg h5]
          exact hstB

lemma ReqMut.findPool_proj {tid : Nat} {a b : Mdsc} (h : ReqMut tid a b) :
    (findPool b tid).map (fun r => (r.directMode, r.numStale)) =
      (findPool a tid).map (fun r => (r.directMode, r.numStale)) := by
  obtain ⟨g, hg, hpool⟩ := h
  have hb : findPool b tid = (findPool a tid).map g := by
    unfold findPool
    rw [hpool]
    exact find?_update_self a.pool tid g (fun r => (hg r).1)
  rw [hb]
  cases hfa : findPool a tid with
  | none => rfl
  | some r => simp [(hg r).2.2.2.2.1, (hg r).2.2.2.2.2]

lemma events_addCapReleases (st : Mdsc) (m : Nat) (e : Int) :
    (addCapReleases st m e).events = st.events := by
  unfold addCapReleases
  split
  · rfl
  · dsimp only
    split
    · rw [events_updateSession]
    · split <;> rw [events_updateSession]

lemma pool_addCapReleases (st : Mdsc) (m : Nat) (e : Int) :
    (addCapReleases st m e).pool = st.pool := by
  unfold addCapReleases
  split
  · rfl
  · dsimp only
    split
    · rfl
    · split <;> rfl

lemma events_replyFinish (st : Mdsc) (msg : ReplyMsg) (smds : Nat) :
    ∃ pre, (replyFinish st msg smds).events =
      st.events ++ pre ++ [REvent.completeReq msg.tid] := by
  unfold replyFinish
  dsimp only
  split
  · split
    · exact ⟨[REvent.snapTrace msg.tid, REvent.fillTrace msg.tid,
        REvent.readdirPrepop msg.tid], by
          simp [completeRequest, logEvent, fillTrace, events_addCapReleases]⟩
    · exact ⟨[REvent.fillTrace msg.tid, REvent.readdirPrepop msg.tid], by
        simp [completeRequest, logEvent, fillTrace, events_addCapReleases]⟩
  · split
    · exact ⟨[REvent.snapTrace msg.tid, REvent.fillTrace msg.tid], by
        simp [completeRequest, logEvent, fillTrace, events_addCapReleases]⟩
    · exact ⟨[REvent.fillTrace msg.tid], by
        simp [completeRequest, logEvent, fillTrace, events_addCapReleases]⟩

lemma findPool_replyFinish (st : Mdsc) (msg : ReplyMsg) (smds : Nat) :
    findPool (replyFinish st msg smds) msg.tid =
      (findPool st msg.tid).map (fun r =>
        { r with numCapsReserved := 0, reply := some (ReplyVal.rmsg msg) }) := by
  have hfind : ∀ y : Mdsc,
      findPool (completeRequest (addCapReleases y smds (-1)) msg.tid) msg.tid =
        findPool y msg.tid := by
    intro y
    unfold findPool
    show (addCapReleases y smds (-1)).pool.find? _ = _
    rw [pool_addCapReleases]
  unfold replyFinish
  dsimp only
  rw [hfind]
  rw [findPool_updateReq _ msg.tid (fun r =>
    { r with numCapsReserved := 0, reply := some (ReplyVal.rmsg msg) }) (fun r => rfl)]
  congr 1
  unfold findPool
  repeat' split
  all_goals rfl

lemma ReqMut.findRegistered_gu {tid : Nat} {a b : Mdsc} (h : ReqMut tid a b) :
    (findRegistered b tid).map (fun r => r.gotUnsafe) =
      (findRegistered a tid).map (fun r => r.gotUnsafe) := by
  obtain ⟨g, hg, hpool⟩ := h
  have hb : findRegistered b tid = (findRegistered a tid).map g := by
    unfold findRegistered
    rw [hpool]
    exact find?_update_reg a.pool tid g (fun r => (hg r).1) (fun r => (hg r).2.1)
  rw [hb]
  cases findRegistered a tid with
  | none => rfl
  | some r => simp [(hg r).2.2.1]

lemma findRegistered_gu_updateReq (st : Mdsc) (t : Nat) (f : Request → Request)
    (hf : ∀ r, (f r).tid = r.tid) (hreg : ∀ r, (f r).registered = r.registered)
    (hgu : ∀ r, (f r).gotUnsafe = r.gotUnsafe) :
    (findRegistered (updateReq st t f) t).map (fun r => r.gotUnsafe) =
      (findRegistered st t).map (fun r => r.gotUnsafe) := by
  rw [findRegistered_updateReq st t f hf hreg]
  cases findRegistered st t with
  | none => rfl
  | some r => simp [hgu]

lemma findRegistered_replyFinish (st : Mdsc) (msg : ReplyMsg) (smds : Nat) :
    findRegistered (replyFinish st msg smds) msg.tid =
      (findRegistered st msg.tid).map (fun r =>
        { r with numCapsReserved := 0, reply := some (ReplyVal.rmsg msg) }) := by
  have hfind : ∀ y : Mdsc,
      findRegistered (completeRequest (addCapReleases y smds (-1)) msg.tid) msg.tid =
        findRegistered y msg.tid := by
    intro y
    unfold findRegistered
    show (addCapReleases y smds (-1)).pool.find? _ = _
    rw [pool_addCapReleases]
  unfold replyFinish
  dsimp only
  rw [hfind]
  rw [findRegistered_updateReq _ msg.tid (fun r =>
    { r with numCapsReserved := 0, reply := some (ReplyVal.rmsg msg) })
    (fun r => rfl) (fun r => rfl)]
  congr 1
  unfold findRegistered
  repeat' split
  all_goals rfl

lemma findRegistered_gu_replyFinish (st : Mdsc) (msg : ReplyMsg) (smds : Nat) :
    (findRegistered (replyFinish st msg smds) msg.tid).map (fun r => r.gotUnsafe) =
      (findRegistered st msg.tid).map (fun r => r.gotUnsafe) := by
  rw [findRegistered_replyFinish]
  cases findRegistered st msg.tid with
  | none => rfl
  | some r => rfl

lemma findRegistered_gu_replyParsed (st : Mdsc) (msg : ReplyMsg) (smds : Nat) :
    (findRegistered (replyParsed st msg smds) msg.tid).map (fun r => r.gotUnsafe) =
      (findRegistered st msg.tid).map (fun r => r.gotUnsafe) := by
  unfold replyParsed
  split
  · show (findRegistered (addCapReleases (updateReq st msg.tid
      (fun r => { r with err := - EIO })) smds (-1)) msg.tid).map (fun r => r.gotUnsafe) =
      (findRegistered st msg.tid).map (fun r => r.gotUnsafe)
    have hpe : findRegistered (addCapReleases (updateReq st msg.tid
        (fun r => { r with err := - EIO })) smds (-1)) msg.tid =
        findRegistered (updateReq st msg.tid (fun r => { r with err := - EIO }))
          msg.tid := by
      unfold findRegistered
      rw [pool_addCapReleases]
    rw [hpe]
    exact findRegistered_gu_updateReq st msg.tid _ (fun r => rfl) (fun r => rfl)
      (fun r => rfl)
  · split
    · dsimp only
      split
      · rw [(doRequest_req _ msg.tid).findRegistered_gu]
        show (findRegistered (updateReq (updateReq st msg.tid _) msg.tid
          (fun r => { r with sessionMds := none, fwdSessionMds := none }))
          msg.tid).map (fun r => r.gotUnsafe) = _
        rw [findRegistered_gu_updateReq _ msg.tid
          (fun r => { r with sessionMds := none, fwdSessionMds := none })
          (fun r => rfl) (fun r => rfl) (fun r => rfl)]
        exact findRegistered_gu_updateReq st msg.tid _ (fun r => rfl) (fun r => rfl)
          (fun r => rfl)
      · rw [findRegistered_gu_replyFinish]
        exact findRegistered_gu_updateReq st msg.tid _ (fun r => rfl) (fun r => rfl)
          (fun r => rfl)
    · rw [findRegistered_gu_replyFinish]
      exact findRegistered_gu_updateReq st msg.tid _ (fun r => rfl) (fun r => rfl)
        (fun r => rfl)

lemma findRegistered_none_replyParsed (y : Mdsc) (msg : ReplyMsg) (smds : Nat)
    (h : findRegistered y msg.tid = none) :
    findRegistered (replyParsed y msg smds) msg.tid = none := by
  have h2 := findRegistered_gu_replyParsed y msg smds
  rw [h] at h2
  exact Option.map_eq_none'.mp h2

lemma findRegistered_none_replyStage3 (x : Mdsc) (msg : ReplyMsg)
    (h : findRegistered x msg.tid = none) :
    findRegistered (replyStage3 x msg) msg.tid = none := by
  have hu : ∀ (y : Mdsc) (f : Request → Request), (∀ r, (f r).tid = r.tid) →
      (∀ r, (f r).registered = r.registered) →
      findRegistered y msg.tid = none →
      findRegistered (updateReq y msg.tid f) msg.tid = none := by
    intro y f h1 h2 hy
    rw [findRegistered_updateReq y msg.tid f h1 h2, hy]
    rfl
  unfold replyStage3
  dsimp only
  repeat' split
  all_goals
    first
      | exact h
      | exact hu _ _ (fun r => rfl) (fun r => rfl) h
      | exact findRegistered_none_replyParsed _ _ _ h
      | exact findRegistered_none_replyParsed _ _ _
          (hu _ _ (fun r => rfl) (fun r => rfl) h)
      | exact findRegistered_none_replyParsed _ _ _
          (hu _ _ (fun r => rfl) (fun r => rfl)
            (hu _ _ (fun r => rfl) (fun r => rfl) h))

lemma findRegistered_unregister (x : Mdsc) (tid : Nat) :
    findRegistered (unregisterRequest x tid) tid = none := by
  unfold unregisterRequest
  dsimp only
  split
  · show findRegistered (updateReq x tid (fun r => { r with registered := false }))
      tid = none
    exact findRegistered_clear x.pool tid _ (fun r => rfl) (fun r => rfl)
  · exact findRegistered_clear x.pool tid _ (fun r => rfl) (fun r => rfl)

lemma handleReply_of_none (x : Mdsc) (m : ReplyMsg)
    (h : findRegistered x m.tid = none) : handleReply x m = x := by
  unfold handleReply
  rw [h]

lemma handleReply_unsafe_drop (x : Mdsc) (m : ReplyMsg) (r : Request)
    (h : findRegistered x m.tid = some r) (hg : r.gotUnsafe = true)
    (hs : ¬ m.safe = true) : handleReply x m = x := by
  unfold handleReply
  rw [h]
  dsimp only
  rw [if_pos (Or.inl ⟨hg, hs⟩)]

lemma handleReply_unsafe_eq (st : Mdsc) (msg : ReplyMsg) (req : Request)
    (hfr : findRegistered st msg.tid = some req)
    (hgu : req.gotUnsafe = false) (hsafe : ¬ msg.safe = true) :
    handleReply st msg = replyStage3 st msg := by
  unfold handleReply
  rw [hfr]
  dsimp only
  rw [if_neg (show ¬ ((req.gotUnsafe = true ∧ ¬ msg.safe = true) ∨
      (req.gotSafe = true ∧ msg.safe = true)) from fun hc => hc.elim
      (fun h1 => by rw [hgu] at h1; cases h1.1) (fun h2 => hsafe h2.2))]
  rw [if_neg hsafe, if_neg (fun hc => hsafe hc.1)]

lemma findRegistered_handleReply_safe_none (st : Mdsc) (msg : ReplyMsg)
    (req : Request) (hfr : findRegistered st msg.tid = some req)
    (hsafe : msg.safe = true)
    (hdup : ¬ ((req.gotUnsafe = true ∧ ¬ msg.safe = true) ∨
      (req.gotSafe = true ∧ msg.safe = true))) :
    findRegistered (handleReply st msg) msg.tid = none := by
  unfold handleReply
  rw [hfr]
  dsimp only
  rw [if_neg hdup, if_pos hsafe]
  have hst1 : findRegistered (logEvent (unregisterRequest (updateReq st msg.tid
      (fun r => { r with gotSafe := true })) msg.tid)
      (REvent.completeSafe msg.tid)) msg.tid = none := by
    show findRegistered (unregisterRequest (updateReq st msg.tid
      (fun r => { r with gotSafe := true })) msg.tid) msg.tid = none
    exact findRegistered_unregister _ msg.tid
  split
  · split
    · exact hst1
    · exact hst1
  · exact findRegistered_none_replyStage3 _ msg hst1

lemma handleReply_after_markUnsafe (y : Mdsc) (msg : ReplyMsg) (r0 : Request)
    (smds : Nat) (hfr : findRegistered y msg.tid = some r0)
    (hsafe : ¬ msg.safe = true) :
    handleReply (replyParsed (markUnsafe y msg.tid smds) msg smds) msg =
      replyParsed (markUnsafe y msg.tid smds) msg smds := by
  have h1 : (findRegistered (replyParsed (markUnsafe y msg.tid smds) msg smds)
      msg.tid).map (fun r => r.gotUnsafe) = some true := by
    rw [findRegistered_gu_replyParsed]
    have hmk : findRegistered (markUnsafe y msg.tid smds) msg.tid =
        (findRegistered y msg.tid).map (fun r => { r with gotUnsafe := true }) := by
      show findRegistered (updateReq y msg.tid
        (fun r => { r with gotUnsafe := true })) msg.tid = _
      exact findRegistered_updateReq y msg.tid _ (fun r => rfl) (fun r => rfl)
    rw [hmk, hfr]
    rfl
  obtain ⟨r2, hr2, hgu2⟩ : ∃ r2, findRegistered (replyParsed (markUnsafe y msg.tid
      smds) msg smds) msg.tid = some r2 ∧ r2.gotUnsafe = true := by
    cases hx : findRegistered (replyParsed (markUnsafe y msg.tid smds) msg smds)
        msg.tid with
    | none => rw [hx] at h1; cases h1
    | some r2 =>
        rw [hx] at h1
        exact ⟨r2, rfl, Option.some.inj h1⟩
  exact handleReply_unsafe_drop _ msg r2 hr2 hgu2 hsafe

lemma coreView_flags {a b : Mdsc} (h : coreView b = coreView a) :
    ∀ r2 ∈ b.pool, ∃ r1 ∈ a.pool, r1.tid = r2.tid ∧ r1.registered = r2.registered ∧
      r1.gotUnsafe = r2.gotUnsafe ∧ r1.gotSafe = r2.gotSafe := by
  intro r2 hr2
  have hm : (r2.tid, r2.registered, r2.gotUnsafe, r2.gotSafe) ∈ coreView a := by
    rw [← h]
    exact List.mem_map_of_mem _ hr2
  obtain ⟨r1, hr1, he⟩ := List.mem_map.mp hm
  have he2 : r1.tid = r2.tid ∧ r1.registered = r2.registered ∧
      r1.gotUnsafe = r2.gotUnsafe ∧ r1.gotSafe = r2.gotSafe := by
    simpa [Prod.ext_iff] using he
  exact ⟨r1, hr1, he2⟩

lemma PoolNodup_of_coreView {a b : Mdsc} (h : coreView b = coreView a)
    (ha : PoolNodup a) : PoolNodup b := by
  unfold PoolNodup at ha ⊢
  have h2 : b.pool.map (fun r => r.tid) = a.pool.map (fun r => r.tid) := by
    have h3 := congrArg (List.map (fun p : Nat × Bool × Bool × Bool => p.1)) h
    simpa [coreView, List.map_map, Function.comp] using h3
  rw [h2]
  exact ha

lemma getSession_out_of_range (st : Mdsc) (m : Nat)
    (h : st.sessions.length ≤ m) : getSession st m = none := by
  unfold getSession
  rw [List.getD_eq_getElem?_getD, List.getElem?_eq_none h]
  rfl

lemma Inv_transfer {a b : Mdsc} (hc : coreView b = coreView a)
    (hs : ∀ mm, slotUnsafe (getSession b mm) = slotUnsafe (getSession a mm))
    (ha : Inv a) : Inv b := by
  obtain ⟨hnd, hreg, hul⟩ := ha
  refine ⟨PoolNodup_of_coreView hc hnd, ?_, ?_⟩
  · intro r2 hr2 hr2reg
    obtain ⟨r1, hr1, h1, h2, h3, h4⟩ := coreView_flags hc r2 hr2
    rw [← h4]
    exact hreg r1 hr1 (by rw [h2]; exact hr2reg)
  · intro m _ t ht r2 hr2 htid
    rw [hs m] at ht
    by_cases hm : m < a.sessions.length
    · obtain ⟨r1, hr1, h1, h2, h3, h4⟩ := coreView_flags hc r2 hr2
      have hres := hul m (List.mem_range.mpr hm) t ht r1 hr1 (h1.trans htid)
      exact ⟨by rw [← h3]; exact hres.1, by rw [← h4]; exact hres.2.1,
        by rw [← h2]; exact hres.2.2⟩
    · rw [getSession_out_of_range a m (Nat.le_of_not_lt hm)] at ht
      simp [slotUnsafe] at ht

lemma coreView_updateReq (st : Mdsc) (t : Nat) (f : Request → Request)
    (h1 : ∀ r, (f r).tid = r.tid) (h2 : ∀ r, (f r).registered = r.registered)
    (h3 : ∀ r, (f r).gotUnsafe = r.gotUnsafe)
    (h4 : ∀ r, (f r).gotSafe = r.gotSafe) :
    coreView (updateReq st t f) = coreView st := by
  unfold coreView updateReq
  dsimp only
  rw [List.map_map]
  apply List.map_congr_left
  intro r hr
  dsimp [Function.comp]
  split
  · rw [h1, h2, h3, h4]
  · rfl

lemma ReqMut.coreView_eq {tid : Nat} {a b : Mdsc} (h : ReqMut tid a b) :
    coreView b = coreView a := by
  obtain ⟨g, hg, hpool⟩ := h
  unfold coreView
  rw [hpool, List.map_map]
  apply List.map_congr_left
  intro r hr
  dsimp [Function.comp]
  split
  · rw [(hg r).1, (hg r).2.1, (hg r).2.2.1, (hg r).2.2.2.1]
  · rfl

lemma coreView_replyFinish (st : Mdsc) (msg : ReplyMsg) (smds : Nat) :
    coreView (replyFinish st msg smds) = coreView st := by
  have hp : ∀ y : Mdsc,
      coreView (completeRequest (addCapReleases y smds (-1)) msg.tid) = coreView y := by
    intro y
    unfold coreView
    show (addCapReleases y smds (-1)).pool.map _ = _
    rw [pool_addCapReleases]
  unfold replyFinish
  dsimp only
  rw [hp]
  rw [coreView_updateReq _ msg.tid (fun r =>
    { r with numCapsReserved := 0, reply := some (ReplyVal.rmsg msg) })
    (fun r => rfl) (fun r => rfl) (fun r => rfl) (fun r => rfl)]
  unfold coreView
  repeat' split
  all_goals rfl

lemma slotUnsafe_addCapReleases (st : Mdsc) (m : Nat) (e : Int) (mm : Nat) :
    slotUnsafe (getSession (addCapReleases st m e) mm) =
      slotUnsafe (getSession st mm) := by
  unfold addCapReleases
  split
  · rfl
  · dsimp only
    split
    · apply slotUnsafe_updateSession
      intro s
      rfl
    · split
      · apply slotUnsafe_updateSession
        intro s
        rfl
      · apply slotUnsafe_updateSession
        intro s
        rfl

lemma slotUnsafe_replyFinish (st : Mdsc) (msg : ReplyMsg) (smds : Nat) (mm : Nat) :
    slotUnsafe (getSession (replyFinish st msg smds) mm) =
      slotUnsafe (getSession st mm) := by
  unfold replyFinish
  dsimp only
  have hp : ∀ y : Mdsc,
      slotUnsafe (getSession (completeRequest (addCapReleases y smds (-1)) msg.tid) mm) =
        slotUnsafe (getSession y mm) := by
    intro y
    show slotUnsafe (getSession (addCapReleases y smds (-1)) mm) = _
    exact slotUnsafe_addCapReleases y smds (-1) mm
  rw [hp]
  show slotUnsafe (getSession (if msg.result = 0 ∧ msg.dirNr > 0 then _ else _) mm) = _
  repeat' split
  all_goals rfl

lemma coreView_replyParsed (st : Mdsc) (msg : ReplyMsg) (smds : Nat) :
    coreView (replyParsed st msg smds) = coreView st := by
  unfold replyParsed
  split
  · show coreView (addCapReleases (updateReq st msg.tid
      (fun r => { r with err := - EIO })) smds (-1)) = coreView st
    have hp : coreView (addCapReleases (updateReq st msg.tid
        (fun r => { r with err := - EIO })) smds (-1)) =
        coreView (updateReq st msg.tid (fun r => { r with err := - EIO })) := by
      unfold coreView
      rw [pool_addCapReleases]
    rw [hp]
    exact coreView_updateReq st msg.tid _ (fun r => rfl) (fun r => rfl)
      (fun r => rfl) (fun r => rfl)
  · split
    · dsimp only
      split
      · rw [(doRequest_req _ msg.tid).coreView_eq]
        show coreView (updateReq (updateReq st msg.tid _) msg.tid
          (fun r => { r with sessionMds := none, fwdSessionMds := none })) = _
        rw [coreView_updateReq _ msg.tid
          (fun r => { r with sessionMds := none, fwdSessionMds := none })
          (fun r => rfl) (fun r => rfl) (fun r => rfl) (fun r => rfl)]
        exact coreView_updateReq st msg.tid _ (fun r => rfl) (fun r => rfl)
          (fun r => rfl) (fun r => rfl)
      · rw [coreView_replyFinish]
        exact coreView_updateReq st msg.tid _ (fun r => rfl) (fun r => rfl)
          (fun r => rfl) (fun r => rfl)
    · rw [coreView_replyFinish]
      exact coreView_updateReq st msg.tid _ (fun r => rfl) (fun r => rfl)
        (fun r => rfl) (fun r => rfl)

lemma slotUnsafe_replyParsed (st : Mdsc) (msg : ReplyMsg) (smds : Nat) (mm : Nat) :
    slotUnsafe (getSession (replyParsed st msg smds) mm) =
      slotUnsafe (getSession st mm) := by
  unfold replyParsed
  split
  · show slotUnsafe (getSession (addCapReleases (updateReq st msg.tid
      (fun r => { r with err := - EIO })) smds (-1)) mm) = _
    rw [slotUnsafe_addCapReleases]
    rfl
  · split
    · dsimp only
      split
      · rw [doRequest_slotUnsafe]
        rfl
      · rw [slotUnsafe_replyFinish]
        rfl
    · rw [slotUnsafe_replyFinish]
      rfl

lemma Inv_replyParsed (st : Mdsc) (msg : ReplyMsg) (smds : Nat) (hx : Inv st) :
    Inv (replyParsed st msg smds) :=
  Inv_transfer (coreView_replyParsed st msg smds)
    (fun mm => slotUnsafe_replyParsed st msg smds mm) hx

lemma Inv_markUnsafe (x : Mdsc) (tid smds : Nat) (hx : Inv x) (req : Request)
    (hfr : findRegistered x tid = some req) : Inv (markUnsafe x tid smds) := by
  obtain ⟨hnd, hreg, hul⟩ := hx
  have hmem : req ∈ x.pool := List.mem_of_find?_eq_some hfr
  have hpred : req.registered = true ∧ req.tid = tid := by
    have h2 := List.find?_some hfr
    simpa using h2
  have hgs : req.gotSafe = false := hreg req hmem hpred.1
  have huniq : ∀ r ∈ x.pool, r.tid = tid → r = req := by
    intro r hr htid2
    exact List.inj_on_of_nodup_map hnd hr hmem (by rw [htid2, hpred.2])
  have hpool : (markUnsafe x tid smds).pool =
      x.pool.map (fun r => if r.tid = tid then { r with gotUnsafe := true } else r) :=
    rfl
  refine ⟨?_, ?_, ?_⟩
  · unfold PoolNodup
    rw [hpool, List.map_map]
    have h2 : x.pool.map ((fun r => r.tid) ∘ fun r =>
        if r.tid = tid then { r with gotUnsafe := true } else r) =
        x.pool.map (fun r => r.tid) := by
      apply List.map_congr_left
      intro r hr
      dsimp [Function.comp]
      split <;> rfl
    rw [h2]
    exact hnd
  · intro r2 hr2 hreg2
    rw [hpool] at hr2
    obtain ⟨r, hr, hre⟩ := List.mem_map.mp hr2
    by_cases hrt : r.tid = tid
    · rw [if_pos hrt] at hre
      rw [← hre] at hreg2 ⊢
      exact hreg r hr hreg2
    · rw [if_neg hrt] at hre
      rw [← hre] at hreg2 ⊢
      exact hreg r hr hreg2
  · intro mm _ t ht r2 hr2 htid2
    rw [hpool] at hr2
    obtain ⟨r, hr, hre⟩ := List.mem_map.mp hr2
    have hget : getSession (markUnsafe x tid smds) mm =
        if mm = smds then (getSession x mm).map (fun s =>
          { s with unsafeReqs := s.unsafeReqs ++ [tid] }) else getSession x mm := by
      show getSession (updateSession (updateReq x tid
        (fun r => { r with gotUnsafe := true })) smds
        (fun s => { s with unsafeReqs := s.unsafeReqs ++ [tid] })) mm = _
      rw [getSession_updateSession]
      rfl
    rw [hget] at ht
    have hmain : t ∈ slotUnsafe (getSession x mm) →
        r2.gotUnsafe = true ∧ r2.gotSafe = false ∧ r2.registered = true := by
      intro hold
      have hmlt : mm < x.sessions.length := by
        by_contra hc
        rw [getSession_out_of_range x mm (Nat.le_of_not_lt hc)] at hold
        simp [slotUnsafe] at hold
      have hrt2 : r.tid = t := by
        rw [← htid2, ← hre]
        split <;> rfl
      have hres := hul mm (List.mem_range.mpr hmlt) t hold r hr hrt2
      rw [← hre]
      refine ⟨?_, ?_, ?_⟩
      · split
        · rfl
        · exact hres.1
      · split
        · exact hres.2.1
        · exact hres.2.1
      · split
        · exact hres.2.2
        · exact hres.2.2
    by_cases hmm : mm = smds
    · rw [if_pos hmm] at ht
      cases hgx : getSession x mm with
      | none =>
          rw [hgx] at ht
          simp [slotUnsafe] at ht
      | some s =>
          rw [hgx] at ht
          have ht2 : t ∈ s.unsafeReqs ∨ t = tid := by
            simpa [slotUnsafe, List.mem_append] using ht
          cases ht2 with
          | inl hold =>
              apply hmain
              rw [hgx]
              simpa [slotUnsafe] using hold
          | inr htid3 =>
              have hrt : r.tid = tid := by
                have h5 : r.tid = t := by
                  rw [← htid2, ← hre]
                  split <;> rfl
                rw [h5, htid3]
              have hr2e : r2 = { req with gotUnsafe := true } := by
                rw [← hre, if_pos hrt, huniq r hr hrt]
              rw [hr2e]
              exact ⟨rfl, hgs, hpred.1⟩
    · rw [if_neg hmm] at ht
      exact hmain ht

lemma Inv_updateReq (x : Mdsc) (t : Nat) (f : Request → Request)
    (h1 : ∀ r, (f r).tid = r.tid) (h2 : ∀ r, (f r).registered = r.registered)
    (h3 : ∀ r, (f r).gotUnsafe = r.gotUnsafe)
    (h4 : ∀ r, (f r).gotSafe = r.gotSafe) (hx : Inv x) : Inv (updateReq x t f) :=
  Inv_transfer (coreView_updateReq x t f h1 h2 h3 h4) (fun mm => rfl) hx

lemma Inv_replyStage3_of_req (x : Mdsc) (msg : ReplyMsg) (req : Request)
    (hfr : findRegistered x msg.tid = some req) (hx : Inv x) :
    Inv (replyStage3 x msg) := by
  have hxu : Inv (updateReq x msg.tid (fun r =>
      { r with sessionMds := sessionRankIfPresent x msg.srcMds })) :=
    Inv_updateReq x msg.tid _ (fun r => rfl) (fun r => rfl) (fun r => rfl)
      (fun r => rfl) hx
  have hfru : findRegistered (updateReq x msg.tid (fun r =>
      { r with sessionMds := sessionRankIfPresent x msg.srcMds })) msg.tid =
      some { req with sessionMds := sessionRankIfPresent x msg.srcMds } := by
    rw [findRegistered_updateReq _ msg.tid (fun r =>
      { r with sessionMds := sessionRankIfPresent x msg.srcMds })
      (fun r => rfl) (fun r => rfl), hfr]
    rfl
  unfold replyStage3
  dsimp only
  repeat' split
  all_goals
    first
      | exact hx
      | exact hxu
      | exact Inv_replyParsed _ msg _ hx
      | exact Inv_replyParsed _ msg _ hxu
      | exact Inv_replyParsed _ msg _ (Inv_markUnsafe x msg.tid _ hx req hfr)
      | exact Inv_replyParsed _ msg _ (Inv_markUnsafe _ msg.tid _ hxu _ hfru)

lemma Inv_replyStage3_safe (x : Mdsc) (msg : ReplyMsg) (hsafe : msg.safe = true)
    (hx : Inv x) : Inv (replyStage3 x msg) := by
  have hxu : Inv (updateReq x msg.tid (fun r =>
      { r with sessionMds := sessionRankIfPresent x msg.srcMds })) :=
    Inv_updateReq x msg.tid _ (fun r => rfl) (fun r => rfl) (fun r => rfl)
      (fun r => rfl) hx
  unfold replyStage3
  dsimp only
  repeat' split
  all_goals
    first
      | exact hx
      | exact hxu
      | exact Inv_replyParsed _ msg _ hx
      | exact Inv_replyParsed _ msg _ hxu
      | exact absurd hsafe (by assumption)

lemma sessions_unregisterRequest (y : Mdsc) (t : Nat) :
    (unregisterRequest y t).sessions = y.sessions := by
  unfold unregisterRequest
  dsimp only
  split <;> rfl

lemma pool_unregisterRequest (y : Mdsc) (t : Nat) :
    (unregisterRequest y t).pool =
      (updateReq y t (fun r => { r with registered := false })).pool := by
  unfold unregisterRequest
  dsimp only
  split <;> rfl

lemma pool_safe_unreg (x : Mdsc) (tid : Nat) :
    (logEvent (unregisterRequest (updateReq x tid
      (fun r => { r with gotSafe := true })) tid) (REvent.completeSafe tid)).pool =
      (x.pool.map (fun r => if r.tid = tid then { r with gotSafe := true } else r)).map
        (fun r => if r.tid = tid then { r with registered := false } else r) := by
  show (unregisterRequest (updateReq x tid
    (fun r => { r with gotSafe := true })) tid).pool = _
  rw [pool_unregisterRequest]
  rfl

lemma getSession_safe_unreg (x : Mdsc) (tid mm : Nat) :
    getSession (logEvent (unregisterRequest (updateReq x tid
      (fun r => { r with gotSafe := true })) tid) (REvent.completeSafe tid)) mm =
      getSession x mm := by
  show getSession (unregisterRequest (updateReq x tid
    (fun r => { r with gotSafe := true })) tid) mm = _
  apply getSession_of_sessions_eq
  rw [sessions_unregisterRequest]
  rfl

lemma mem_pool_safe_unreg {x : Mdsc} {tid : Nat} {r2 : Request}
    (hr2 : r2 ∈ (logEvent (unregisterRequest (updateReq x tid
      (fun r => { r with gotSafe := true })) tid) (REvent.completeSafe tid)).pool)
    (hne : r2.tid ≠ tid) : r2 ∈ x.pool := by
  rw [pool_safe_unreg] at hr2
  obtain ⟨v, hv, hve⟩ := List.mem_map.mp hr2
  obtain ⟨r, hr, hre⟩ := List.mem_map.mp hv
  by_cases hrt : r.tid = tid
  · exfalso
    apply hne
    have hvt : v.tid = tid := by
      rw [← hre, if_pos hrt]
      exact hrt
    rw [← hve, if_pos hvt]
    exact hvt
  · have hv2 : v = r := by rw [← hre, if_neg hrt]
    have hr2e : r2 = r := by rw [← hve, hv2, if_neg hrt]
    rw [hr2e]
    exact hr

lemma tids_safe_unreg (x : Mdsc) (tid : Nat) :
    (logEvent (unregisterRequest (updateReq x tid
      (fun r => { r with gotSafe := true })) tid)
      (REvent.completeSafe tid)).pool.map (fun r => r.tid) =
      x.pool.map (fun r => r.tid) := by
  rw [pool_safe_unreg, List.map_map, List.map_map]
  apply List.map_congr_left
  intro r hr
  dsimp [Function.comp]
  by_cases hrt : r.tid = tid
  · simp [hrt]
  · simp [hrt]

lemma PoolNodup_safe_unreg (x : Mdsc) (tid : Nat) (hnd : PoolNodup x) :
    PoolNodup (logEvent (unregisterRequest (updateReq x tid
      (fun r => { r with gotSafe := true })) tid) (REvent.completeSafe tid)) := by
  unfold PoolNodup
  rw [tids_safe_unreg]
  exact hnd

lemma RegInv_safe_unreg (x : Mdsc) (tid : Nat) (hreg : RegInv x) :
    RegInv (logEvent (unregisterRequest (updateReq x tid
      (fun r => { r with gotSafe := true })) tid) (REvent.completeSafe tid)) := by
  intro r2 hr2 hreg2
  rw [pool_safe_unreg] at hr2
  obtain ⟨v, hv, hve⟩ := List.mem_map.mp hr2
  obtain ⟨r, hr, hre⟩ := List.mem_map.mp hv
  by_cases hvt : v.tid = tid
  · rw [← hve, if_pos hvt] at hreg2
    exact Bool.noConfusion hreg2
  · rw [← hve, if_neg hvt] at hreg2 ⊢
    by_cases hrt : r.tid = tid
    · exfalso
      apply hvt
      rw [← hre, if_pos hrt]
      exact hrt
    · have hv2 : v = r := by rw [← hre, if_neg hrt]
      rw [hv2] at hreg2 ⊢
      exact hreg r hr hreg2

lemma Inv_safe_unreg (x : Mdsc) (tid : Nat) (hx : Inv x) (req : Request)
    (hfr : findRegistered x tid = some req) (hgu : req.gotUnsafe = false) :
    Inv (logEvent (unregisterRequest (updateReq x tid
      (fun r => { r with gotSafe := true })) tid) (REvent.completeSafe tid)) := by
  obtain ⟨hnd, hreg, hul⟩ := hx
  have hmem : req ∈ x.pool := List.mem_of_find?_eq_some hfr
  have hpred : req.registered = true ∧ req.tid = tid := by
    simpa using List.find?_some hfr
  have htno : ∀ mm, tid ∉ slotUnsafe (getSession x mm) := by
    intro mm hc
    have hmlt : mm < x.sessions.length := by
      by_contra h2
      rw [getSession_out_of_range x mm (Nat.le_of_not_lt h2)] at hc
      simp [slotUnsafe] at hc
    have hres := hul mm (List.mem_range.mpr hmlt) tid hc req hmem hpred.2
    rw [hgu] at hres
    exact Bool.noConfusion hres.1
  refine ⟨PoolNodup_safe_unreg x tid hnd, RegInv_safe_unreg x tid hreg, ?_⟩
  intro mm _ t ht r2 hr2 htid2
  rw [getSession_safe_unreg] at ht
  have hmlt : mm < x.sessions.length := by
    by_contra h2
    rw [getSession_out_of_range x mm (Nat.le_of_not_lt h2)] at ht
    simp [slotUnsafe] at ht
  have htne : t ≠ tid := fun he => htno mm (he ▸ ht)
  have hr2mem : r2 ∈ x.pool :=
    mem_pool_safe_unreg hr2 (by rw [htid2]; exact htne)
  exact hul mm (List.mem_range.mpr hmlt) t ht r2 hr2mem htid2

lemma slotUnsafe_removeUnsafeItem (y : Mdsc) (tid mm : Nat) :
    slotUnsafe (getSession (removeUnsafeItem y tid) mm) =
      (slotUnsafe (getSession y mm)).filter (fun t2 => t2 ≠ tid) := by
  unfold removeUnsafeItem
  rw [getSession_mapAll]
  cases getSession y mm <;> rfl

lemma Inv_safe_removed (x : Mdsc) (tid : Nat) (hx : Inv x) :
    Inv (removeUnsafeItem (logEvent (unregisterRequest (updateReq x tid
      (fun r => { r with gotSafe := true })) tid) (REvent.completeSafe tid)) tid) := by
  obtain ⟨hnd, hreg, hul⟩ := hx
  refine ⟨PoolNodup_safe_unreg x tid hnd, RegInv_safe_unreg x tid hreg, ?_⟩
  intro mm _ t ht r2 hr2 htid2
  rw [slotUnsafe_removeUnsafeItem] at ht
  obtain ⟨ht1, ht2⟩ := List.mem_filter.mp ht
  have htne : t ≠ tid := by simpa using ht2
  rw [getSession_safe_unreg] at ht1
  have hmlt : mm < x.sessions.length := by
    by_contra h2
    rw [getSession_out_of_range x mm (Nat.le_of_not_lt h2)] at ht1
    simp [slotUnsafe] at ht1
  have hr2mem : r2 ∈ x.pool :=
    mem_pool_safe_unreg hr2 (by rw [htid2]; exact htne)
  exact hul mm (List.mem_range.mpr hmlt) t ht1 r2 hr2mem htid2

lemma findPool_doRequest_other (st : Mdsc) (t tid : Nat) (hne : tid ≠ t) :
    findPool (doRequest st t) tid = findPool st tid := by
  obtain ⟨g, hg, hp⟩ := doRequest_req st t
  unfold findPool
  rw [hp]
  exact find?_update_other st.pool t tid g (fun r => (hg r).1) hne

lemma findPool_kickOne_other (st : Mdsc) (mds : Nat) (all : Bool) (t tid : Nat)
    (hne : tid ≠ t) :
    findPool (kickOne st mds all t) tid = findPool st tid := by
  unfold kickOne
  split
  · rfl
  · split
    · rfl
    · split
      · rw [findPool_doRequest_other _ t tid hne]
        show findPool (updateReq st t
          (fun r => { r with sessionMds := none, fwdSessionMds := none })) tid = _
        exact findPool_updateReq_other st t tid
          (fun r => { r with sessionMds := none, fwdSessionMds := none })
          (fun r => rfl) hne
      · rfl

lemma lastTid_kickOne (st : Mdsc) (mds : Nat) (all : Bool) (t : Nat) :
    (kickOne st mds all t).lastTid = st.lastTid := by
  unfold kickOne
  split
  · rfl
  · split
    · rfl
    · split
      · rw [doRequest_lastTid]
        rfl
      · rfl

lemma events_kickOne_mono (st : Mdsc) (mds : Nat) (all : Bool) (t : Nat) :
    ∃ suf, (kickOne st mds all t).events = st.events ++ suf := by
  unfold kickOne
  split
  · exact ⟨[], by simp⟩
  · split
    · exact ⟨[], by simp⟩
    · split
      · obtain ⟨extra, hev, hex⟩ := doRequest_events (putRequestSessions st t) t
        refine ⟨[REvent.putSessions t, REvent.doReq t] ++ extra, ?_⟩
        rw [hev]
        simp [putRequestSessions, logEvent]
      · exact ⟨[], by simp⟩

lemma findPool_kickBatch_other (mds : Nat) (all : Bool) :
    ∀ (tids : List Nat) (st : Mdsc) (tid : Nat), tid ∉ tids →
      findPool (kickBatch st mds all tids) tid = findPool st tid := by
  intro tids
  induction tids with
  | nil => intro st tid hni; rfl
  | cons t rest ih =>
      intro st tid hni
      show findPool (kickBatch (kickOne st mds all t) mds all rest) tid = _
      rw [ih (kickOne st mds all t) tid (fun hc => hni (List.mem_cons_of_mem t hc))]
      exact findPool_kickOne_other st mds all t tid
        (fun he => hni (he ▸ List.mem_cons_self t rest))

lemma lastTid_kickBatch (mds : Nat) (all : Bool) :
    ∀ (tids : List Nat) (st : Mdsc),
      (kickBatch st mds all tids).lastTid = st.lastTid := by
  intro tids
  induction tids with
  | nil => intro st; rfl
  | cons t rest ih =>
      intro st
      show (kickBatch (kickOne st mds all t) mds all rest).lastTid = _
      rw [ih (kickOne st mds all t), lastTid_kickOne]

lemma events_kickBatch_mono (mds : Nat) (all : Bool) :
    ∀ (tids : List Nat) (st : Mdsc),
      ∃ suf, (kickBatch st mds all tids).events = st.events ++ suf := by
  intro tids
  induction tids with
  | nil => intro st; exact ⟨[], by simp [kickBatch]⟩
  | cons t rest ih =>
      intro st
      obtain ⟨s1, h1⟩ := events_kickOne_mono st mds all t
      obtain ⟨s2, h2⟩ := ih (kickOne st mds all t)
      refine ⟨s1 ++ s2, ?_⟩
      show (kickBatch (kickOne st mds all t) mds all rest).events = _
      rw [h2, h1, List.append_assoc]

lemma events_kickLoop_mono (mds : Nat) (all : Bool) :
    ∀ (fuel : Nat) (st : Mdsc) (nexttid : Nat),
      ∃ suf, (kickLoop mds all st nexttid fuel).events = st.events ++ suf := by
  intro fuel
  induction fuel with
  | zero => intro st nexttid; exact ⟨[], by simp [kickLoop]⟩
  | succ n ih =>
      intro st nexttid
      show ∃ suf, (if nexttid ≤ st.lastTid then
          match gangTids st nexttid 10 with
          | [] => st
          | t :: ts =>
              kickLoop mds all (kickBatch st mds all (t :: ts))
                ((t :: ts).getLast (List.cons_ne_nil t ts) + 1) n
        else st).events = st.events ++ suf
      split
      · split
        · exact ⟨[], by simp⟩
        · rename_i t ts heq
          obtain ⟨s1, h1⟩ := events_kickBatch_mono mds all (t :: ts) st
          obtain ⟨s2, h2⟩ := ih (kickBatch st mds all (t :: ts))
            ((t :: ts).getLast (List.cons_ne_nil t ts) + 1)
          exact ⟨s1 ++ s2, by rw [h2, h1, List.append_assoc]⟩
      · exact ⟨[], by simp⟩

lemma kickOne_fires (st : Mdsc) (mds : Nat) (all : Bool) (tid : Nat) (r : Request)
    (hfp : findPool st tid = some r) (hgu : r.gotUnsafe = false)
    (hsess : r.sessionMds = some mds ∨ (all = true ∧ r.fwdSessionMds = some mds)) :
    REvent.putSessions tid ∈ (kickOne st mds all tid).events ∧
    REvent.doReq tid ∈ (kickOne st mds all tid).events := by
  unfold kickOne
  rw [hfp]
  dsimp only
  rw [if_neg (show ¬ r.gotUnsafe = true by rw [hgu]; exact Bool.false_ne_true)]
  rw [if_pos hsess]
  obtain ⟨extra, hev, hex⟩ := doRequest_events (putRequestSessions st tid) tid
  rw [hev]
  constructor
  · simp [putRequestSessions, logEvent]
  · simp [putRequestSessions, logEvent]

lemma kickBatch_fires (mds : Nat) (all : Bool) :
    ∀ (tids : List Nat) (st : Mdsc) (tid : Nat) (r : Request),
      tid ∈ tids → findPool st tid = some r → r.gotUnsafe = false →
      (r.sessionMds = some mds ∨ (all = true ∧ r.fwdSessionMds = some mds)) →
      REvent.putSessions tid ∈ (kickBatch st mds all tids).events ∧
      REvent.doReq tid ∈ (kickBatch st mds all tids).events := by
  intro tids
  induction tids with
  | nil => intro st tid r hmem; cases hmem
  | cons t rest ih =>
      intro st tid r hmem hfp hgu hsess
      show REvent.putSessions tid ∈
          (kickBatch (kickOne st mds all t) mds all rest).events ∧
        REvent.doReq tid ∈ (kickBatch (kickOne st mds all t) mds all rest).events
      by_cases hte : t = tid
      · subst hte
        have hfire := kickOne_fires st mds all t r hfp hgu hsess
        obtain ⟨suf, hsuf⟩ := events_kickBatch_mono mds all rest (kickOne st mds all t)
        rw [hsuf]
        exact ⟨List.mem_append_left _ hfire.1, List.mem_append_left _ hfire.2⟩
      · have hmem2 : tid ∈ rest :=
          (List.mem_cons.mp hmem).resolve_left (fun he => hte he.symm)
        have hfp2 : findPool (kickOne st mds all t) tid = some r := by
          rw [findPool_kickOne_other st mds all t tid (fun he => hte he.symm)]
          exact hfp
        exact ih (kickOne st mds all t) tid r hmem2 hfp2 hgu hsess

lemma tid_mem_registeredTids (st : Mdsc) (tid : Nat) (r : Request)
    (hfp : findPool st tid = some r) (hreg : r.registered = true) :
    tid ∈ registeredTids st := by
  have hm : r ∈ st.pool := List.mem_of_find?_eq_some hfp
  have hp : r.tid = tid := by simpa using List.find?_some hfp
  unfold registeredTids
  exact List.mem_map.mpr ⟨r, List.mem_filter.mpr ⟨hm, by simp [hreg]⟩, hp⟩

set_option maxHeartbeats 1000000 in
lemma kickLoop_fires (mds : Nat) (all : Bool) :
    ∀ (fuel : Nat) (st : Mdsc) (nexttid tid : Nat) (r : Request),
      findPool st tid = some r → r.registered = true → r.gotUnsafe = false →
      (r.sessionMds = some mds ∨ (all = true ∧ r.fwdSessionMds = some mds)) →
      nexttid ≤ tid → tid ≤ st.lastTid → tid + 1 ≤ nexttid + fuel →
      REvent.putSessions tid ∈ (kickLoop mds all st nexttid fuel).events ∧
      REvent.doReq tid ∈ (kickLoop mds all st nexttid fuel).events := by
  intro fuel
  induction fuel with
  | zero =>
      intro st nexttid tid r hfp hreg hgu hsess hnt htl hfu
      omega
  | succ n ih =>
      intro st nexttid tid r hfp hreg hgu hsess hnt htl hfu
      have hmemS : tid ∈ ((registeredTids st).filter
          (fun t => nexttid ≤ t)).insertionSort (· ≤ ·) := by
        rw [(List.perm_insertionSort (· ≤ ·) _).mem_iff]
        exact List.mem_filter.mpr ⟨tid_mem_registeredTids st tid r hfp hreg,
          by simpa using hnt⟩
      have hbody : kickLoop mds all st nexttid (n + 1) =
          (if nexttid ≤ st.lastTid then
            match gangTids st nexttid 10 with
            | [] => st
            | t :: ts =>
                kickLoop mds all (kickBatch st mds all (t :: ts))
                  ((t :: ts).getLast (List.cons_ne_nil t ts) + 1) n
          else st) := rfl
      rw [hbody, if_pos (Nat.le_trans hnt htl)]
      cases heq : gangTids st nexttid 10 with
      | nil =>
          exfalso
          have hSnil : ((registeredTids st).filter
              (fun t => nexttid ≤ t)).insertionSort (· ≤ ·) = [] := by
            have h10 := heq
            unfold gangTids at h10
            rcases List.take_eq_nil_iff.mp h10 with h | h
            · exact absurd h (by decide)
            · exact h
          rw [hSnil] at hmemS
          cases hmemS
      | cons t ts =>
          dsimp only
          have hS : (((registeredTids st).filter
              (fun t => nexttid ≤ t)).insertionSort (· ≤ ·)).take 10 = t :: ts := heq
          by_cases hin : tid ∈ t :: ts
          · have hfire := kickBatch_fires mds all (t :: ts) st tid r hin hfp hgu hsess
            obtain ⟨suf, hsuf⟩ := events_kickLoop_mono mds all n
              (kickBatch st mds all (t :: ts))
              ((t :: ts).getLast (List.cons_ne_nil t ts) + 1)
            rw [hsuf]
            exact ⟨List.mem_append_left _ hfire.1, List.mem_append_left _ hfire.2⟩
          · have hlastmem : (t :: ts).getLast (List.cons_ne_nil t ts) ∈ t :: ts :=
              List.getLast_mem (List.cons_ne_nil t ts)
            have hlastS : (t :: ts).getLast (List.cons_ne_nil t ts) ∈
                (((registeredTids st).filter (fun t => nexttid ≤ t)).insertionSort
                  (· ≤ ·)).take 10 := by
              rw [hS]
              exact hlastmem
            have hnl : nexttid ≤ (t :: ts).getLast (List.cons_ne_nil t ts) := by
              have h2 := (List.perm_insertionSort (· ≤ ·) _).mem_iff.mp
                (List.mem_of_mem_take hlastS)
              simpa using (List.mem_filter.mp h2).2
            have htidDrop : tid ∈ (((registeredTids st).filter
                (fun t => nexttid ≤ t)).insertionSort (· ≤ ·)).drop 10 := by
              have h3 := hmemS
              rw [← List.take_append_drop 10 (((registeredTids st).filter
                (fun t => nexttid ≤ t)).insertionSort (· ≤ ·))] at h3
              rcases List.mem_append.mp h3 with h4 | h4
              · rw [hS] at h4
                exact absurd h4 hin
              · exact h4
            have hlast_le : (t :: ts).getLast (List.cons_ne_nil t ts) ≤ tid := by
              have hsorted : (((registeredTids st).filter
                  (fun t => nexttid ≤ t)).insertionSort (· ≤ ·)).Sorted (· ≤ ·) :=
                List.sorted_insertionSort (· ≤ ·) _
              have hpw := hsorted
              rw [← List.take_append_drop 10 (((registeredTids st).filter
                (fun t => nexttid ≤ t)).insertionSort (· ≤ ·))] at hpw
              exact (List.pairwise_append.mp hpw).2.2 _ hlastS _ htidDrop
            have hlast_lt : (t :: ts).getLast (List.cons_ne_nil t ts) < tid := by
              rcases Nat.lt_or_ge ((t :: ts).getLast (List.cons_ne_nil t ts)) tid
                with h5 | h5
              · exact h5
              · exfalso
                have h6 : (t :: ts).getLast (List.cons_ne_nil t ts) = tid :=
                  Nat.le_antisymm hlast_le h5
                rw [h6] at hlastmem
                exact hin hlastmem
            have hfp2 : findPool (kickBatch st mds all (t :: ts)) tid = some r := by
              rw [findPool_kickBatch_other mds all (t :: ts) st tid hin]
              exact hfp
            have htl2 : tid ≤ (kickBatch st mds all (t :: ts)).lastTid := by
              rw [lastTid_kickBatch]
              exact htl
            exact ih (kickBatch st mds all (t :: ts))
              ((t :: ts).getLast (List.cons_ne_nil t ts) + 1) tid r
              hfp2 hreg hgu hsess hlast_lt htl2 (by omega)

lemma kickRequests_fires (st : Mdsc) (mds : Nat) (all : Bool) (tid : Nat)
    (r : Request) (hfp : findPool st tid = some r) (hreg : r.registered = true)
    (hgu : r.gotUnsafe = false)
    (hsess : r.sessionMds = some mds ∨ (all = true ∧ r.fwdSessionMds = some mds))
    (htl : tid ≤ st.lastTid) :
    REvent.putSessions tid ∈ (kickRequests st mds all).events ∧
    REvent.doReq tid ∈ (kickRequests st mds all).events :=
  kickLoop_fires mds all (st.lastTid + 1) st 0 tid r hfp hreg hgu hsess
    (Nat.zero_le tid) htl (by omega)

end MdsClient

/-- C4 (counterexample): a lease message from the MDS of a hung session
does not bring the session back to open — `handle_lease` only bumps the
sequence number and takes the release path, leaving the state hung. -/
theorem lease_message_leaves_session_hung :
    MdsClient.sessionStateAt
      (MdsClient.handleLease MdsClient.hungSessState
        { srcMds := 0, action := MdsClient.LEASE_REVOKE, ino := 1, nameHash := 7,
          durationMs := 0, seq := 3, mask := 1 }) 0 =
      some MdsClient.SessState.hung := by decide

/-- C4 (amended): a hung session is reopened only by `handle_session`.
Replies, forwards and leases from the MDS of a hung session never change
its state (the lease handler changes no session state at all), while any
session message other than a close — and other than an open arriving
while the client is stopping — flips the hung session back to open. -/
theorem hung_session_reopen (st : MdsClient.Mdsc) (m : Nat)
    (hh : MdsClient.sessionStateAt st m = some MdsClient.SessState.hung) :
    (∀ lm : MdsClient.LeaseMsg,
        MdsClient.sessionStateAt (MdsClient.handleLease st lm) m =
          some MdsClient.SessState.hung) ∧
    (∀ rm : MdsClient.ReplyMsg,
        MdsClient.sessionStateAt (MdsClient.handleReply st rm) m =
          some MdsClient.SessState.hung) ∧
    (∀ fm : MdsClient.FwdMsg, ∀ st2 : MdsClient.Mdsc,
        MdsClient.handleForward st fm = some st2 →
          MdsClient.sessionStateAt st2 m = some MdsClient.SessState.hung) ∧
    (∀ op seq maxCaps : Nat, op ≠ MdsClient.SESSION_CLOSE →
        (op = MdsClient.SESSION_OPEN → st.stopping = false) →
          MdsClient.sessionStateAt (MdsClient.handleSession st m op seq maxCaps) m =
            some MdsClient.SessState.opened) := by
  refine ⟨?_, ?_, ?_, ?_⟩
  · intro lm
    rw [MdsClient.sessionStateAt_handleLease]
    exact hh
  · intro rm
    exact MdsClient.sessionStateAt_handleReply st rm m MdsClient.SessState.hung
      (Or.inr rfl) hh
  · intro fm st2 hf
    exact MdsClient.sessionStateAt_handleForward st fm st2 m MdsClient.SessState.hung
      (Or.inr rfl) hf hh
  · intro op seq maxCaps h1 h2
    exact MdsClient.handleSession_hung_open st m op seq maxCaps hh h1 h2

/-- Witness for `hung_session_reopen`: at the concrete one-hung-session
state, a revoke lease leaves the session hung while a renew-caps session
message reopens it. -/
theorem hung_session_reopen_witness :
    MdsClient.sessionStateAt
      (MdsClient.handleLease MdsClient.hungSessState
        { srcMds := 0, action := MdsClient.LEASE_RENEW, ino := 1, nameHash := 7,
          durationMs := 0, seq := 3, mask := 1 }) 0 =
        some MdsClient.SessState.hung ∧
    MdsClient.sessionStateAt
      (MdsClient.handleSession MdsClient.hungSessState 0
        MdsClient.SESSION_RENEWCAPS 5 0) 0 = some MdsClient.SessState.opened :=
  ⟨(hung_session_reopen MdsClient.hungSessState 0 (by decide)).1
      { srcMds := 0, action := MdsClient.LEASE_RENEW, ino := 1, nameHash := 7,
        durationMs := 0, seq := 3, mask := 1 },
   (hung_session_reopen MdsClient.hungSessState 0 (by decide)).2.2.2
      MdsClient.SESSION_RENEWCAPS 5 0 (by decide) (fun h => by decide)⟩

/-- C6: on an `ESTALE` reply the request is retried at most twice.
While the pre-increment stale count is below 2, the handler switches
target selection to the auth MDS, bumps `r_num_stale`, drops the session
references and re-enters `__do_request` (the ghost log gains
`putSessions` then `doReq`); at stale count 2 the third consecutive
`ESTALE` is surfaced: the reply is stored for the caller and the request
completed; any non-`ESTALE` result resets `r_num_stale` to 0. -/
theorem handle_reply_estale (st : MdsClient.Mdsc) (msg : MdsClient.ReplyMsg)
    (smds : Nat) (req : MdsClient.Request)
    (hreq : MdsClient.findPool st msg.tid = some req)
    (hparse : msg.parseOk = true) :
    ((msg.result = -MdsClient.ESTALE ∧ req.numStale < 2) →
      (MdsClient.findPool (MdsClient.replyParsed st msg smds) msg.tid).map
          (fun r => (r.directMode, r.numStale)) =
        some (MdsClient.DirectMode.authMds, req.numStale + 1) ∧
      ∃ extra, (MdsClient.replyParsed st msg smds).events =
        st.events ++ [MdsClient.REvent.putSessions msg.tid,
          MdsClient.REvent.doReq msg.tid] ++ extra) ∧
    ((msg.result = -MdsClient.ESTALE ∧ 2 ≤ req.numStale) →
      (MdsClient.findPool (MdsClient.replyParsed st msg smds) msg.tid).map
          (fun r => (r.directMode, r.numStale, r.reply)) =
        some (MdsClient.DirectMode.authMds, req.numStale + 1,
          some (MdsClient.ReplyVal.rmsg msg)) ∧
      ∃ pre, (MdsClient.replyParsed st msg smds).events =
        st.events ++ pre ++ [MdsClient.REvent.completeReq msg.tid]) ∧
    (msg.result ≠ -MdsClient.ESTALE →
      (MdsClient.findPool (MdsClient.replyParsed st msg smds) msg.tid).map
          (fun r => r.numStale) = some 0) := by
  have hparse2 : ¬ ¬ msg.parseOk = true := fun hc => hc hparse
  have hfind1 : MdsClient.findPool (MdsClient.updateReq st msg.tid (fun r =>
      { r with directMode := MdsClient.DirectMode.authMds,
               numStale := r.numStale + 1 })) msg.tid =
      some { req with directMode := MdsClient.DirectMode.authMds,
                      numStale := req.numStale + 1 } := by
    rw [MdsClient.findPool_updateReq _ msg.tid (fun r =>
      { r with directMode := MdsClient.DirectMode.authMds,
               numStale := r.numStale + 1 }) (fun r => rfl), hreq]
    rfl
  refine ⟨?_, ?_, ?_⟩
  · rintro ⟨hres, hlt⟩
    unfold MdsClient.replyParsed
    rw [if_neg hparse2, if_pos hres]
    dsimp only
    have hcur : MdsClient.currentNumStale (MdsClient.updateReq st msg.tid (fun r =>
        { r with directMode := MdsClient.DirectMode.authMds,
                 numStale := r.numStale + 1 })) msg.tid ≤ 2 := by
      unfold MdsClient.currentNumStale
      rw [hfind1]
      exact Nat.succ_le_of_lt hlt
    rw [if_pos hcur]
    constructor
    · have hmut : MdsClient.ReqMut msg.tid
          (MdsClient.putRequestSessions (MdsClient.updateReq st msg.tid (fun r =>
            { r with directMode := MdsClient.DirectMode.authMds,
                     numStale := r.numStale + 1 })) msg.tid)
          (MdsClient.doRequest (MdsClient.putRequestSessions (MdsClient.updateReq st
            msg.tid (fun r =>
            { r with directMode := MdsClient.DirectMode.authMds,
                     numStale := r.numStale + 1 })) msg.tid) msg.tid) :=
        MdsClient.doRequest_req _ msg.tid
      rw [hmut.findPool_proj]
      have hput : MdsClient.findPool (MdsClient.putRequestSessions
          (MdsClient.updateReq st msg.tid (fun r =>
            { r with directMode := MdsClient.DirectMode.authMds,
                     numStale := r.numStale + 1 })) msg.tid) msg.tid =
          (MdsClient.findPool (MdsClient.updateReq st msg.tid (fun r =>
            { r with directMode := MdsClient.DirectMode.authMds,
                     numStale := r.numStale + 1 })) msg.tid).map (fun r =>
            { r with sessionMds := none, fwdSessionMds := none }) := by
        unfold MdsClient.putRequestSessions
        show MdsClient.findPool (MdsClient.updateReq _ msg.tid _) msg.tid = _
        exact MdsClient.findPool_updateReq _ msg.tid (fun r =>
          { r with sessionMds := none, fwdSessionMds := none }) (fun r => rfl)
      rw [hput, hfind1]
      rfl
    · obtain ⟨extra, hev, hex⟩ := MdsClient.doRequest_events
        (MdsClient.putRequestSessions (MdsClient.updateReq st msg.tid (fun r =>
          { r with directMode := MdsClient.DirectMode.authMds,
                   numStale := r.numStale + 1 })) msg.tid) msg.tid
      refine ⟨extra, ?_⟩
      rw [hev]
      show (MdsClient.updateReq st msg.tid (fun r =>
        { r with directMode := MdsClient.DirectMode.authMds,
                 numStale := r.numStale + 1 })).events ++
          [MdsClient.REvent.putSessions msg.tid] ++ [MdsClient.REvent.doReq msg.tid] ++
          extra = _
      rw [MdsClient.events_updateReq]
      simp [List.append_assoc]
  · rintro ⟨hres, hge⟩
    unfold MdsClient.replyParsed
    rw [if_neg hparse2, if_pos hres]
    dsimp only
    have hcur : ¬ MdsClient.currentNumStale (MdsClient.updateReq st msg.tid (fun r =>
        { r with directMode := MdsClient.DirectMode.authMds,
                 numStale := r.numStale + 1 })) msg.tid ≤ 2 := by
      unfold MdsClient.currentNumStale
      rw [hfind1]
      show ¬ req.numStale + 1 ≤ 2
      omega
    rw [if_neg hcur]
    constructor
    · rw [MdsClient.findPool_replyFinish, hfind1]
      rfl
    · obtain ⟨pre, hpre⟩ := MdsClient.events_replyFinish (MdsClient.updateReq st msg.tid
        (fun r => { r with directMode := MdsClient.DirectMode.authMds,
                           numStale := r.numStale + 1 })) msg smds
      refine ⟨pre, ?_⟩
      rw [hpre, MdsClient.events_updateReq]
  · intro hres
    unfold MdsClient.replyParsed
    rw [if_neg hparse2, if_neg hres]
    rw [MdsClient.findPool_replyFinish]
    rw [MdsClient.findPool_updateReq _ msg.tid (fun r => { r with numStale := 0 })
      (fun r => rfl), hreq]
    rfl

/-- Witness for `handle_reply_estale`: one registered request with stale
count 0 and an `ESTALE` reply for it — the retry branch applies, leaving
auth-MDS targeting with stale count 1 and the re-dispatch events. -/
theorem handle_reply_estale_witness :
    (MdsClient.findPool MdsClient.oneReqState 1 = some (MdsClient.regReq 1) ∧
      ((-MdsClient.ESTALE : Int) = -MdsClient.ESTALE ∧
        (MdsClient.regReq 1).numStale < 2)) ∧
    ((MdsClient.findPool (MdsClient.replyParsed MdsClient.oneReqState
        { srcMds := 0, tid := 1, safe := false, parseOk := true,
          result := -MdsClient.ESTALE, op := 0, snapBlobLen := 0, dirNr := 0,
          trace := 0 } 0) 1).map (fun r => (r.directMode, r.numStale)) =
      some (MdsClient.DirectMode.authMds, (MdsClient.regReq 1).numStale + 1) ∧
      ∃ extra, (MdsClient.replyParsed MdsClient.oneReqState
        { srcMds := 0, tid := 1, safe := false, parseOk := true,
          result := -MdsClient.ESTALE, op := 0, snapBlobLen := 0, dirNr := 0,
          trace := 0 } 0).events =
        MdsClient.oneReqState.events ++ [MdsClient.REvent.putSessions 1,
          MdsClient.REvent.doReq 1] ++ extra) :=
  ⟨⟨by decide, by decide⟩,
   (handle_reply_estale MdsClient.oneReqState
      { srcMds := 0, tid := 1, safe := false, parseOk := true,
        result := -MdsClient.ESTALE, op := 0, snapBlobLen := 0, dirNr := 0,
        trace := 0 } 0 (MdsClient.regReq 1) (by decide) rfl).1 (by decide)⟩

/-- C7: `handle_reply` is idempotent — delivering the same reply message
twice yields exactly the state after one delivery.  A safe reply leaves
the tid unregistered, so the second delivery misses the lookup; an
unsafe reply that was recorded leaves `r_got_unsafe` set, so the second
delivery is dropped as a duplicate before any mutation; the remaining
paths (unknown tid, duplicate, no session for the reply) leave the state
they return unchanged under redelivery. -/
theorem handle_reply_idempotent (st : MdsClient.Mdsc) (msg : MdsClient.ReplyMsg) :
    MdsClient.handleReply (MdsClient.handleReply st msg) msg =
      MdsClient.handleReply st msg := by
  cases hfr : MdsClient.findRegistered st msg.tid with
  | none =>
      have hR : MdsClient.handleReply st msg = st :=
        MdsClient.handleReply_of_none st msg hfr
      rw [hR]
      exact hR
  | some req =>
      by_cases hdup : (req.gotUnsafe = true ∧ ¬ msg.safe = true) ∨
          (req.gotSafe = true ∧ msg.safe = true)
      · have hR : MdsClient.handleReply st msg = st := by
          unfold MdsClient.handleReply
          rw [hfr]
          dsimp only
          rw [if_pos hdup]
        rw [hR]
        exact hR
      · by_cases hsafe : msg.safe = true
        · exact MdsClient.handleReply_of_none _ msg
            (MdsClient.findRegistered_handleReply_safe_none st msg req hfr hsafe hdup)
        · have hgu : req.gotUnsafe = false := by
            cases hg : req.gotUnsafe
            · rfl
            · exact absurd (Or.inl ⟨hg, hsafe⟩) hdup
          rw [MdsClient.handleReply_unsafe_eq st msg req hfr hgu hsafe]
          cases hfp : MdsClient.findPool st msg.tid with
          | none =>
              have hc0 : (MdsClient.findPool st msg.tid).bind
                  (fun r => r.sessionMds) = none := by
                rw [hfp]
                rfl
              have hS3 : MdsClient.replyStage3 st msg = st := by
                unfold MdsClient.replyStage3
                dsimp only
                simp only [hc0]
              rw [hS3, MdsClient.handleReply_unsafe_eq st msg req hfr hgu hsafe]
              exact hS3
          | some r0 =>
              cases hsm : r0.sessionMds with
              | none =>
                  have hc0 : (MdsClient.findPool st msg.tid).bind
                      (fun r => r.sessionMds) = none := by
                    rw [hfp]
                    exact hsm
                  have hS3 : MdsClient.replyStage3 st msg = st := by
                    unfold MdsClient.replyStage3
                    dsimp only
                    simp only [hc0]
                  rw [hS3, MdsClient.handleReply_unsafe_eq st msg req hfr hgu hsafe]
                  exact hS3
              | some cur =>
                  have hc0 : (MdsClient.findPool st msg.tid).bind
                      (fun r => r.sessionMds) = some cur := by
                    rw [hfp]
                    exact hsm
                  by_cases hne : cur ≠ msg.srcMds
                  · have hfr2 : MdsClient.findRegistered (MdsClient.updateReq st
                        msg.tid (fun r => { r with sessionMds :=
                          MdsClient.sessionRankIfPresent st msg.srcMds })) msg.tid =
                        some { req with sessionMds :=
                          MdsClient.sessionRankIfPresent st msg.srcMds } := by
                      rw [MdsClient.findRegistered_updateReq _ msg.tid
                        (fun r => { r with sessionMds :=
                          MdsClient.sessionRankIfPresent st msg.srcMds })
                        (fun r => rfl) (fun r => rfl), hfr]
                      rfl
                    have hγ : (MdsClient.findPool (MdsClient.updateReq st msg.tid
                        (fun r => { r with sessionMds :=
                          MdsClient.sessionRankIfPresent st msg.srcMds }))
                        msg.tid).bind (fun r => r.sessionMds) =
                        MdsClient.sessionRankIfPresent st msg.srcMds := by
                      rw [MdsClient.findPool_updateReq _ msg.tid
                        (fun r => { r with sessionMds :=
                          MdsClient.sessionRankIfPresent st msg.srcMds })
                        (fun r => rfl), hfp]
                      rfl
                    cases hrank : MdsClient.sessionRankIfPresent st msg.srcMds with
                    | none =>
                        have hS3 : MdsClient.replyStage3 st msg =
                            MdsClient.updateReq st msg.tid (fun r =>
                              { r with sessionMds :=
                                MdsClient.sessionRankIfPresent st msg.srcMds }) := by
                          unfold MdsClient.replyStage3
                          dsimp only
                          simp only [hc0]
                          rw [if_pos hne]
                          simp only [hγ.trans hrank]
                        rw [hS3]
                        rw [MdsClient.handleReply_unsafe_eq _ msg
                          { req with sessionMds :=
                            MdsClient.sessionRankIfPresent st msg.srcMds } hfr2 hgu hsafe]
                        have hγ2 : (MdsClient.findPool (MdsClient.updateReq st msg.tid
                            (fun r => { r with sessionMds :=
                              MdsClient.sessionRankIfPresent st msg.srcMds }))
                            msg.tid).bind (fun r => r.sessionMds) = none :=
                          hγ.trans hrank
                        unfold MdsClient.replyStage3
                        dsimp only
                        simp only [hγ2]
                    | some rk =>
                        have hS3 : MdsClient.replyStage3 st msg =
                            MdsClient.replyParsed (MdsClient.markUnsafe
                              (MdsClient.updateReq st msg.tid (fun r =>
                                { r with sessionMds :=
                                  MdsClient.sessionRankIfPresent st msg.srcMds }))
                              msg.tid rk) msg rk := by
                          unfold MdsClient.replyStage3
                          dsimp only
                          simp only [hc0]
                          rw [if_pos hne]
                          simp only [hγ.trans hrank]
                          rw [if_neg hsafe]
                        rw [hS3]
                        exact MdsClient.handleReply_after_markUnsafe _ msg
                          { req with sessionMds :=
                            MdsClient.sessionRankIfPresent st msg.srcMds } rk hfr2 hsafe
                  · have hS3 : MdsClient.replyStage3 st msg =
                        MdsClient.replyParsed (MdsClient.markUnsafe st msg.tid cur)
                          msg cur := by
                      unfold MdsClient.replyStage3
                      dsimp only
                      simp only [hc0]
                      rw [if_neg hne]
                      simp only [hc0]
                      rw [if_neg hsafe]
                    rw [hS3]
                    exact MdsClient.handleReply_after_markUnsafe st msg req cur hfr hsafe

/-- C8: `handle_reply` preserves the unsafe-list invariant — in every
reachable step, each tid on any session unsafe list belongs to a request
with `r_got_unsafe` set, `r_got_safe` unset and still registered (so a
request that got its safe reply is on no unsafe list): the safe path
unregisters and unlinks the unsafe item in the same step, and a request
is put on the unsafe list only when its unsafe reply is recorded. -/
theorem unsafe_list_invariant (st : MdsClient.Mdsc) (msg : MdsClient.ReplyMsg)
    (h : MdsClient.Inv st) : MdsClient.Inv (MdsClient.handleReply st msg) := by
  cases hfr : MdsClient.findRegistered st msg.tid with
  | none =>
      rw [MdsClient.handleReply_of_none st msg hfr]
      exact h
  | some req =>
      by_cases hdup : (req.gotUnsafe = true ∧ ¬ msg.safe = true) ∨
          (req.gotSafe = true ∧ msg.safe = true)
      · have hR : MdsClient.handleReply st msg = st := by
          unfold MdsClient.handleReply
          rw [hfr]
          dsimp only
          rw [if_pos hdup]
        rw [hR]
        exact h
      · unfold MdsClient.handleReply
        rw [hfr]
        dsimp only
        rw [if_neg hdup]
        by_cases hsafe : msg.safe = true
        · rw [if_pos hsafe]
          by_cases hgu2 : req.gotUnsafe = true
          · rw [if_pos ⟨hsafe, hgu2⟩]
            split
            · exact MdsClient.Inv_safe_removed st msg.tid h
            · exact MdsClient.Inv_safe_removed st msg.tid h
          · rw [if_neg (fun hc => hgu2 hc.2)]
            have hgu3 : req.gotUnsafe = false := by
              cases hg : req.gotUnsafe
              · rfl
              · exact absurd hg hgu2
            exact MdsClient.Inv_replyStage3_safe _ msg hsafe
              (MdsClient.Inv_safe_unreg st msg.tid h req hfr hgu3)
        · rw [if_neg hsafe, if_neg (fun hc => hsafe hc.1)]
          exact MdsClient.Inv_replyStage3_of_req st msg req hfr h

/-- Witness for `unsafe_list_invariant`: the one-request one-open-session
state satisfies the invariant, and still does after its unsafe reply is
handled (which puts tid 1 on the session unsafe list). -/
theorem unsafe_list_invariant_witness :
    MdsClient.Inv MdsClient.oneReqOpenSessState ∧
    MdsClient.Inv (MdsClient.handleReply MdsClient.oneReqOpenSessState
      MdsClient.replyU1) :=
  ⟨by
      unfold MdsClient.Inv MdsClient.PoolNodup MdsClient.RegInv
        MdsClient.UnsafeListInv MdsClient.slotUnsafeOk
      decide,
   unsafe_list_invariant MdsClient.oneReqOpenSessState MdsClient.replyU1
    (by
      unfold MdsClient.Inv MdsClient.PoolNodup MdsClient.RegInv
        MdsClient.UnsafeListInv MdsClient.slotUnsafeOk
      decide)⟩

/-- C2 (counterexample): a registered request that has received its
unsafe (but not yet its safe) reply is skipped by `kick_requests` — the
state with one such request on the closing session comes back unchanged,
with no re-dispatch at all — although the claim asks every registered
request that has not yet received a *safe* reply to be re-dispatched. -/
theorem kick_requests_skips_unsafe :
    MdsClient.kickRequests MdsClient.unsafeReqState 0 false =
      MdsClient.unsafeReqState := by decide

/-- C2 (amended): `kick_requests(mds, all)` walks the registered
requests in gang-lookup batches of 10 by ascending tid and, for every
registered request that has not seen an *unsafe* reply and whose current
session (or, under `all`, forwarder session) is at rank `mds`, drops the
session references and re-enters `__do_request` (ghost events
`putSessions` and `doReq` for its tid); requests whose unsafe reply
already arrived are skipped even though their safe reply is pending. -/
theorem kick_requests_redispatch (st : MdsClient.Mdsc) (mds : Nat) (all : Bool)
    (tid : Nat) (r : MdsClient.Request)
    (hfp : MdsClient.findPool st tid = some r) (hreg : r.registered = true)
    (hgu : r.gotUnsafe = false)
    (hsess : r.sessionMds = some mds ∨ (all = true ∧ r.fwdSessionMds = some mds))
    (htl : tid ≤ st.lastTid) :
    MdsClient.REvent.putSessions tid ∈ (MdsClient.kickRequests st mds all).events ∧
    MdsClient.REvent.doReq tid ∈ (MdsClient.kickRequests st mds all).events :=
  MdsClient.kickRequests_fires st mds all tid r hfp hreg hgu hsess htl

/-- Witness for `kick_requests_redispatch`: the state with one
registered request (tid 1) on the open session at rank 0 — kicking rank
0 drops its session refs and re-enters `__do_request`. -/
theorem kick_requests_redispatch_witness :
    (MdsClient.findPool MdsClient.oneReqOpenSessState 1 =
        some { MdsClient.regReq 1 with sessionMds := some 0 } ∧
      ({ MdsClient.regReq 1 with sessionMds := some 0 } :
        MdsClient.Request).registered = true ∧
      ({ MdsClient.regReq 1 with sessionMds := some 0 } :
        MdsClient.Request).gotUnsafe = false ∧
      (1 : Nat) ≤ MdsClient.oneReqOpenSessState.lastTid) ∧
    (MdsClient.REvent.putSessions 1 ∈
        (MdsClient.kickRequests MdsClient.oneReqOpenSessState 0 false).events ∧
      MdsClient.REvent.doReq 1 ∈
        (MdsClient.kickRequests MdsClient.oneReqOpenSessState 0 false).events) :=
  ⟨⟨by decide, by decide, by decide, by decide⟩,
   kick_requests_redispatch MdsClient.oneReqOpenSessState 0 false 1
     { MdsClient.regReq 1 with sessionMds := some 0 } (by decide) (by decide)
     (by decide) (Or.inl (by decide)) (by decide)⟩
